import Mathlib

/-!
# tux3 commit engine: `user/kernel/commit.c` and `user/writeback.c`

A shallow embedding of the delta/rollup commit code of tux3 and of the
userland writeback glue.  The in-memory superblock `struct sb` is the record
`Sb`; every function of the two C files is a Lean function of the same name
that passes the superblock state explicitly.

What the two files use without defining it is either a parameter collected in
`Env` (constants of `tux3.h`, root packing, and the results of the block
allocator, block cache, device, orphan tables and inode flush) or, for the log
and the deferred-free stash, a definition modelled from the specification and
marked so.  Every call to the log, the allocator, the block cache, the device,
the orphan tables and the flush callbacks is recorded, with its arguments and
its result, in the ghost field `Sb.trace`, so that the order of external
effects can be stated.

A function that can be stopped by a failed `assert` returns `Option Int`
together with the state reached: `none` is the aborted run.
-/

namespace Tux3

/-! ## Machine integers and big-endian fields -/

/-- The `w`-byte big-endian image of `x` (`cpu_to_be16/32/64` for `w = 2/4/8`),
most significant byte first; bits of `x` above `8 * w` are dropped. -/
def cpu_to_be : Nat → Nat → List Nat
  | 0, _ => []
  | w + 1, x => (x / 256 ^ w) % 256 :: cpu_to_be w x

/-- The value of a big-endian byte string (`be16/32/64_to_cpu`). -/
def be_to_cpu (bs : List Nat) : Nat :=
  bs.foldl (fun acc b => acc * 256 + b) 0

/-- Wrap-around of a C `unsigned`. -/
def u32 (x : Nat) : Nat := x % 2 ^ 32

/-- Wrap-around of a C `u64`. -/
def u64 (x : Nat) : Nat := x % 2 ^ 64

/-- The mask `~(-1ULL << 48)` of `apply_defered_bfree` and `relog_as_bfree`,
computed in 64-bit arithmetic as the source writes it. -/
def mask48 : Nat := (2 ^ 64 - 1) ^^^ u64 ((2 ^ 64 - 1) <<< 48)

/-- Errno value of `EINVAL`. -/
def EINVAL : Int := 22

/-! ## Data model -/

/-- The fields of `struct disksuper` the two files use, each as the bytes
stored on disk. -/
structure Disksuper where
  magic : List Nat
  blockbits : List Nat
  volblocks : List Nat
  freeblocks : List Nat
  nextalloc : List Nat
  atomdictsize : List Nat
  atomgen : List Nat
  freeatom : List Nat
  iroot : List Nat
  oroot : List Nat
  logchain : List Nat
  logcount : List Nat
deriving DecidableEq, Repr

/-- The record `struct root`: a b-tree root block and the tree depth. -/
structure Root where
  block : Nat
  depth : Nat
deriving DecidableEq, Repr

/-- Method tables handed to `init_btree`. -/
inductive BtreeOps
  | none
  | itable_ops
  | otable_ops
deriving DecidableEq, Repr

/-- The part of `struct btree` that `init_btree` fills in. -/
structure Btree where
  root : Root
  ops : BtreeOps
deriving DecidableEq, Repr

/-- Log records the commit code emits. -/
inductive LogEntry
  | DELTA
  | ROLLUP
  | FREEBLOCKS (freeblocks : Nat)
  | BFREE_RELOG (block : Nat) (count : Nat)
deriving DecidableEq, Repr

/-- A staged log block (`struct logblock`): magic, back pointer, records. -/
structure Logblock where
  magic : List Nat
  logchain : List Nat
  entries : List LogEntry
deriving DecidableEq, Repr

/-- The fields of `struct inode` that writeback reads and writes.  Whether the
inode's `list` node is linked is read off the lists that hold its handle. -/
structure Inode where
  inum : Nat
  state : Nat
deriving DecidableEq, Repr

/-- One call of a function that is not defined in the two files, with its
arguments and its result. -/
inductive Event
  | flush_buffers (inode : Nat) (err : Int)
  | write_inode (inode : Nat) (err : Int)
  | flush_list (buffers : List Nat)
  | orphan_del (inodes : List Nat) (err : Int)
  | orphan_add (inodes : List Nat) (err : Int)
  | log (entry : LogEntry)
  | balloc (count : Nat) (err : Int) (block : Nat)
  | bfree (block : Nat) (count : Nat) (err : Int)
  | blockio_write (index : Nat) (block : Nat) (data : Logblock) (err : Int)
  | devio_read (super : Disksuper) (err : Int)
  | devio_write (super : Disksuper) (err : Int)
deriving DecidableEq, Repr

/-- The in-memory superblock `struct sb`.  Inodes are addressed by handle
(the `struct inode *` of the source); a list of inodes is the list of the
handles linked on it, head first.  The last four fields are not members of
`struct sb`: the on-stack list head of `sync_inodes`, the two function-static
counters of `need_delta` and `need_rollup`, and the record of external
calls. -/
structure Sb where
  super : Disksuper
  blockbits : Nat
  volblocks : Nat
  version : Nat
  blocksize : Nat
  blockmask : Nat
  entries_per_node : Nat
  atable_base : Nat
  freeblocks : Nat
  nextalloc : Nat
  atomdictsize : Nat
  atomgen : Nat
  freeatom : Nat
  itable : Btree
  otable : Btree
  delta : Nat
  rollup : Nat
  lognext : Nat
  logbuf : Bool
  logmap : Nat → Logblock
  defree : List Nat
  derollup : List Nat
  inodes : Nat → Inode
  bitmap : Nat
  volmap : Nat
  dirty_inodes : List Nat
  alloc_inodes : List Nat
  orphan_add : List Nat
  orphan_del : List Nat
  pinned : List Nat
  sync_inodes_dirty_inodes : List Nat
  need_delta_crudehack : Nat
  need_rollup_crudehack : Nat
  trace : List Event

/-- What a flush callback reports: its error code and the
`__mark_inode_dirty (inode, flags)` calls it made while flushing. -/
structure FlushResult where
  err : Int
  dirtied : List (Nat × Nat)

/-- Everything the two files use without defining it.  Constants and pure
helpers of `tux3.h` come first; the remaining fields give the result of each
external call as a function of the state in which it is made (the state holds
the whole call history in `trace`). -/
structure Env where
  TUX3_MAGIC : List Nat
  TUX3_MAGIC_LOG : Nat
  TUX_BITMAP_INO : Nat
  TUX_VOLMAP_INO : Nat
  I_DIRTY_SYNC : Nat
  I_DIRTY_DATASYNC : Nat
  I_DIRTY_PAGES : Nat
  pack_root : Root → Nat
  unpack_root : Nat → Root
  calc_entries_per_node : Nat → Nat
  atable_init_base : Sb → Nat
  log_fits : List LogEntry → LogEntry → Bool
  flush_buffers : Sb → Nat → FlushResult
  write_inode : Sb → Nat → FlushResult
  tux3_rollup_orphan_del : Sb → List Nat → Int × List Nat
  tux3_rollup_orphan_add : Sb → List Nat → Int × List Nat
  stash_value : Sb → Nat → Int
  balloc : Sb → Int × Nat
  bfree : Sb → Nat → Nat → Int
  blockio_write : Sb → Nat → Nat → Int
  devio_read : Sb → Int × Disksuper
  devio_write : Sb → Disksuper → Int

/-- The flag set `I_DIRTY`. -/
def Env.I_DIRTY (env : Env) : Nat :=
  env.I_DIRTY_SYNC ||| env.I_DIRTY_DATASYNC ||| env.I_DIRTY_PAGES

/-- Record one external call. -/
def Sb.emit (s : Sb) (e : Event) : Sb :=
  { s with trace := s.trace ++ [e] }

/-! ## `user/writeback.c` -/

/-- The test `list_empty(&inode->list)`: the inode is linked on no list. -/
def list_empty (inode : Nat) (s : Sb) : Prop :=
  inode ∉ s.dirty_inodes ∧ inode ∉ s.sync_inodes_dirty_inodes

instance (inode : Nat) (s : Sb) : Decidable (list_empty inode s) :=
  inferInstanceAs (Decidable (_ ∧ _))

/-- The call `list_del_init(&inode->list)`: unlink the inode from the list it
is on. -/
def list_del_init (inode : Nat) (s : Sb) : Sb :=
  { s with
    dirty_inodes := s.dirty_inodes.filter (fun i => i ≠ inode),
    sync_inodes_dirty_inodes := s.sync_inodes_dirty_inodes.filter (fun i => i ≠ inode) }

/-- The assignment `inode->state = v`. -/
def set_state (inode : Nat) (v : Nat) (s : Sb) : Sb :=
  { s with inodes := Function.update s.inodes inode { s.inodes inode with state := v } }

/-- Embedding of `clear_inode`. -/
def clear_inode (inode : Nat) (s : Sb) : Sb :=
  set_state inode 0 (list_del_init inode s)

/-- Embedding of `__mark_inode_dirty`. -/
def __mark_inode_dirty (inode : Nat) (flags : Nat) (s : Sb) : Sb :=
  if (s.inodes inode).state &&& flags ≠ flags then
    let s1 := set_state inode ((s.inodes inode).state ||| flags) s
    if list_empty inode s1 then
      { s1 with dirty_inodes := s1.dirty_inodes ++ [inode] }
    else s1
  else s

/-- Embedding of `mark_inode_dirty`. -/
def mark_inode_dirty (env : Env) (inode : Nat) (s : Sb) : Sb :=
  __mark_inode_dirty inode env.I_DIRTY s

/-- Apply the `__mark_inode_dirty` calls a flush callback made. -/
def apply_dirtied (l : List (Nat × Nat)) (s : Sb) : Sb :=
  l.foldl (fun t p => __mark_inode_dirty p.1 p.2 t) s

/-- The call `flush_buffers(mapping(inode))`. -/
def flush_buffers (env : Env) (inode : Nat) (s : Sb) : Int × Sb :=
  let r := env.flush_buffers s inode
  (r.err, apply_dirtied r.dirtied (s.emit (Event.flush_buffers inode r.err)))

/-- The call `write_inode(inode)` (the weak dummy of `writeback.c` is
overridden by the inode layer). -/
def write_inode (env : Env) (inode : Nat) (s : Sb) : Int × Sb :=
  let r := env.write_inode s inode
  (r.err, apply_dirtied r.dirtied (s.emit (Event.write_inode inode r.err)))

/-- The operand `~I_DIRTY` as a C `unsigned`. -/
def not_I_DIRTY (env : Env) : Nat := 2 ^ 32 - 1 - u32 env.I_DIRTY

/-- Embedding of `sync_inode`. -/
def sync_inode (env : Env) (inode : Nat) (s : Sb) : Int × Sb :=
  let dirty := (s.inodes inode).state
  let s1 := list_del_init inode (set_state inode (dirty &&& not_I_DIRTY env) s)
  let r1 := if dirty &&& env.I_DIRTY_PAGES ≠ 0 then flush_buffers env inode s1 else (0, s1)
  if r1.1 ≠ 0 then r1
  else
    let r2 :=
      if dirty &&& (env.I_DIRTY_SYNC ||| env.I_DIRTY_DATASYNC) ≠ 0 then write_inode env inode r1.2
      else (0, r1.2)
    if r2.1 ≠ 0 then r2 else (0, r2.2)

/-- The `list_for_each_entry_safe` loop of `sync_inodes` over the detached
list: `(0, _)` when the loop ran to its end, the error of the first failed
`sync_inode` otherwise. -/
def sync_inodes_loop (env : Env) : List Nat → Sb → Int × Sb
  | [], s => (0, s)
  | inode :: rest, s =>
    if (s.inodes inode).inum = env.TUX_BITMAP_INO ∨ (s.inodes inode).inum = env.TUX_VOLMAP_INO then
      sync_inodes_loop env rest s
    else
      let r := sync_inode env inode s
      if r.1 ≠ 0 then r else sync_inodes_loop env rest r.2

/-- The `error:` exit of `sync_inodes`: splice what is left of the working
list back onto the head of `sb->dirty_inodes`. -/
def sync_inodes_error (err : Int) (s : Sb) : Option Int × Sb :=
  (some err,
    { s with
      dirty_inodes := s.sync_inodes_dirty_inodes ++ s.dirty_inodes,
      sync_inodes_dirty_inodes := [] })

/-- Embedding of `sync_inodes`. -/
def sync_inodes (env : Env) (s : Sb) : Option Int × Sb :=
  let s0 : Sb :=
    { s with sync_inodes_dirty_inodes := s.dirty_inodes, dirty_inodes := [] }
  let r := sync_inodes_loop env s0.sync_inodes_dirty_inodes s0
  if r.1 ≠ 0 then sync_inodes_error r.1 r.2
  else
    let rb := sync_inode env r.2.bitmap r.2
    if rb.1 ≠ 0 then sync_inodes_error rb.1 rb.2
    else
      let rv := sync_inode env rb.2.volmap rb.2
      if rv.1 ≠ 0 then sync_inodes_error rv.1 rv.2
      else if rv.2.sync_inodes_dirty_inodes = [] then (some 0, rv.2)
      else (none, rv.2)

/-! ## Helpers of `commit.c` that live in other files -/

/-- Modelled from the spec: `init_btree` (btree.c, not in the two files)
installs the given root and method table in the b-tree. -/
def init_btree (root : Root) (ops : BtreeOps) : Btree :=
  { root := root, ops := ops }

/-- Modelled from the spec: the deferred-free encoding of `defer_bfree`
(stash code, not in the two files), `count` in the top 16 bits and `block` in
the low 48 of a 64-bit word. -/
def defer_value (block : Nat) (count : Nat) : Nat :=
  u64 (count <<< 48 ||| block)

/-- Modelled from the spec: `defer_bfree(&sb->derollup, block, count)` pushes
the packed pair onto the stash; `write_log` ignores its result. -/
def defer_bfree_derollup (block : Nat) (count : Nat) (s : Sb) : Sb :=
  { s with derollup := s.derollup ++ [defer_value block count] }

/-- The call `stash_value(&sb->defree, val)`: the stash code (not in the two
files) reports an error code, given by `env.stash_value`; on success the value
is pushed onto `defree`. -/
def stash_value_defree (env : Env) (val : Nat) (s : Sb) : Int × Sb :=
  let err := env.stash_value s val
  if err ≠ 0 then (err, s) else (0, { s with defree := s.defree ++ [val] })

/-- Modelled from the spec: the traversal shared by `stash_walk` and `unstash`
(stash code, not in the two files).  The actor is applied to the stashed values
in order and the traversal stops at the first error; the result is the error
code, the values not traversed, and the state reached. -/
def stash_traverse (actor : Nat → Sb → Int × Sb) : List Nat → Sb → Int × List Nat × Sb
  | [], s => (0, [], s)
  | v :: rest, s =>
    let r := actor v s
    if r.1 ≠ 0 then (r.1, rest, r.2) else stash_traverse actor rest r.2

/-- Modelled from the spec: `stash_walk(sb, &sb->defree, actor)`, the read-only
traversal of `defree`. -/
def stash_walk_defree (actor : Nat → Sb → Int × Sb) (s : Sb) : Int × Sb :=
  let r := stash_traverse actor s.defree s
  (r.1, r.2.2)

/-- Modelled from the spec: `unstash(sb, &sb->defree, actor)`, the traversal
that empties `defree`, leaving the untraversed values when the actor fails. -/
def unstash_defree (actor : Nat → Sb → Int × Sb) (s : Sb) : Int × Sb :=
  let r := stash_traverse actor s.defree s
  (r.1, { r.2.2 with defree := r.2.1 })

/-- Modelled from the spec: `unstash(sb, &sb->derollup, actor)`, the traversal
that empties `derollup`, leaving the untraversed values when the actor fails. -/
def unstash_derollup (actor : Nat → Sb → Int × Sb) (s : Sb) : Int × Sb :=
  let r := stash_traverse actor s.derollup s
  (r.1, { r.2.2 with derollup := r.2.1 })

/-- Modelled from the spec: `log_next` (log.c, not in the two files) takes a
fresh block from `logmap` at index `lognext`, carrying the magic and a
placeholder `logchain`, and advances `lognext`. -/
def log_next (env : Env) (s : Sb) : Sb :=
  { s with
    logmap := Function.update s.logmap s.lognext
      { magic := cpu_to_be 2 env.TUX3_MAGIC_LOG, logchain := cpu_to_be 8 0, entries := [] },
    lognext := u32 (s.lognext + 1),
    logbuf := true }

/-- Modelled from the spec: appending one record to the log (log.c, not in the
two files).  The record goes into the open block at index `lognext - 1`; when
no block is open or the open block is full (`env.log_fits` says no) a fresh
block is taken first. -/
def log_append (env : Env) (e : LogEntry) (s : Sb) : Sb :=
  let s1 :=
    if s.logbuf = true ∧ env.log_fits (s.logmap (s.lognext - 1)).entries e = true then s
    else log_next env s
  let cur := s1.logmap (s1.lognext - 1)
  { s1 with
    logmap := Function.update s1.logmap (s1.lognext - 1) { cur with entries := cur.entries ++ [e] },
    trace := s1.trace ++ [Event.log e] }

/-- The call `log_delta(sb)`. -/
def log_delta (env : Env) (s : Sb) : Sb := log_append env LogEntry.DELTA s

/-- The call `log_rollup(sb)`. -/
def log_rollup (env : Env) (s : Sb) : Sb := log_append env LogEntry.ROLLUP s

/-- The call `log_freeblocks(sb, freeblocks)`. -/
def log_freeblocks (env : Env) (freeblocks : Nat) (s : Sb) : Sb :=
  log_append env (LogEntry.FREEBLOCKS freeblocks) s

/-- The call `log_bfree_relog(sb, block, count)`. -/
def log_bfree_relog (env : Env) (block : Nat) (count : Nat) (s : Sb) : Sb :=
  log_append env (LogEntry.BFREE_RELOG block count) s

/-- Modelled from the spec: `log_finish` (log.c, not in the two files) closes
the open log block. -/
def log_finish (s : Sb) : Sb := { s with logbuf := false }

/-- Modelled from the spec: `log_finish_cycle` (log.c, not in the two files)
returns the number of blocks staged in this delta and clears `lognext`. -/
def log_finish_cycle (s : Sb) : Nat × Sb := (s.lognext, { s with lognext := 0 })

/-- The call `balloc(sb, 1, &block)`. -/
def balloc (env : Env) (s : Sb) : Int × Nat × Sb :=
  let r := env.balloc s
  (r.1, r.2, s.emit (Event.balloc 1 r.1 r.2))

/-- The call `bfree(sb, block, count)`. -/
def bfree (env : Env) (block : Nat) (count : Nat) (s : Sb) : Int × Sb :=
  let err := env.bfree s block count
  (err, s.emit (Event.bfree block count err))

/-! ## `user/kernel/commit.c`

The file is read as the userland build: `__KERNEL__` is not defined and
`ALLOW_FRONTEND_MODIFY` is defined by the file itself. -/

/-- Embedding of `setup_roots`.  The inode-table root is decoded from the
record passed in, the orphan-table root from `sb->super`. -/
def setup_roots (env : Env) (super : Disksuper) (s : Sb) : Sb :=
  let iroot_val := be_to_cpu super.iroot
  let oroot_val := be_to_cpu s.super.oroot
  { s with
    itable := init_btree (env.unpack_root iroot_val) BtreeOps.itable_ops,
    otable := init_btree (env.unpack_root oroot_val) BtreeOps.otable_ops }

/-- Embedding of `setup_sb`.  Modelled from the spec: the build macro
`ATOMIC` (tux3.h, not in the two files) is taken as not defined, so that
`freeblocks` is part of the disk record as the spec lays it out.  The lock
initialisers have no state here. -/
def setup_sb (env : Env) (super : Disksuper) (s : Sb) : Sb :=
  let s1 : Sb :=
    { s with
      alloc_inodes := [], orphan_add := [], orphan_del := [], dirty_inodes := [],
      pinned := [], defree := [], derollup := [] }
  let s2 : Sb :=
    { s1 with
      blockbits := be_to_cpu super.blockbits,
      volblocks := be_to_cpu super.volblocks,
      version := 0 }
  let s3 : Sb :=
    { s2 with
      blocksize := u32 (1 <<< s2.blockbits),
      blockmask := u32 ((1 <<< s2.blockbits) - 1) }
  let s4 : Sb := { s3 with entries_per_node := env.calc_entries_per_node s3.blocksize }
  let s5 : Sb := { s4 with atable_base := env.atable_init_base s4 }
  let s6 : Sb :=
    { s5 with
      freeblocks := be_to_cpu super.freeblocks,
      nextalloc := be_to_cpu super.nextalloc,
      atomdictsize := be_to_cpu super.atomdictsize,
      atomgen := be_to_cpu super.atomgen,
      freeatom := be_to_cpu super.freeatom }
  setup_roots env super s6

/-- Embedding of `load_sb`.  The device read fills `sb->super` with what the
device delivers, also when it reports an error. -/
def load_sb (env : Env) (s : Sb) : Int × Sb :=
  let r := env.devio_read s
  let s1 : Sb := { s.emit (Event.devio_read r.2 r.1) with super := r.2 }
  if r.1 ≠ 0 then (r.1, s1)
  else if s1.super.magic.take 16 ≠ env.TUX3_MAGIC.take 16 then (-EINVAL, s1)
  else (0, setup_sb env s1.super s1)

/-- Embedding of `save_sb` (with `ATOMIC` not defined, see `setup_sb`). -/
def save_sb (env : Env) (s : Sb) : Int × Sb :=
  let super : Disksuper :=
    { s.super with
      blockbits := cpu_to_be 2 s.blockbits,
      volblocks := cpu_to_be 8 s.volblocks,
      iroot := cpu_to_be 8 (env.pack_root s.itable.root),
      oroot := cpu_to_be 8 (env.pack_root s.otable.root),
      freeblocks := cpu_to_be 8 s.freeblocks,
      nextalloc := cpu_to_be 8 s.nextalloc,
      atomdictsize := cpu_to_be 8 s.atomdictsize,
      freeatom := cpu_to_be 4 s.freeatom,
      atomgen := cpu_to_be 4 s.atomgen }
  let s1 : Sb := { s with super := super }
  let err := env.devio_write s1 super
  (err, s1.emit (Event.devio_write super err))

/-- Embedding of `relog_frontend_defer_as_bfree`. -/
def relog_frontend_defer_as_bfree (env : Env) (val : Nat) (s : Sb) : Int × Sb :=
  (0, log_bfree_relog env (val &&& mask48) (val >>> 48) s)

/-- Embedding of `relog_as_bfree`. -/
def relog_as_bfree (env : Env) (val : Nat) (s : Sb) : Int × Sb :=
  stash_value_defree env val (log_bfree_relog env (val &&& mask48) (val >>> 48) s)

/-- Embedding of `new_cycle_log` (its `#if 0` part left out). -/
def new_cycle_log (s : Sb) : Sb :=
  { s with super := { s.super with logcount := cpu_to_be 4 0 } }

/-- The call `flush_list(&sb->pinned)`: the pinned buffers are handed to the
block cache and leave the list. -/
def flush_list_pinned (s : Sb) : Sb :=
  { s.emit (Event.flush_list s.pinned) with pinned := [] }

/-- The call `tux3_rollup_orphan_del(sb, &orphan_del)`: error code and what is
left on the list. -/
def tux3_rollup_orphan_del (env : Env) (l : List Nat) (s : Sb) : Int × List Nat × Sb :=
  let r := env.tux3_rollup_orphan_del s l
  (r.1, r.2, s.emit (Event.orphan_del l r.1))

/-- The call `tux3_rollup_orphan_add(sb, &orphan_add)`: error code and what is
left on the list. -/
def tux3_rollup_orphan_add (env : Env) (l : List Nat) (s : Sb) : Int × List Nat × Sb :=
  let r := env.tux3_rollup_orphan_add s l
  (r.1, r.2, s.emit (Event.orphan_add l r.1))

/-- The statements of `rollup_log` from `log_rollup` to the `unstash` of
`derollup`: the rollup marker, the free-block count, and the two stashes
logged again. -/
def rollup_log_relog (env : Env) (s : Sb) : Sb :=
  let s4 := log_rollup env s
  let s5 := log_freeblocks env s4.freeblocks s4
  let s6 := (stash_walk_defree (relog_frontend_defer_as_bfree env) s5).2
  (unstash_derollup (relog_as_bfree env) s6).2

/-- The statements of `rollup_log` that take the orphan lists and start the
new log cycle: `sb->rollup++`, the two `list_splice_init`, `new_cycle_log`. -/
def rollup_log_begin (s : Sb) : Sb :=
  let s1 : Sb := { s with rollup := u32 (s.rollup + 1) }
  new_cycle_log { s1 with orphan_add := [], orphan_del := [] }

/-- The statements of `rollup_log` up to and including the bitmap flush, which
cannot return early; the two local orphan lists are taken by `rollup_log`
itself. -/
def rollup_log_flush (env : Env) (s : Sb) : Sb :=
  let s7 := rollup_log_relog env (rollup_log_begin s)
  let s8 := flush_list_pinned s7
  (sync_inode env s8.bitmap s8).2

/-- Embedding of `rollup_log`. -/
def rollup_log (env : Env) (s : Sb) : Option Int × Sb :=
  let orphan_add := s.orphan_add
  let orphan_del := s.orphan_del
  let rd := tux3_rollup_orphan_del env orphan_del (rollup_log_flush env s)
  if rd.1 ≠ 0 then (some rd.1, rd.2.2)
  else
    let ra := tux3_rollup_orphan_add env orphan_add rd.2.2
    if ra.1 ≠ 0 then (some ra.1, ra.2.2)
    else if ra.2.1 = [] ∧ rd.2.1 = [] then (some 0, ra.2.2)
    else (none, ra.2.2)

/-- Embedding of `stage_delta`.  The source passes `delta` as a second
argument; the `sync_inodes` of `writeback.c` takes the superblock only. -/
def stage_delta (env : Env) (s : Sb) : Option Int × Sb :=
  sync_inodes env s

/-- Embedding of `write_leaves`. -/
def write_leaves (env : Env) (s : Sb) : Int × Sb :=
  sync_inode env s.volmap s

/-- How a loop body ends: fall through to the next iteration, `return err`,
or a failed `assert`. -/
inductive Exit
  | next
  | ret (err : Int)
  | abort
deriving DecidableEq, Repr

/-- The call `blockio(WRITE, buffer, block)` for the staged log block `index`. -/
def blockio_write (env : Env) (index : Nat) (block : Nat) (s : Sb) : Int × Sb :=
  let err := env.blockio_write s index block
  (err, s.emit (Event.blockio_write index block (s.logmap index) err))

/-- The assignment `log->logchain = sb->super.logchain` on the staged log
block `index`. -/
def set_log_logchain (index : Nat) (s : Sb) : Sb :=
  { s with
    logmap := Function.update s.logmap index
      { s.logmap index with logchain := s.super.logchain } }

/-- The assignment `sb->super.logchain = cpu_to_be64(block)`. -/
def set_super_logchain (block : Nat) (s : Sb) : Sb :=
  { s with super := { s.super with logchain := cpu_to_be 8 block } }

/-- The body of the `for` loop of `write_log` for one `index`. -/
def write_log_block (env : Env) (index : Nat) (s : Sb) : Exit × Sb :=
  let a := balloc env s
  if a.1 ≠ 0 then (Exit.ret a.1, a.2.2)
  else
    let block := a.2.1
    let s1 := a.2.2
    if (s1.logmap index).magic ≠ cpu_to_be 2 env.TUX3_MAGIC_LOG then (Exit.abort, s1)
    else
      let w := blockio_write env index block (set_log_logchain index s1)
      if w.1 ≠ 0 then (Exit.ret w.1, (bfree env block 1 w.2).2)
      else (Exit.next, set_super_logchain block (defer_bfree_derollup block 1 w.2))

/-- The `for` loop of `write_log`, from `index` on, for at most `fuel`
iterations. -/
def write_log_loop (env : Env) : Nat → Nat → Sb → Exit × Sb
  | 0, _, s => (Exit.next, s)
  | fuel + 1, index, s =>
    if index < s.lognext then
      let r := write_log_block env index s
      match r.1 with
      | Exit.next => write_log_loop env fuel (index + 1) r.2
      | _ => r
    else (Exit.next, s)

/-- Embedding of `write_log`.  The loop gets `lognext` iterations of fuel, one
for every index below `lognext`. -/
def write_log (env : Env) (s : Sb) : Option Int × Sb :=
  let s0 := log_finish s
  let r := write_log_loop env s0.lognext 0 s0
  match r.1 with
  | Exit.ret err => (some err, r.2)
  | Exit.abort => (none, r.2)
  | Exit.next =>
    let logcount := u32 (be_to_cpu r.2.super.logcount)
    let c := log_finish_cycle r.2
    let logcount1 := u32 (logcount + c.1)
    (some 0, { c.2 with super := { c.2.super with logcount := cpu_to_be 4 logcount1 } })

/-- Embedding of `apply_defered_bfree`. -/
def apply_defered_bfree (env : Env) (val : Nat) (s : Sb) : Int × Sb :=
  bfree env (val &&& mask48) (val >>> 48) s

/-- Embedding of `commit_delta`. -/
def commit_delta (env : Env) (s : Sb) : Int × Sb :=
  let r := save_sb env s
  if r.1 ≠ 0 then r
  else unstash_defree (apply_defered_bfree env) r.2

/-- Embedding of `need_delta`; its static counter is a field of the state. -/
def need_delta (s : Sb) : Bool × Sb :=
  let c := u32 (s.need_delta_crudehack + 1)
  (c % 10 = 0, { s with need_delta_crudehack := c })

/-- Embedding of `need_rollup`; its static counter is a field of the state. -/
def need_rollup (s : Sb) : Bool × Sb :=
  let c := u32 (s.need_rollup_crudehack + 1)
  (c % 3 = 0, { s with need_rollup_crudehack := c })

/-- The type `enum rollup_flags`. -/
inductive rollup_flags
  | NO_ROLLUP
  | ALLOW_ROLLUP
  | FORCE_ROLLUP
deriving DecidableEq, Repr

/-- The test `(rollup_flag == ALLOW_ROLLUP && need_rollup(sb)) ||
rollup_flag == FORCE_ROLLUP` of `do_commit`; `need_rollup` is called only
under `ALLOW_ROLLUP`. -/
def rollup_wanted (rollup_flag : rollup_flags) (s : Sb) : Bool × Sb :=
  let n := if rollup_flag = rollup_flags.ALLOW_ROLLUP then need_rollup s else (false, s)
  (n.1 || decide (rollup_flag = rollup_flags.FORCE_ROLLUP), n.2)

/-- The tail of `do_commit` from `write_leaves` on: the three results are
dropped and `err`, which is 0 here, is returned. -/
def do_commit_tail (env : Env) (s : Sb) : Option Int × Sb :=
  let s1 := (write_leaves env s).2
  let w := write_log env s1
  match w.1 with
  | none => (none, w.2)
  | some _ => (some 0, (commit_delta env w.2).2)

/-- The head of `do_commit` up to and including `stage_delta`: advance
`sb->delta`, log the delta, stage. -/
def do_commit_stage (env : Env) (s : Sb) : Option Int × Sb :=
  stage_delta env (log_delta env { s with delta := u32 (s.delta + 1) })

/-- Embedding of `do_commit`. -/
def do_commit (env : Env) (rollup_flag : rollup_flags) (s : Sb) : Option Int × Sb :=
  let st := do_commit_stage env s
  match st.1 with
  | none => (none, st.2)
  | some err =>
    if err ≠ 0 then (some err, st.2)
    else
      let n := rollup_wanted rollup_flag st.2
      if n.1 = true then
        let r := rollup_log env n.2
        match r.1 with
        | none => (none, r.2)
        | some err =>
          if err ≠ 0 then (some err, r.2)
          else do_commit_tail env (log_delta env r.2)
      else do_commit_tail env n.2

/-- Embedding of `change_end` for a single thread: the lock calls have no
state here. -/
def change_end (env : Env) (s : Sb) : Option Int × Sb :=
  let n := need_delta s
  if n.1 = false then (some 0, n.2)
  else
    let delta := n.2.delta
    if n.2.delta = delta then do_commit env rollup_flags.ALLOW_ROLLUP n.2
    else (some 0, n.2)

/-! ## Views of the call record -/

/-- The calls recorded between state `s` and a later state `t`. -/
def calls_since (s t : Sb) : List Event := t.trace.drop s.trace.length

/-- Calls that allocate, write or free a block or write the superblock: the
device effects of `write_log` and `commit_delta`. -/
def Event.is_commit_io : Event → Bool
  | Event.balloc _ _ _ => true
  | Event.bfree _ _ _ => true
  | Event.blockio_write _ _ _ _ => true
  | Event.devio_write _ _ => true
  | _ => false

/-- The log records emitted, in order. -/
def logged (t : List Event) : List LogEntry :=
  t.filterMap (fun e => match e with
    | Event.log x => some x
    | _ => none)

/-- The `(block, count)` arguments of the `bfree` calls, in order. -/
def freed (t : List Event) : List (Nat × Nat) :=
  t.filterMap (fun e => match e with
    | Event.bfree b c _ => some (b, c)
    | _ => none)

/-- The addresses at which a log block was written successfully, in order. -/
def written (t : List Event) : List Nat :=
  t.filterMap (fun e => match e with
    | Event.blockio_write _ b _ err => if err = 0 then some b else none
    | _ => none)

/-- The superblock records handed to the device for writing, in order. -/
def super_writes (t : List Event) : List Disksuper :=
  t.filterMap (fun e => match e with
    | Event.devio_write d _ => some d
    | _ => none)

/-- State `t` continues the call record of `s` with calls that all satisfy
`P`. -/
def Extends (P : Event → Prop) (s t : Sb) : Prop :=
  ∃ evs, t.trace = s.trace ++ evs ∧ ∀ e ∈ evs, P e

/-- State `t` differs from `s` at most in the inodes, the two dirty lists and
the call record: everything writeback leaves alone is equal. -/
def wb_same (s t : Sb) : Prop :=
  { t with inodes := s.inodes, dirty_inodes := s.dirty_inodes,
           sync_inodes_dirty_inodes := s.sync_inodes_dirty_inodes, trace := s.trace } = s

/-- Calls made by the inode flush: `flush_buffers` and `write_inode`. -/
def Event.is_flush : Event → Bool
  | Event.flush_buffers _ _ => true
  | Event.write_inode _ _ => true
  | _ => false

/-- A writeback step: everything outside the inodes and dirty lists is kept
and only flush calls are recorded. -/
def Wb (s t : Sb) : Prop := wb_same s t ∧ Extends (fun e => e.is_flush = true) s t

/-- A step of `do_commit` before `write_leaves`: `delta` is kept and no device
effect of `write_log` or `commit_delta` is recorded. -/
def Quiet (s t : Sb) : Prop :=
  t.delta = s.delta ∧ Extends (fun e => e.is_commit_io = false) s t

/-- Continue the call record by a list of calls. -/
def Sb.emits (s : Sb) (evs : List Event) : Sb := { s with trace := s.trace ++ evs }

/-- The `bfree` calls that drain the stashed values `vals` successfully. -/
def bfree_calls (vals : List Nat) : List Event :=
  vals.map (fun v => Event.bfree (v % 2 ^ 48) (v / 2 ^ 48) 0)

/-- The state in which `write_log` hands staged block `index` to `blockio`,
after `block` was allocated for it in state `s`. -/
def log_block_chained (index block : Nat) (s : Sb) : Sb :=
  set_log_logchain index (s.emit (Event.balloc 1 0 block))

/-- The state `write_log` reaches from `s` when staged block `index` was
allocated and written at `block`. -/
def log_block_written (index block : Nat) (s : Sb) : Sb :=
  let s2 := log_block_chained index block s
  set_super_logchain block
    (defer_bfree_derollup block 1 (s2.emit (Event.blockio_write index block (s2.logmap index) 0)))

/-- The state `write_log` reaches from `s` when the staged blocks below `i`
were allocated and written at the addresses `a 0`, ..., `a (i - 1)`. -/
def log_state (a : Nat → Nat) (s : Sb) : Nat → Sb
  | 0 => s
  | i + 1 => log_block_written i (a i) (log_state a s i)

/-- The `logchain` of the in-memory superblock after the staged blocks below
`i` were written at `a 0`, ..., `a (i - 1)`: the address of the last one, the
old head when `i = 0`. -/
def log_chain (a : Nat → Nat) (s : Sb) : Nat → List Nat
  | 0 => s.super.logchain
  | i + 1 => cpu_to_be 8 (a i)

/-- The calls `write_log` makes from `s` for the staged blocks below `i` when
they are allocated and written at `a 0`, ..., `a (i - 1)`. -/
def log_calls (a : Nat → Nat) (s : Sb) : Nat → List Event
  | 0 => []
  | i + 1 =>
    log_calls a s i ++
      [Event.balloc 1 0 (a i),
       Event.blockio_write i (a i) { s.logmap i with logchain := log_chain a s i } 0]

/-- The successful log block writes of a call record: index, address and the
block content written. -/
def log_writes (t : List Event) : List (Nat × Nat × Logblock) :=
  t.filterMap (fun e => match e with
    | Event.blockio_write i b d err => if err = 0 then some (i, b, d) else none
    | _ => none)

/-! ## Stash bookkeeping over whole commits -/

/-- The packed pair `(block, 1)` pushed onto `derollup` for a written log block. -/
def log_block_value (block : Nat) : Nat := defer_value block 1

/-- The `(block, count)` pair a stashed value decodes to. -/
def stash_pair (v : Nat) : Nat × Nat := (v % 2 ^ 48, v / 2 ^ 48)

/-- A step from `s` to `t` that wrote log blocks at `w`, called `bfree` for `f`
and ends with `defree = D` and `derollup = R`. -/
def StashStep (w : List Nat) (f : List (Nat × Nat)) (D R : List Nat) (s t : Sb) : Prop :=
  t.defree = D ∧ t.derollup = R ∧
    ∃ calls, t.trace = s.trace ++ calls ∧ written calls = w ∧ freed calls = f

/-- Whether the commit started in state `s` runs the rollup: the value of the
rollup test of `do_commit`, taken after staging. -/
def runs_rollup (env : Env) (rollup_flag : rollup_flags) (s : Sb) : Bool :=
  (rollup_wanted rollup_flag (do_commit_stage env s).2).1

/-- The state after a sequence of commits with the given flags. -/
def do_commits (env : Env) : List rollup_flags → Sb → Sb
  | [], s => s
  | f :: fs, s => do_commits env fs (do_commit env f s).2

/-- An unused buffer of `logmap`. -/
def noblock : Logblock := { magic := [], logchain := [], entries := [] }

/-- A disk super-record of a 1024-block volume with 4096-byte blocks. -/
def super0 : Disksuper :=
  { magic := [116, 117, 120, 51, 221, 8, 9, 6, 0, 0, 0, 0, 0, 0, 0, 0],
    blockbits := [0, 12], volblocks := [0, 0, 0, 0, 0, 0, 4, 0],
    freeblocks := [0, 0, 0, 0, 0, 0, 3, 0], nextalloc := [0, 0, 0, 0, 0, 0, 0, 9],
    atomdictsize := [0, 0, 0, 0, 0, 0, 0, 0], atomgen := [0, 0, 0, 1], freeatom := [0, 0, 0, 0],
    iroot := [0, 0, 0, 0, 0, 0, 0, 5], oroot := [0, 0, 0, 0, 0, 0, 0, 6],
    logchain := [0, 0, 0, 0, 0, 0, 0, 0], logcount := [0, 0, 0, 0] }

/-- A mounted volume at rest: nothing dirty, nothing staged, empty stashes.
Inode 0 is the bitmap inode, inode 1 the volume map. -/
def sb0 : Sb :=
  { super := super0, blockbits := 12, volblocks := 1024, version := 0, blocksize := 4096,
    blockmask := 4095, entries_per_node := 256, atable_base := 0, freeblocks := 768,
    nextalloc := 9, atomdictsize := 0, atomgen := 1, freeatom := 0,
    itable := { root := { block := 5, depth := 0 }, ops := BtreeOps.itable_ops },
    otable := { root := { block := 6, depth := 0 }, ops := BtreeOps.otable_ops },
    delta := 0, rollup := 0, lognext := 0, logbuf := false, logmap := fun _ => noblock,
    defree := [], derollup := [],
    inodes := fun i => if i = 0 then { inum := 0, state := 0 }
      else if i = 1 then { inum := 61, state := 0 } else { inum := i + 62, state := 0 },
    bitmap := 0, volmap := 1, dirty_inodes := [], alloc_inodes := [], orphan_add := [],
    orphan_del := [], pinned := [], sync_inodes_dirty_inodes := [],
    need_delta_crudehack := 0, need_rollup_crudehack := 0, trace := [] }

/-- An environment in which every external call succeeds; the allocator hands
out addresses that grow with the call record. -/
def env0 : Env :=
  { TUX3_MAGIC := [116, 117, 120, 51, 221, 8, 9, 6, 0, 0, 0, 0, 0, 0, 0, 0],
    TUX3_MAGIC_LOG := 4269, TUX_BITMAP_INO := 0, TUX_VOLMAP_INO := 61,
    I_DIRTY_SYNC := 1, I_DIRTY_DATASYNC := 2, I_DIRTY_PAGES := 4,
    pack_root := fun r => r.depth * 2 ^ 48 + r.block,
    unpack_root := fun v => { block := v % 2 ^ 48, depth := v / 2 ^ 48 },
    calc_entries_per_node := fun b => b / 16,
    atable_init_base := fun _ => 0,
    log_fits := fun l _ => decide (l.length < 4),
    flush_buffers := fun _ _ => { err := 0, dirtied := [] },
    write_inode := fun _ _ => { err := 0, dirtied := [] },
    tux3_rollup_orphan_del := fun _ _ => (0, []),
    tux3_rollup_orphan_add := fun _ _ => (0, []),
    stash_value := fun _ _ => 0,
    balloc := fun s => (0, (100 + s.trace.length) % 2 ^ 48),
    bfree := fun _ _ _ => 0,
    blockio_write := fun _ _ _ => 0,
    devio_read := fun s => (0, s.super),
    devio_write := fun _ _ => 0 }

/-- A staged log block holding one `DELTA` record. -/
def logblock0 : Logblock :=
  { magic := [16, 173], logchain := [0, 0, 0, 0, 0, 0, 0, 0], entries := [LogEntry.DELTA] }

/-- The volume `sb0` with two log blocks staged. -/
def sb_two_staged : Sb := { sb0 with lognext := 2, logbuf := true, logmap := fun _ => logblock0 }

/-- An allocator with a single free block, at address 100: the first `balloc`
of `write_log` succeeds, the next one fails with `-ENOSPC`. -/
def env_one_block : Env :=
  { env0 with balloc := fun s => if s.trace.length < 2 then (0, 100) else (-28, 0) }

/-- The volume `sb0` with the regular inode 2 on the dirty list, its pages
dirty. -/
def sb_dirty_inode : Sb :=
  { sb0 with
    inodes := fun i => if i = 0 then { inum := 0, state := 0 }
      else if i = 1 then { inum := 61, state := 0 } else { inum := i + 62, state := 4 },
    dirty_inodes := [2] }

/-- Every data flush fails with `-EIO`. -/
def env_flush_fail : Env :=
  { env0 with flush_buffers := fun _ _ => { err := -5, dirtied := [] } }

/-- The orphan deletion of the rollup fails with `-EIO`. -/
def env_orphan_fail : Env :=
  { env0 with tux3_rollup_orphan_del := fun _ l => (-5, l) }

/-- The superblock write fails with `-EIO`; everything else succeeds. -/
def env_super_fail : Env := { env0 with devio_write := fun _ _ => -5 }

/-- The volume `sb0` with the volume-map inode (inode 1) on the dirty list, its
pages dirty, and one deferred free of two blocks at address 7 in `defree`. -/
def sb_volmap_dirty : Sb :=
  { sb0 with
    inodes := fun i => if i = 0 then { inum := 0, state := 0 }
      else if i = 1 then { inum := 61, state := 4 } else { inum := i + 62, state := 0 },
    dirty_inodes := [1],
    defree := [defer_value 7 2] }

/-- The first flush of the volume map succeeds and dirties the volume map
again; every later flush of its pages fails with `-EIO`. -/
def env_leaves_fail : Env :=
  { env0 with
    flush_buffers := fun s inode =>
      if inode = 1 then
        if s.trace.any Event.is_flush then { err := -5, dirtied := [] }
        else { err := 0, dirtied := [(1, 4)] }
      else { err := 0, dirtied := [] } }

/-- The allocator has no free block: every `balloc` fails with `-ENOSPC`. -/
def env_no_block : Env := { env0 with balloc := fun _ => (-28, 0) }

/-- A logging step: the call record gains the log calls `evs`, `defree` gains
`pushed`, `derollup` becomes `rest`, and the super-record and `freeblocks` are
kept. -/
def Relog (evs : List LogEntry) (pushed : List Nat) (rest : List Nat) (s t : Sb) : Prop :=
  t.trace = s.trace ++ evs.map Event.log ∧ t.defree = s.defree ++ pushed ∧
    t.derollup = rest ∧ t.super = s.super ∧ t.freeblocks = s.freeblocks

/-- The `BFREE_RELOG` records for a list of stashed values. -/
def relog_entries (vals : List Nat) : List LogEntry :=
  vals.map (fun v => LogEntry.BFREE_RELOG (v % 2 ^ 48) (v / 2 ^ 48))

/-- State `t` continues the call record of `s` by calls whose log records are
`evs`. -/
def Logs (evs : List LogEntry) (s t : Sb) : Prop :=
  ∃ calls, t.trace = s.trace ++ calls ∧ logged calls = evs

/-- What `rollup_log` has done to the log and the stashes when `stash_value`
does not fail. -/
def Rolled (s t : Sb) : Prop :=
  t.super = { s.super with logcount := cpu_to_be 4 0 } ∧
  Logs ([LogEntry.ROLLUP, LogEntry.FREEBLOCKS s.freeblocks] ++ relog_entries s.defree ++
    relog_entries s.derollup) s t ∧
  t.derollup = [] ∧ t.defree = s.defree ++ s.derollup

/-! ## Views and inputs for mounting -/

/-- The in-memory fields that `setup_sb` decodes from the disk record. -/
def decoded_fields (s : Sb) : Nat × Nat × Nat × Nat × Nat × Nat × Nat × Root × Root :=
  (s.blockbits, s.volblocks, s.freeblocks, s.nextalloc, s.atomdictsize, s.atomgen, s.freeatom,
    s.itable.root, s.otable.root)

/-- The state `load_sb` is in after its `devio` call: the read is recorded and
`sb->super` holds what the device delivered. -/
def load_sb_read (env : Env) (s : Sb) : Sb :=
  { s.emit (Event.devio_read (env.devio_read s).2 (env.devio_read s).1) with
    super := (env.devio_read s).2 }

/-- A device whose superblock read fails with `-EIO`. -/
def env_read_fail : Env := { env0 with devio_read := fun s => (-5, s.super) }

/-- A device that delivers a record with a foreign magic. -/
def env_bad_magic : Env :=
  { env0 with devio_read := fun s => (0, { s.super with magic := List.replicate 16 0 }) }

/-- A disk record that differs from the one held in `sb0.super` in both roots:
inode table at block 9, orphan table at block 7. -/
def super_other : Disksuper :=
  { super0 with iroot := [0, 0, 0, 0, 0, 0, 0, 9], oroot := [0, 0, 0, 0, 0, 0, 0, 7] }

/-! ## A failed log block write -/

/-- The state `write_log` reaches from `s` when staged block `index` was
allocated at `block`, its write failed with `e`, and the `bfree(block, 1)`
that follows returned `f`. -/
def log_block_failed (index block : Nat) (e f : Int) (s : Sb) : Sb :=
  let s2 := log_block_chained index block s
  (s2.emit (Event.blockio_write index block (s2.logmap index) e)).emit (Event.bfree block 1 f)

/-- The write of staged log block 1 fails with `-EIO`, every other write
succeeds. -/
def env_write_fail_second : Env :=
  { env0 with blockio_write := fun _ index _ => if index = 1 then -5 else 0 }

/-! ## Stashes across a failed commit -/

/-- The volume `sb0` with one deferred free in each stash, two blocks at
address 7 in `defree` and the old log block 50 in `derollup`, after two calls
of `need_rollup`: the next commit that allows a rollup runs one. -/
def sb_stashed : Sb :=
  { sb0 with
    defree := [defer_value 7 2], derollup := [defer_value 50 1], need_rollup_crudehack := 2 }

/-! ## The dirty-list invariant of `writeback.c` -/

/-- How often an inode is linked on a dirty list: on `sb->dirty_inodes` or on
the working list of a running `sync_inodes`.  A list node of the source can be
linked at most once. -/
def links (inode : Nat) (s : Sb) : Nat :=
  s.dirty_inodes.count inode + s.sync_inodes_dirty_inodes.count inode

/-- One of the dirty bits `I_DIRTY_SYNC`, `I_DIRTY_DATASYNC`, `I_DIRTY_PAGES`
of the inode is set. -/
def is_dirty (env : Env) (inode : Nat) (s : Sb) : Prop :=
  (s.inodes inode).state &&& env.I_DIRTY ≠ 0

/-- An inode is linked on a dirty list iff one of its dirty bits is set. -/
def dirty_iff_linked (env : Env) (s : Sb) : Prop :=
  ∀ inode, 0 < links inode s ↔ is_dirty env inode s

/-- The flush callbacks touch no list: they mark no inode dirty. -/
def flush_marks_nothing (env : Env) : Prop :=
  ∀ s inode, (env.flush_buffers s inode).dirtied = [] ∧ (env.write_inode s inode).dirtied = []

/-- The volume `sb0` with inode 2 dirty (attributes) and on the dirty list. -/
def sb_attr_dirty : Sb :=
  { sb0 with
    inodes := fun i => if i = 0 then { inum := 0, state := 0 }
      else if i = 1 then { inum := 61, state := 0 }
      else if i = 2 then { inum := 64, state := 1 } else { inum := i + 62, state := 0 },
    dirty_inodes := [2] }

/-! ## The order of flushes in `sync_inodes` -/

/-- The test of the `switch` in the loop of `sync_inodes`: the inode carries
the inode number of the bitmap or of the volume map and is skipped. -/
def skipped (env : Env) (s : Sb) (inode : Nat) : Bool :=
  decide ((s.inodes inode).inum = env.TUX_BITMAP_INO ∨
    (s.inodes inode).inum = env.TUX_VOLMAP_INO)

/-- The state after `list_splice_init(&sb->dirty_inodes, &dirty_inodes)`: the
dirty list is detached into the working list. -/
def detach (s : Sb) : Sb :=
  { s with sync_inodes_dirty_inodes := s.dirty_inodes, dirty_inodes := [] }

/-- The flush order the spec gives for `sync_inodes`: the inodes of the dirty
list that are not skipped, in list order, then the bitmap inode, then the
volume-map inode. -/
def sync_order (env : Env) (s : Sb) : List Nat :=
  s.dirty_inodes.filter (fun i => !skipped env s i) ++ [s.bitmap, s.volmap]

/-- The inodes of a list passed to `sync_inode` one after the other, results
ignored. -/
def sync_each (env : Env) : List Nat → Sb → Sb
  | [], s => s
  | inode :: rest, s => sync_each env rest (sync_inode env inode s).2

/-- Every `sync_inode` of `sync_each` returns 0: every flush succeeds. -/
def sync_each_ok (env : Env) : List Nat → Sb → Prop
  | [], _ => True
  | inode :: rest, s =>
    (sync_inode env inode s).1 = 0 ∧ sync_each_ok env rest (sync_inode env inode s).2

/-- The inodes of a list passed to `sync_inode` one after the other, up to the
first error: the loop of `sync_inodes` on a list without skipped inodes. -/
def sync_until (env : Env) : List Nat → Sb → Int × Sb
  | [], s => (0, s)
  | inode :: rest, s =>
    let r := sync_inode env inode s
    if r.1 ≠ 0 then r else sync_until env rest r.2

/-- No flush marks inode `b` dirty. -/
def unmarked (env : Env) (b : Nat) : Prop :=
  ∀ s inode, (∀ p ∈ (env.flush_buffers s inode).dirtied, p.1 ≠ b) ∧
    (∀ p ∈ (env.write_inode s inode).dirtied, p.1 ≠ b)

/-- A step that at most marks inodes dirty: the working list is kept, every
inode keeps its number and its state bits, and an inode that no flush marks is
unchanged. -/
def MarkStep (env : Env) (s t : Sb) : Prop :=
  t.sync_inodes_dirty_inodes = s.sync_inodes_dirty_inodes ∧
  ∀ b, (t.inodes b).inum = (s.inodes b).inum ∧
    (s.inodes b).state &&& (t.inodes b).state = (s.inodes b).state ∧
    (unmarked env b → t.inodes b = s.inodes b)

/-- The volume `sb0` with the bitmap inode (inode 0, attributes dirty) and the
regular inodes 2, 3 and 4 (pages dirty) on the dirty list. -/
def sb_four_dirty : Sb :=
  { sb0 with
    inodes := fun i => if i = 0 then { inum := 0, state := 1 }
      else if i = 1 then { inum := 61, state := 0 } else { inum := i + 62, state := 4 },
    dirty_inodes := [0, 2, 3, 4] }

/-- The counters of the commit engine: `sb->delta`, `sb->rollup` and the
static call counters of `need_delta` and `need_rollup`. -/
def counters (s : Sb) : Nat × Nat × Nat × Nat :=
  (s.delta, s.rollup, s.need_delta_crudehack, s.need_rollup_crudehack)

/-- A step that keeps the counters and emits no log record. -/
def Still (s t : Sb) : Prop := counters t = counters s ∧ Logs [] s t

/-- A step that, moreover, keeps the number of staged log blocks and
`sb->super.logcount`. -/
def Frame (s t : Sb) : Prop :=
  Still s t ∧ t.lognext = s.lognext ∧ t.super.logcount = s.super.logcount

/-- The state after `n` calls of `change_end`. -/
def change_ends (env : Env) : Nat → Sb → Sb
  | 0, s => s
  | n + 1, s => (change_end env (change_ends env n s)).2

/-- The call emits a `BFREE_RELOG` log record. -/
def Event.is_relog : Event → Prop
  | Event.log (LogEntry.BFREE_RELOG _ _) => True
  | _ => False

/-- The log record is a `BFREE_RELOG`. -/
def LogEntry.is_bfree_relog : LogEntry → Prop
  | LogEntry.BFREE_RELOG _ _ => True
  | _ => False

/-! ## Counting the calls of `need_rollup` -/

/-- The number of `need_rollup` calls made by a sequence of commits: one for
every commit with `ALLOW_ROLLUP` whose staging returns 0. -/
def need_rollup_calls (env : Env) : List rollup_flags → Sb → Nat
  | [], _ => 0
  | f :: fs, s =>
    (if (do_commit_stage env s).1 = some 0 ∧ f = rollup_flags.ALLOW_ROLLUP then 1 else 0) +
      need_rollup_calls env fs (do_commit env f s).2

/-- The state after `n` calls of `need_rollup`. -/
def need_rollups : Nat → Sb → Sb
  | 0, s => s
  | n + 1, s => (need_rollup (need_rollups n s)).2

/-! ## Helper lemmas -/

theorem Extends.ext_refl (P : Event → Prop) (s : Sb) : Extends P s s :=
  ⟨[], by simp, by simp⟩

theorem Extends.ext_trans {P : Event → Prop} {s t u : Sb} (h1 : Extends P s t) (h2 : Extends P t u) :
    Extends P s u := by
  obtain ⟨e1, ht, hp1⟩ := h1
  obtain ⟨e2, hu, hp2⟩ := h2
  refine ⟨e1 ++ e2, by rw [hu, ht, List.append_assoc], ?_⟩
  intro e he
  rcases List.mem_append.mp he with h | h
  · exact hp1 e h
  · exact hp2 e h

theorem extends_emit {P : Event → Prop} (s : Sb) (e : Event) (h : P e) : Extends P s (s.emit e) :=
  ⟨[e], rfl, by simpa using h⟩

theorem calls_since_of_extends {P : Event → Prop} {s t : Sb} (h : Extends P s t) :
    t.trace = s.trace ++ calls_since s t ∧ ∀ e ∈ calls_since s t, P e := by
  obtain ⟨evs, ht, hp⟩ := h
  have : calls_since s t = evs := by simp [calls_since, ht]
  rw [this]
  exact ⟨ht, hp⟩

theorem wb_same.same_refl (s : Sb) : wb_same s s := rfl

theorem wb_same.same_trans {s t u : Sb} (h1 : wb_same s t) (h2 : wb_same t u) : wb_same s u := by
  unfold wb_same at *
  rw [← h1]
  conv_rhs => rw [← h2]

theorem Wb.wb_refl (s : Sb) : Wb s s := ⟨wb_same.same_refl s, Extends.ext_refl _ s⟩

theorem Wb.wb_trans {s t u : Sb} (h1 : Wb s t) (h2 : Wb t u) : Wb s u :=
  ⟨h1.1.same_trans h2.1, h1.2.ext_trans h2.2⟩

theorem Wb_set_state (inode v : Nat) (s : Sb) : Wb s (set_state inode v s) :=
  ⟨rfl, ⟨[], by simp [set_state], by simp⟩⟩

theorem Wb_list_del_init (inode : Nat) (s : Sb) : Wb s (list_del_init inode s) :=
  ⟨rfl, ⟨[], by simp [list_del_init], by simp⟩⟩

theorem Wb_mark (inode flags : Nat) (s : Sb) : Wb s (__mark_inode_dirty inode flags s) := by
  unfold __mark_inode_dirty
  split
  · simp only
    split
    · exact ⟨rfl, ⟨[], by simp [set_state], by simp⟩⟩
    · exact Wb_set_state _ _ _
  · exact Wb.wb_refl s

theorem Wb_apply_dirtied (l : List (Nat × Nat)) (s : Sb) : Wb s (apply_dirtied l s) := by
  induction l generalizing s with
  | nil => exact Wb.wb_refl s
  | cons p l ih =>
    simp only [apply_dirtied, List.foldl_cons]
    exact (Wb_mark p.1 p.2 s).wb_trans (ih _)

theorem Wb_emit (s : Sb) (e : Event) (h : e.is_flush = true) : Wb s (s.emit e) :=
  ⟨rfl, extends_emit s e h⟩

theorem Wb_flush_buffers (env : Env) (inode : Nat) (s : Sb) : Wb s (flush_buffers env inode s).2 := by
  unfold flush_buffers
  exact (Wb_emit s (Event.flush_buffers inode _) rfl).wb_trans (Wb_apply_dirtied _ _)

theorem Wb_write_inode (env : Env) (inode : Nat) (s : Sb) : Wb s (write_inode env inode s).2 := by
  unfold write_inode
  exact (Wb_emit s (Event.write_inode inode _) rfl).wb_trans (Wb_apply_dirtied _ _)

theorem Wb_sync_inode (env : Env) (inode : Nat) (s : Sb) : Wb s (sync_inode env inode s).2 := by
  unfold sync_inode
  have h1 : Wb s (list_del_init inode (set_state inode ((s.inodes inode).state &&& not_I_DIRTY env) s)) :=
    (Wb_set_state _ _ _).wb_trans (Wb_list_del_init _ _)
  simp only
  split_ifs <;>
    first
    | exact h1
    | exact h1.wb_trans (Wb_flush_buffers _ _ _)
    | exact h1.wb_trans (Wb_write_inode _ _ _)
    | exact h1.wb_trans ((Wb_flush_buffers _ _ _).wb_trans (Wb_write_inode _ _ _))

theorem Wb_sync_inodes_loop (env : Env) (l : List Nat) (s : Sb) :
    Wb s (sync_inodes_loop env l s).2 := by
  induction l generalizing s with
  | nil => exact Wb.wb_refl s
  | cons i l ih =>
    unfold sync_inodes_loop
    simp only
    split_ifs
    · exact ih s
    · exact Wb_sync_inode env i s
    · exact (Wb_sync_inode env i s).wb_trans (ih _)

theorem Wb_lists (s : Sb) (a b : List Nat) :
    Wb s { s with dirty_inodes := a, sync_inodes_dirty_inodes := b } :=
  ⟨rfl, ⟨[], by simp, by simp⟩⟩

theorem Wb_sync_inodes_error (err : Int) (s : Sb) : Wb s (sync_inodes_error err s).2 :=
  Wb_lists _ _ _

theorem Wb_sync_inodes (env : Env) (s : Sb) : Wb s (sync_inodes env s).2 := by
  unfold sync_inodes
  have hl := (Wb_lists s [] s.dirty_inodes).wb_trans (Wb_sync_inodes_loop env s.dirty_inodes
    { s with sync_inodes_dirty_inodes := s.dirty_inodes, dirty_inodes := [] })
  simp only
  split_ifs
  · exact hl.wb_trans (Wb_sync_inodes_error _ _)
  · exact (hl.wb_trans (Wb_sync_inode env _ _)).wb_trans (Wb_sync_inodes_error _ _)
  · exact ((hl.wb_trans (Wb_sync_inode env _ _)).wb_trans (Wb_sync_inode env _ _)).wb_trans
      (Wb_sync_inodes_error _ _)
  · exact (hl.wb_trans (Wb_sync_inode env _ _)).wb_trans (Wb_sync_inode env _ _)
  · exact (hl.wb_trans (Wb_sync_inode env _ _)).wb_trans (Wb_sync_inode env _ _)

theorem Extends.ext_mono {P Q : Event → Prop} {s t : Sb} (hpq : ∀ e, P e → Q e) (h : Extends P s t) :
    Extends Q s t := by
  obtain ⟨evs, ht, hp⟩ := h
  exact ⟨evs, ht, fun e he => hpq e (hp e he)⟩

theorem wb_same.same_delta {s t : Sb} (h : wb_same s t) : t.delta = s.delta := by
  have h1 := congrArg Sb.delta h
  exact h1

theorem Quiet.q_refl (s : Sb) : Quiet s s := ⟨rfl, Extends.ext_refl _ s⟩

theorem Quiet.q_trans {s t u : Sb} (h1 : Quiet s t) (h2 : Quiet t u) : Quiet s u :=
  ⟨h2.1.trans h1.1, h1.2.ext_trans h2.2⟩

theorem Quiet.of_eq {s t : Sb} (hd : t.delta = s.delta) (ht : t.trace = s.trace) : Quiet s t :=
  ⟨hd, ⟨[], by simp [ht], by simp⟩⟩

theorem Quiet.emit (s : Sb) (e : Event) (h : e.is_commit_io = false) : Quiet s (s.emit e) :=
  ⟨rfl, extends_emit s e h⟩

theorem is_flush_not_commit_io (e : Event) (h : e.is_flush = true) : e.is_commit_io = false := by
  cases e <;> simp_all [Event.is_flush, Event.is_commit_io]

theorem Wb.quiet {s t : Sb} (h : Wb s t) : Quiet s t :=
  ⟨h.1.same_delta, h.2.ext_mono is_flush_not_commit_io⟩

theorem log_append_trace (env : Env) (e : LogEntry) (s : Sb) :
    (log_append env e s).trace = s.trace ++ [Event.log e] := by
  unfold log_append log_next
  simp only
  split_ifs <;> rfl

theorem Quiet_log_append (env : Env) (e : LogEntry) (s : Sb) : Quiet s (log_append env e s) := by
  refine ⟨?_, ⟨[Event.log e], log_append_trace env e s, by simp [Event.is_commit_io]⟩⟩
  unfold log_append log_next
  simp only
  split_ifs <;> rfl

theorem Quiet_stash_value_defree (env : Env) (v : Nat) (s : Sb) :
    Quiet s (stash_value_defree env v s).2 := by
  unfold stash_value_defree
  simp only
  split_ifs
  · exact Quiet.q_refl s
  · exact Quiet.of_eq rfl rfl

theorem Quiet_stash_traverse (actor : Nat → Sb → Int × Sb)
    (ha : ∀ v s, Quiet s (actor v s).2) (l : List Nat) (s : Sb) :
    Quiet s (stash_traverse actor l s).2.2 := by
  induction l generalizing s with
  | nil => exact Quiet.q_refl s
  | cons v l ih =>
    unfold stash_traverse
    simp only
    split_ifs
    · exact ha v s
    · exact (ha v s).q_trans (ih _)

theorem Quiet_relog_frontend (env : Env) (v : Nat) (s : Sb) :
    Quiet s (relog_frontend_defer_as_bfree env v s).2 :=
  Quiet_log_append env _ s

theorem Quiet_relog_as_bfree (env : Env) (v : Nat) (s : Sb) :
    Quiet s (relog_as_bfree env v s).2 :=
  (Quiet_log_append env _ s).q_trans (Quiet_stash_value_defree env v _)

theorem Quiet_stash_walk_defree (env : Env) (s : Sb) :
    Quiet s (stash_walk_defree (relog_frontend_defer_as_bfree env) s).2 :=
  Quiet_stash_traverse _ (Quiet_relog_frontend env) _ _

theorem Quiet_unstash_derollup (env : Env) (s : Sb) :
    Quiet s (unstash_derollup (relog_as_bfree env) s).2 :=
  (Quiet_stash_traverse _ (Quiet_relog_as_bfree env) s.derollup s).q_trans (Quiet.of_eq rfl rfl)

theorem Quiet_flush_list_pinned (s : Sb) : Quiet s (flush_list_pinned s) :=
  (Quiet.emit s (Event.flush_list s.pinned) rfl).q_trans (Quiet.of_eq rfl rfl)

theorem Quiet_rollup_log_relog (env : Env) (s : Sb) : Quiet s (rollup_log_relog env s) := by
  unfold rollup_log_relog
  simp only
  refine Quiet.q_trans ?_ (Quiet_unstash_derollup env _)
  refine Quiet.q_trans ?_ (Quiet_stash_walk_defree env _)
  refine Quiet.q_trans ?_ (Quiet_log_append env _ _)
  exact Quiet_log_append env _ _

theorem Quiet_rollup_log_begin (s : Sb) : Quiet s (rollup_log_begin s) :=
  Quiet.of_eq rfl rfl

theorem Quiet_rollup_log_flush (env : Env) (s : Sb) : Quiet s (rollup_log_flush env s) := by
  unfold rollup_log_flush
  simp only
  refine Quiet.q_trans ?_ (Wb_sync_inode env _ _).quiet
  refine Quiet.q_trans ?_ (Quiet_flush_list_pinned _)
  exact (Quiet_rollup_log_begin s).q_trans (Quiet_rollup_log_relog env _)

theorem Quiet_orphan_del (env : Env) (l : List Nat) (s : Sb) :
    Quiet s (tux3_rollup_orphan_del env l s).2.2 :=
  Quiet.emit s (Event.orphan_del l _) rfl

theorem Quiet_orphan_add (env : Env) (l : List Nat) (s : Sb) :
    Quiet s (tux3_rollup_orphan_add env l s).2.2 :=
  Quiet.emit s (Event.orphan_add l _) rfl

theorem Quiet_rollup_log (env : Env) (s : Sb) : Quiet s (rollup_log env s).2 := by
  have hd := (Quiet_rollup_log_flush env s).q_trans
    (Quiet_orphan_del env s.orphan_del (rollup_log_flush env s))
  have ha := hd.q_trans (Quiet_orphan_add env s.orphan_add
    (tux3_rollup_orphan_del env s.orphan_del (rollup_log_flush env s)).2.2)
  unfold rollup_log
  simp only
  split_ifs
  · exact hd
  · exact ha
  · exact ha
  · exact ha

theorem Quiet_rollup_wanted (flag : rollup_flags) (s : Sb) : Quiet s (rollup_wanted flag s).2 := by
  unfold rollup_wanted need_rollup
  simp only
  split_ifs
  · exact Quiet.of_eq rfl rfl
  · exact Quiet.q_refl s

theorem Quiet_do_commit_stage (env : Env) (s : Sb) :
    (do_commit_stage env s).2.delta = u32 (s.delta + 1) ∧
      Extends (fun e => e.is_commit_io = false) s (do_commit_stage env s).2 := by
  unfold do_commit_stage stage_delta log_delta
  have h := (Quiet_log_append env LogEntry.DELTA { s with delta := u32 (s.delta + 1) }).q_trans
    (Wb_sync_inodes env _).quiet
  exact ⟨h.1, h.2⟩

theorem mask48_eq : mask48 = 2 ^ 48 - 1 := by decide

theorem and_mask48 (v : Nat) : v &&& mask48 = v % 2 ^ 48 := by
  rw [mask48_eq]; exact Nat.and_pow_two_sub_one_eq_mod v 48

theorem shr48 (v : Nat) : v >>> 48 = v / 2 ^ 48 := Nat.shiftRight_eq_div_pow v 48

theorem emits_nil (s : Sb) : s.emits [] = s := by
  simp [Sb.emits]

theorem emit_emits (s : Sb) (e : Event) (evs : List Event) :
    (s.emit e).emits evs = s.emits (e :: evs) := by
  simp [Sb.emits, Sb.emit]

theorem stash_traverse_bfree (env : Env) (vals : List Nat) (s : Sb)
    (h : ∀ k, k < vals.length →
      env.bfree (s.emits (bfree_calls (vals.take k))) (vals.getD k 0 % 2 ^ 48)
        (vals.getD k 0 / 2 ^ 48) = 0) :
    stash_traverse (apply_defered_bfree env) vals s = (0, [], s.emits (bfree_calls vals)) := by
  induction vals generalizing s with
  | nil => simp [stash_traverse, bfree_calls, emits_nil]
  | cons v rest ih =>
    have h0 := h 0 (by simp)
    simp only [List.take_zero, bfree_calls, List.map_nil, emits_nil, List.getD_cons_zero] at h0
    have hr := ih (s.emit (Event.bfree (v % 2 ^ 48) (v / 2 ^ 48) 0)) (by
      intro k hk
      have := h (k + 1) (by simpa using hk)
      simpa [bfree_calls, emit_emits] using this)
    simp only [stash_traverse, apply_defered_bfree, bfree, and_mask48, shr48, h0]
    simp only [ne_eq, not_true_eq_false, ↓reduceIte, hr, emit_emits]
    simp [bfree_calls]

theorem save_sb_trace (env : Env) (s : Sb) :
    (save_sb env s).2.trace = s.trace ++ [Event.devio_write (save_sb env s).2.super (save_sb env s).1] := rfl

theorem save_sb_defree (env : Env) (s : Sb) : (save_sb env s).2.defree = s.defree := rfl

theorem calls_since_append (s t : Sb) (evs : List Event) (h : t.trace = s.trace ++ evs) :
    calls_since s t = evs := by
  simp [calls_since, h]

theorem freed_bfree_calls (vals : List Nat) :
    freed (bfree_calls vals) = vals.map (fun v => (v % 2 ^ 48, v / 2 ^ 48)) := by
  induction vals with
  | nil => rfl
  | cons v l ih => simpa [freed, bfree_calls] using ih

theorem write_log_block_ok (env : Env) (index block : Nat) (s : Sb)
    (ha : env.balloc s = (0, block))
    (hm : (s.logmap index).magic = cpu_to_be 2 env.TUX3_MAGIC_LOG)
    (hw : env.blockio_write (log_block_chained index block s) index block = 0) :
    write_log_block env index s = (Exit.next, log_block_written index block s) := by
  have hm1 : ((s.emit (Event.balloc 1 0 block)).logmap index).magic =
      cpu_to_be 2 env.TUX3_MAGIC_LOG := hm
  have hw1 : env.blockio_write (set_log_logchain index (s.emit (Event.balloc 1 0 block)))
      index block = 0 := hw
  unfold write_log_block balloc blockio_write
  simp only [ha, ne_eq, not_true_eq_false, ↓reduceIte, hm1, hw1]
  rfl

theorem write_log_block_alloc_fail (env : Env) (index : Nat) (s : Sb) (e : Int) (b : Nat)
    (ha : env.balloc s = (e, b)) (he : e ≠ 0) :
    write_log_block env index s = (Exit.ret e, s.emit (Event.balloc 1 e b)) := by
  unfold write_log_block balloc
  simp only [ha, ne_eq, he, not_false_eq_true, ↓reduceIte]

theorem log_state_lognext (a : Nat → Nat) (s : Sb) (i : Nat) : (log_state a s i).lognext = s.lognext := by
  induction i with
  | zero => rfl
  | succ i ih => exact ih

theorem log_state_logmap_ge (a : Nat → Nat) (s : Sb) (i j : Nat) (h : i ≤ j) :
    (log_state a s i).logmap j = s.logmap j := by
  induction i with
  | zero => rfl
  | succ i ih =>
    have : (log_state a s (i + 1)).logmap j =
        Function.update (log_state a s i).logmap i
          { (log_state a s i).logmap i with logchain := (log_state a s i).super.logchain } j := rfl
    rw [this, Function.update_noteq (by omega), ih (by omega)]

theorem log_state_magic (a : Nat → Nat) (s : Sb) (i j : Nat) :
    ((log_state a s i).logmap j).magic = (s.logmap j).magic := by
  induction i with
  | zero => rfl
  | succ i ih =>
    have : (log_state a s (i + 1)).logmap j =
        Function.update (log_state a s i).logmap i
          { (log_state a s i).logmap i with logchain := (log_state a s i).super.logchain } j := rfl
    rw [this]
    by_cases hj : j = i
    · subst hj
      rw [Function.update_same]
      exact ih
    · rw [Function.update_noteq hj, ih]

theorem write_log_loop_ok (env : Env) (a : Nat → Nat) (s : Sb)
    (hall : ∀ i, i < s.lognext →
      env.balloc (log_state a s i) = (0, a i) ∧
      (s.logmap i).magic = cpu_to_be 2 env.TUX3_MAGIC_LOG ∧
      env.blockio_write (log_block_chained i (a i) (log_state a s i)) i (a i) = 0)
    (fuel index : Nat) (h : index + fuel = s.lognext) :
    write_log_loop env fuel index (log_state a s index) = (Exit.next, log_state a s s.lognext) := by
  induction fuel generalizing index with
  | zero =>
    have : index = s.lognext := by omega
    subst this
    rfl
  | succ fuel ih =>
    have hlt : index < s.lognext := by omega
    obtain ⟨h1, h2, h3⟩ := hall index hlt
    have hb := write_log_block_ok env index (a index) (log_state a s index) h1
      (by rw [log_state_magic]; exact h2) h3
    unfold write_log_loop
    simp only [log_state_lognext, hlt, ↓reduceIte, hb]
    exact ih (index + 1) (by omega)

theorem write_log_loop_alloc_fail (env : Env) (a : Nat → Nat) (s : Sb) (i : Nat) (e : Int) (b : Nat)
    (hi : i < s.lognext)
    (hall : ∀ j, j < i →
      env.balloc (log_state a s j) = (0, a j) ∧
      (s.logmap j).magic = cpu_to_be 2 env.TUX3_MAGIC_LOG ∧
      env.blockio_write (log_block_chained j (a j) (log_state a s j)) j (a j) = 0)
    (hf : env.balloc (log_state a s i) = (e, b)) (he : e ≠ 0)
    (fuel index : Nat) (h1 : index ≤ i) (h2 : i < index + fuel) :
    write_log_loop env fuel index (log_state a s index) =
      (Exit.ret e, (log_state a s i).emit (Event.balloc 1 e b)) := by
  induction fuel generalizing index with
  | zero => omega
  | succ fuel ih =>
    have hlt : index < s.lognext := by omega
    unfold write_log_loop
    simp only [log_state_lognext, hlt, ↓reduceIte]
    by_cases hidx : index = i
    · subst hidx
      rw [write_log_block_alloc_fail env index _ e b hf he]
    · obtain ⟨h3, h4, h5⟩ := hall index (by omega)
      have hb := write_log_block_ok env index (a index) (log_state a s index) h3
        (by rw [log_state_magic]; exact h4) h5
      simp only [hb]
      exact ih (index + 1) (by omega) (by omega)

theorem log_state_super_logchain (a : Nat → Nat) (s : Sb) (i : Nat) :
    (log_state a s i).super.logchain = log_chain a s i := by
  cases i <;> rfl

theorem log_state_super_logcount (a : Nat → Nat) (s : Sb) (i : Nat) :
    (log_state a s i).super.logcount = s.super.logcount := by
  induction i with
  | zero => rfl
  | succ i ih => exact ih

theorem log_state_derollup (a : Nat → Nat) (s : Sb) (i : Nat) :
    (log_state a s i).derollup = s.derollup ++ (List.range i).map (fun j => defer_value (a j) 1) := by
  induction i with
  | zero => simp [log_state]
  | succ i ih =>
    have : (log_state a s (i + 1)).derollup = (log_state a s i).derollup ++ [defer_value (a i) 1] := rfl
    rw [this, ih, List.range_succ]
    simp

theorem log_state_trace (a : Nat → Nat) (s : Sb) (i : Nat) :
    (log_state a s i).trace = s.trace ++ log_calls a s i := by
  induction i with
  | zero => simp [log_state, log_calls]
  | succ i ih =>
    have : (log_state a s (i + 1)).trace = (log_state a s i).trace ++
        [Event.balloc 1 0 (a i),
         Event.blockio_write i (a i)
           { (log_state a s i).logmap i with logchain := (log_state a s i).super.logchain } 0] := by
      simp [log_state, log_block_written, log_block_chained, set_super_logchain,
        defer_bfree_derollup, set_log_logchain, Sb.emit]
    rw [this, ih, log_state_logmap_ge a s i i (le_refl i), log_state_super_logchain]
    simp [log_calls]

theorem log_writes_log_calls (a : Nat → Nat) (s : Sb) (i : Nat) :
    log_writes (log_calls a s i) =
      (List.range i).map (fun j => (j, a j, { s.logmap j with logchain := log_chain a s j })) := by
  induction i with
  | zero => rfl
  | succ i ih =>
    simp only [log_calls, log_writes, List.filterMap_append, List.range_succ, List.map_append]
    rw [show List.filterMap _ (log_calls a s i) = log_writes (log_calls a s i) from rfl, ih]
    simp

theorem be_foldl (w x acc : Nat) :
    (cpu_to_be w x).foldl (fun a b => a * 256 + b) acc = acc * 256 ^ w + x % 256 ^ w := by
  induction w generalizing acc with
  | zero => simp [cpu_to_be, Nat.mod_one]
  | succ w ih =>
    simp only [cpu_to_be, List.foldl_cons, ih]
    rw [Nat.mod_pow_succ]
    ring

theorem be_to_cpu_cpu_to_be (w x : Nat) : be_to_cpu (cpu_to_be w x) = x % 256 ^ w := by
  simp [be_to_cpu, be_foldl]

theorem defer_value_decode (block count : Nat) (hb : block < 2 ^ 48) (hc : count < 2 ^ 16) :
    defer_value block count % 2 ^ 48 = block ∧ defer_value block count / 2 ^ 48 = count := by
  unfold defer_value u64
  rw [Nat.shiftLeft_eq, Nat.mul_comm, ← Nat.mul_add_lt_is_or hb count]
  have h1 : 2 ^ 48 * count + block < 2 ^ 64 := by
    have : 2 ^ 48 * count ≤ 2 ^ 48 * (2 ^ 16 - 1) := Nat.mul_le_mul_left _ (by omega)
    omega
  rw [Nat.mod_eq_of_lt h1]
  constructor
  · omega
  · omega

/-- The state `write_log` returns when the loop ran to its end in state `t`. -/
theorem write_log_of_loop_next (env : Env) (s t : Sb)
    (h : write_log_loop env s.lognext 0 (log_finish s) = (Exit.next, t)) :
    write_log env s =
      (some 0, { (log_finish_cycle t).2 with
        super := { t.super with
          logcount := cpu_to_be 4 (u32 (u32 (be_to_cpu t.super.logcount) + t.lognext)) } }) := by
  unfold write_log
  have h' : write_log_loop env (log_finish s).lognext 0 (log_finish s) = (Exit.next, t) := h
  simp only [h']
  rfl

theorem write_log_of_loop_ret (env : Env) (s t : Sb) (e : Int)
    (h : write_log_loop env s.lognext 0 (log_finish s) = (Exit.ret e, t)) :
    write_log env s = (some e, t) := by
  unfold write_log
  have h' : write_log_loop env (log_finish s).lognext 0 (log_finish s) = (Exit.ret e, t) := h
  simp only [h']

theorem log_chain_log_finish (a : Nat → Nat) (s : Sb) (i : Nat) :
    log_chain a (log_finish s) i = log_chain a s i := by
  cases i <;> rfl

theorem log_calls_log_finish (a : Nat → Nat) (s : Sb) (i : Nat) :
    log_calls a (log_finish s) i = log_calls a s i := by
  induction i with
  | zero => rfl
  | succ i ih =>
    simp only [log_calls, ih, log_chain_log_finish]
    rfl

theorem Relog.rl_trans {e1 e2 : List LogEntry} {p1 p2 r1 r2 : List Nat} {s t u : Sb}
    (h1 : Relog e1 p1 r1 s t) (h2 : Relog e2 p2 r2 t u) : Relog (e1 ++ e2) (p1 ++ p2) r2 s u := by
  obtain ⟨a1, a2, _, a4, a5⟩ := h1
  obtain ⟨b1, b2, b3, b4, b5⟩ := h2
  refine ⟨?_, ?_, b3, b4.trans a4, b5.trans a5⟩
  · rw [b1, a1, List.map_append, List.append_assoc]
  · rw [b2, a2, List.append_assoc]

theorem Relog_log_append (env : Env) (e : LogEntry) (s : Sb) :
    Relog [e] [] s.derollup s (log_append env e s) := by
  refine ⟨log_append_trace env e s, ?_, ?_, ?_, ?_⟩ <;>
  · unfold log_append log_next
    simp only
    split_ifs <;> simp

theorem Relog_relog_as_bfree (env : Env) (hstash : ∀ s v, env.stash_value s v = 0)
    (v : Nat) (s : Sb) :
    (relog_as_bfree env v s).1 = 0 ∧
    Relog [LogEntry.BFREE_RELOG (v % 2 ^ 48) (v / 2 ^ 48)] [v] s.derollup s
      (relog_as_bfree env v s).2 := by
  have h := Relog_log_append env (LogEntry.BFREE_RELOG (v % 2 ^ 48) (v / 2 ^ 48)) s
  unfold relog_as_bfree stash_value_defree log_bfree_relog
  simp only [hstash, ne_eq, not_true_eq_false, ↓reduceIte, and_mask48, shr48, true_and]
  obtain ⟨a1, a2, a3, a4, a5⟩ := h
  exact ⟨a1, by rw [List.append_nil] at a2; exact congrArg (fun l => l ++ [v]) a2, a3, a4, a5⟩

theorem Relog_relog_frontend (env : Env) (v : Nat) (s : Sb) :
    (relog_frontend_defer_as_bfree env v s).1 = 0 ∧
    Relog [LogEntry.BFREE_RELOG (v % 2 ^ 48) (v / 2 ^ 48)] [] s.derollup s
      (relog_frontend_defer_as_bfree env v s).2 := by
  have h := Relog_log_append env (LogEntry.BFREE_RELOG (v % 2 ^ 48) (v / 2 ^ 48)) s
  unfold relog_frontend_defer_as_bfree log_bfree_relog
  simp only [and_mask48, shr48, true_and]
  exact h

theorem Relog_traverse (actor : Nat → Sb → Int × Sb) (push : Bool)
    (ha : ∀ v s, (actor v s).1 = 0 ∧
      Relog [LogEntry.BFREE_RELOG (v % 2 ^ 48) (v / 2 ^ 48)] (if push then [v] else [])
        s.derollup s (actor v s).2)
    (l : List Nat) (s : Sb) :
    (stash_traverse actor l s).1 = 0 ∧ (stash_traverse actor l s).2.1 = [] ∧
    Relog (relog_entries l) (if push then l else []) s.derollup s
      (stash_traverse actor l s).2.2 := by
  induction l generalizing s with
  | nil =>
    refine ⟨rfl, rfl, ?_⟩
    cases push <;>
      exact ⟨by simp [stash_traverse, relog_entries], by simp [stash_traverse], rfl, rfl, rfl⟩
  | cons v l ih =>
    obtain ⟨h0, hr⟩ := ha v s
    obtain ⟨i1, i2, i3⟩ := ih (actor v s).2
    unfold stash_traverse
    simp only [h0, ne_eq, not_true_eq_false, ↓reduceIte]
    refine ⟨i1, i2, ?_⟩
    rw [hr.2.2.1] at i3
    have := hr.rl_trans i3
    cases push <;> simpa [relog_entries] using this

theorem Relog_stash_walk (env : Env) (s : Sb) :
    Relog (relog_entries s.defree) [] s.derollup s
      (stash_walk_defree (relog_frontend_defer_as_bfree env) s).2 :=
  (Relog_traverse (relog_frontend_defer_as_bfree env) false
    (fun v s => Relog_relog_frontend env v s) s.defree s).2.2

theorem Relog_unstash (env : Env) (hstash : ∀ s v, env.stash_value s v = 0) (s : Sb) :
    Relog (relog_entries s.derollup) s.derollup [] s
      (unstash_derollup (relog_as_bfree env) s).2 := by
  obtain ⟨_, h2, h3, h4, _, h6, h7⟩ := Relog_traverse (relog_as_bfree env) true
    (fun v s => Relog_relog_as_bfree env hstash v s) s.derollup s
  exact ⟨h3, h4, h2, h6, h7⟩

theorem Relog_rollup_log_relog (env : Env) (hstash : ∀ s v, env.stash_value s v = 0) (s : Sb) :
    Relog ([LogEntry.ROLLUP, LogEntry.FREEBLOCKS s.freeblocks] ++ relog_entries s.defree ++
        relog_entries s.derollup) s.derollup [] s (rollup_log_relog env s) := by
  have h4 : Relog [LogEntry.ROLLUP] [] s.derollup s (log_rollup env s) :=
    Relog_log_append env _ s
  have h5 : Relog [LogEntry.FREEBLOCKS (log_rollup env s).freeblocks] [] (log_rollup env s).derollup
      (log_rollup env s) (log_freeblocks env (log_rollup env s).freeblocks (log_rollup env s)) :=
    Relog_log_append env _ _
  have h6 := Relog_stash_walk env
    (log_freeblocks env (log_rollup env s).freeblocks (log_rollup env s))
  have h7 := Relog_unstash env hstash (stash_walk_defree (relog_frontend_defer_as_bfree env)
    (log_freeblocks env (log_rollup env s).freeblocks (log_rollup env s))).2
  have h45 := h4.rl_trans h5
  have h456 := h45.rl_trans h6
  have hall := h456.rl_trans h7
  have e1 : (log_rollup env s).freeblocks = s.freeblocks := h4.2.2.2.2
  have e2 : (log_freeblocks env (log_rollup env s).freeblocks (log_rollup env s)).defree =
      s.defree := by
    have := h45.2.1
    simpa using this
  have e3 : (stash_walk_defree (relog_frontend_defer_as_bfree env)
      (log_freeblocks env (log_rollup env s).freeblocks (log_rollup env s))).2.derollup =
      s.derollup := by
    rw [h6.2.2.1, h5.2.2.1, h4.2.2.1]
  obtain ⟨t1, t2, t3, t4, t5⟩ := hall
  refine ⟨?_, ?_, t3, t4, t5⟩
  · conv_rhs at t1 => rw [e3, e2, e1]
    simpa using t1
  · conv_rhs at t2 => rw [e3]
    simpa using t2

theorem logged_append (a b : List Event) : logged (a ++ b) = logged a ++ logged b := by
  simp [logged, List.filterMap_append]

theorem logged_map_log (evs : List LogEntry) : logged (evs.map Event.log) = evs := by
  induction evs with
  | nil => rfl
  | cons e l ih => simpa [logged] using ih

theorem Logs.lg_trans {e1 e2 : List LogEntry} {s t u : Sb} (h1 : Logs e1 s t) (h2 : Logs e2 t u) :
    Logs (e1 ++ e2) s u := by
  obtain ⟨c1, a1, a2⟩ := h1
  obtain ⟨c2, b1, b2⟩ := h2
  exact ⟨c1 ++ c2, by rw [b1, a1, List.append_assoc], by rw [logged_append, a2, b2]⟩

theorem Logs_of_relog {evs : List LogEntry} {p r : List Nat} {s t : Sb} (h : Relog evs p r s t) :
    Logs evs s t :=
  ⟨evs.map Event.log, h.1, logged_map_log evs⟩

theorem logged_of_not_log (calls : List Event) (h : ∀ e ∈ calls, ∀ x, e ≠ Event.log x) :
    logged calls = [] := by
  induction calls with
  | nil => rfl
  | cons e l ih =>
    have hl := ih (fun e he => h e (List.mem_cons_of_mem _ he))
    have he := h e (List.mem_cons_self _ _)
    cases e <;> first | exact absurd rfl (he _) | simpa [logged] using hl

theorem Logs_of_flush {s t : Sb} (h : Extends (fun e => e.is_flush = true) s t) : Logs [] s t := by
  obtain ⟨calls, ht, hp⟩ := h
  refine ⟨calls, ht, logged_of_not_log calls ?_⟩
  intro e he x hx
  have := hp e he
  rw [hx] at this
  exact absurd this (by simp [Event.is_flush])

theorem Logs_of_trace_eq {s t : Sb} (h : t.trace = s.trace) : Logs [] s t :=
  ⟨[], by simp [h], rfl⟩

theorem Logs_emit (s : Sb) (e : Event) (h : logged [e] = []) : Logs [] s (s.emit e) :=
  ⟨[e], rfl, h⟩

theorem Logs_calls_since {evs : List LogEntry} {s t : Sb} (h : Logs evs s t) :
    logged (calls_since s t) = evs := by
  obtain ⟨calls, ht, hl⟩ := h
  rw [calls_since_append s t calls ht, hl]

theorem wb_same.same_super {s t : Sb} (h : wb_same s t) : t.super = s.super := by
  have h1 := congrArg Sb.super h
  exact h1

theorem wb_same.same_defree {s t : Sb} (h : wb_same s t) : t.defree = s.defree := by
  have h1 := congrArg Sb.defree h
  exact h1

theorem wb_same.same_derollup {s t : Sb} (h : wb_same s t) : t.derollup = s.derollup := by
  have h1 := congrArg Sb.derollup h
  exact h1

theorem flush_list_pinned_super (s : Sb) : (flush_list_pinned s).super = s.super := rfl

theorem flush_list_pinned_defree (s : Sb) : (flush_list_pinned s).defree = s.defree := rfl

theorem flush_list_pinned_derollup (s : Sb) : (flush_list_pinned s).derollup = s.derollup := rfl

theorem Logs_flush_list_pinned (s : Sb) : Logs [] s (flush_list_pinned s) :=
  ⟨[Event.flush_list s.pinned], rfl, rfl⟩

theorem rollup_log_begin_super (s : Sb) :
    (rollup_log_begin s).super = { s.super with logcount := cpu_to_be 4 0 } := rfl

theorem rollup_log_begin_defree (s : Sb) : (rollup_log_begin s).defree = s.defree := rfl

theorem rollup_log_begin_derollup (s : Sb) : (rollup_log_begin s).derollup = s.derollup := rfl

theorem rollup_log_begin_freeblocks (s : Sb) : (rollup_log_begin s).freeblocks = s.freeblocks := rfl

theorem rollup_log_begin_trace (s : Sb) : (rollup_log_begin s).trace = s.trace := rfl

theorem Rolled_rollup_log_flush (env : Env) (hstash : ∀ s v, env.stash_value s v = 0) (s : Sb) :
    Rolled s (rollup_log_flush env s) := by
  have hr := Relog_rollup_log_relog env hstash (rollup_log_begin s)
  rw [rollup_log_begin_freeblocks, rollup_log_begin_defree, rollup_log_begin_derollup] at hr
  have hwb := Wb_sync_inode env (flush_list_pinned (rollup_log_relog env (rollup_log_begin s))).bitmap
    (flush_list_pinned (rollup_log_relog env (rollup_log_begin s)))
  unfold rollup_log_flush
  simp only
  have hl1 := Logs_of_relog hr
  obtain ⟨_, r2, r3, r4, _⟩ := hr
  refine ⟨?_, ?_, ?_, ?_⟩
  · rw [hwb.1.same_super, flush_list_pinned_super, r4, rollup_log_begin_super]
  · have hl0 : Logs [] s (rollup_log_begin s) := Logs_of_trace_eq (rollup_log_begin_trace s)
    have := ((hl0.lg_trans hl1).lg_trans (Logs_flush_list_pinned _)).lg_trans
      (Logs_of_flush hwb.2)
    simpa using this
  · rw [hwb.1.same_derollup, flush_list_pinned_derollup, r3]
  · rw [hwb.1.same_defree, flush_list_pinned_defree, r2, rollup_log_begin_defree]

/-- A step that leaves the super-record and both stashes alone and logs
nothing. -/
theorem Rolled_then {s t u : Sb} (h : Rolled s t) (hs : u.super = t.super)
    (hd : u.defree = t.defree) (hr : u.derollup = t.derollup) (hl : Logs [] t u) :
    Rolled s u := by
  obtain ⟨h1, h2, h3, h4⟩ := h
  exact ⟨hs.trans h1, by simpa using h2.lg_trans hl, hr.trans h3, hd.trans h4⟩

theorem orphan_del_state (env : Env) (l : List Nat) (s : Sb) :
    (tux3_rollup_orphan_del env l s).2.2 =
      s.emit (Event.orphan_del l (env.tux3_rollup_orphan_del s l).1) := rfl

theorem orphan_add_state (env : Env) (l : List Nat) (s : Sb) :
    (tux3_rollup_orphan_add env l s).2.2 =
      s.emit (Event.orphan_add l (env.tux3_rollup_orphan_add s l).1) := rfl

theorem Rolled_emit {s t : Sb} (h : Rolled s t) (e : Event) (he : logged [e] = []) :
    Rolled s (t.emit e) :=
  Rolled_then h rfl rfl rfl (Logs_emit t e he)

theorem Rolled_rollup_log (env : Env) (hstash : ∀ s v, env.stash_value s v = 0) (s : Sb) :
    Rolled s (rollup_log env s).2 := by
  have hf := Rolled_rollup_log_flush env hstash s
  have hd : Rolled s (tux3_rollup_orphan_del env s.orphan_del (rollup_log_flush env s)).2.2 := by
    rw [orphan_del_state]
    exact Rolled_emit hf _ rfl
  have ha : Rolled s (tux3_rollup_orphan_add env s.orphan_add
      (tux3_rollup_orphan_del env s.orphan_del (rollup_log_flush env s)).2.2).2.2 := by
    rw [orphan_add_state]
    exact Rolled_emit hd _ rfl
  unfold rollup_log
  simp only
  split_ifs
  · exact hd
  · exact ha
  · exact ha
  · exact ha

theorem load_sb_ok (env : Env) (s : Sb) (d : Disksuper) (hr : env.devio_read s = (0, d))
    (hm : d.magic.take 16 = env.TUX3_MAGIC.take 16) :
    load_sb env s = (0, setup_sb env d { s.emit (Event.devio_read d 0) with super := d }) := by
  unfold load_sb
  simp only [hr, ne_eq, not_true_eq_false, ↓reduceIte, hm]

theorem save_sb_super (env : Env) (s : Sb) :
    (save_sb env s).2.super =
      { s.super with
        blockbits := cpu_to_be 2 s.blockbits,
        volblocks := cpu_to_be 8 s.volblocks,
        iroot := cpu_to_be 8 (env.pack_root s.itable.root),
        oroot := cpu_to_be 8 (env.pack_root s.otable.root),
        freeblocks := cpu_to_be 8 s.freeblocks,
        nextalloc := cpu_to_be 8 s.nextalloc,
        atomdictsize := cpu_to_be 8 s.atomdictsize,
        freeatom := cpu_to_be 4 s.freeatom,
        atomgen := cpu_to_be 4 s.atomgen } := rfl

theorem be_roundtrip (w x : Nat) (h : x < 256 ^ w) : be_to_cpu (cpu_to_be w x) = x := by
  rw [be_to_cpu_cpu_to_be, Nat.mod_eq_of_lt h]

theorem setup_sb_fields (env : Env) (d : Disksuper) (s : Sb) :
    (setup_sb env d s).blockbits = be_to_cpu d.blockbits ∧
    (setup_sb env d s).volblocks = be_to_cpu d.volblocks ∧
    (setup_sb env d s).freeblocks = be_to_cpu d.freeblocks ∧
    (setup_sb env d s).nextalloc = be_to_cpu d.nextalloc ∧
    (setup_sb env d s).atomdictsize = be_to_cpu d.atomdictsize ∧
    (setup_sb env d s).atomgen = be_to_cpu d.atomgen ∧
    (setup_sb env d s).freeatom = be_to_cpu d.freeatom ∧
    (setup_sb env d s).itable.root = env.unpack_root (be_to_cpu d.iroot) ∧
    (setup_sb env d s).otable.root = env.unpack_root (be_to_cpu s.super.oroot) ∧
    (setup_sb env d s).super = s.super :=
  ⟨rfl, rfl, rfl, rfl, rfl, rfl, rfl, rfl, rfl, rfl⟩

theorem written_append (a b : List Event) : written (a ++ b) = written a ++ written b := by
  simp [written, List.filterMap_append]

theorem freed_append (a b : List Event) : freed (a ++ b) = freed a ++ freed b := by
  simp [freed, List.filterMap_append]

theorem StashStep.ss_trans {w1 w2 : List Nat} {f1 f2 : List (Nat × Nat)} {D1 R1 D2 R2 : List Nat}
    {s t u : Sb} (h1 : StashStep w1 f1 D1 R1 s t) (h2 : StashStep w2 f2 D2 R2 t u) :
    StashStep (w1 ++ w2) (f1 ++ f2) D2 R2 s u := by
  obtain ⟨_, _, c1, a1, a2, a3⟩ := h1
  obtain ⟨b1, b2, c2, b3, b4, b5⟩ := h2
  exact ⟨b1, b2, c1 ++ c2, by rw [b3, a1, List.append_assoc], by rw [written_append, a2, b4],
    by rw [freed_append, a3, b5]⟩

theorem written_of_not_io (calls : List Event) (h : ∀ e ∈ calls, e.is_commit_io = false) :
    written calls = [] ∧ freed calls = [] := by
  induction calls with
  | nil => exact ⟨rfl, rfl⟩
  | cons e l ih =>
    obtain ⟨i1, i2⟩ := ih (fun e he => h e (List.mem_cons_of_mem _ he))
    have he := h e (List.mem_cons_self _ _)
    cases e <;> first | exact ⟨i1, i2⟩ | exact Bool.noConfusion he

/-- A step that keeps both stashes and makes no device call of the commit. -/
theorem StashStep_idle {s t : Sb} (hd : t.defree = s.defree) (hr : t.derollup = s.derollup)
    (h : Extends (fun e => e.is_commit_io = false) s t) :
    StashStep [] [] s.defree s.derollup s t := by
  obtain ⟨calls, ht, hp⟩ := h
  obtain ⟨h1, h2⟩ := written_of_not_io calls hp
  exact ⟨hd, hr, calls, ht, h1, h2⟩

theorem StashStep_wb {s t : Sb} (h : Wb s t) : StashStep [] [] s.defree s.derollup s t :=
  StashStep_idle h.1.same_defree h.1.same_derollup h.quiet.2

theorem StashStep_log_append (env : Env) (e : LogEntry) (s : Sb) :
    StashStep [] [] s.defree s.derollup s (log_append env e s) := by
  obtain ⟨_, h2, h3, _, _⟩ := Relog_log_append env e s
  exact StashStep_idle (by simpa using h2) h3 (Quiet_log_append env e s).2

theorem rollup_wanted_state (flag : rollup_flags) (s : Sb) :
    (rollup_wanted flag s).2.defree = s.defree ∧ (rollup_wanted flag s).2.derollup = s.derollup := by
  unfold rollup_wanted need_rollup
  simp only
  split_ifs <;> exact ⟨rfl, rfl⟩

theorem StashStep_do_commit_stage (env : Env) (s : Sb) :
    StashStep [] [] s.defree s.derollup s (do_commit_stage env s).2 := by
  have h1 : StashStep [] [] s.defree s.derollup s { s with delta := u32 (s.delta + 1) } :=
    StashStep_idle rfl rfl ⟨[], by simp, by simp⟩
  have h2 := StashStep_log_append env LogEntry.DELTA { s with delta := u32 (s.delta + 1) }
  have h3 := StashStep_wb (Wb_sync_inodes env
    (log_append env LogEntry.DELTA { s with delta := u32 (s.delta + 1) }))
  rw [h2.1, h2.2.1] at h3
  exact (h1.ss_trans h2).ss_trans h3

theorem StashStep_rollup_log (env : Env) (hstash : ∀ s v, env.stash_value s v = 0) (s : Sb) :
    StashStep [] [] (s.defree ++ s.derollup) [] s (rollup_log env s).2 := by
  obtain ⟨_, _, h3, h4⟩ := Rolled_rollup_log env hstash s
  obtain ⟨calls, ht, hp⟩ := (Quiet_rollup_log env s).2
  obtain ⟨h1, h2⟩ := written_of_not_io calls hp
  exact ⟨h4, h3, calls, ht, h1, h2⟩

theorem do_commit_of_stage_none (env : Env) (flag : rollup_flags) (s : Sb)
    (h : (do_commit_stage env s).1 = none) :
    do_commit env flag s = (none, (do_commit_stage env s).2) := by
  unfold do_commit
  simp only [h]

theorem do_commit_of_stage_error (env : Env) (flag : rollup_flags) (s : Sb) (e : Int)
    (h : (do_commit_stage env s).1 = some e) (he : e ≠ 0) :
    do_commit env flag s = (some e, (do_commit_stage env s).2) := by
  unfold do_commit
  simp only [h, ne_eq, he, not_false_eq_true, ↓reduceIte]

theorem do_commit_of_no_rollup (env : Env) (flag : rollup_flags) (s : Sb)
    (h : (do_commit_stage env s).1 = some 0)
    (hn : (rollup_wanted flag (do_commit_stage env s).2).1 = false) :
    do_commit env flag s = do_commit_tail env (rollup_wanted flag (do_commit_stage env s).2).2 := by
  unfold do_commit
  simp only [h, hn, ne_eq, not_true_eq_false, ↓reduceIte, Bool.false_eq_true]

theorem do_commit_of_rollup_none (env : Env) (flag : rollup_flags) (s : Sb)
    (h : (do_commit_stage env s).1 = some 0)
    (hn : (rollup_wanted flag (do_commit_stage env s).2).1 = true)
    (hr : (rollup_log env (rollup_wanted flag (do_commit_stage env s).2).2).1 = none) :
    do_commit env flag s =
      (none, (rollup_log env (rollup_wanted flag (do_commit_stage env s).2).2).2) := by
  unfold do_commit
  simp only [h, hn, hr, ne_eq, not_true_eq_false, ↓reduceIte]

theorem do_commit_of_rollup_error (env : Env) (flag : rollup_flags) (s : Sb) (e : Int)
    (h : (do_commit_stage env s).1 = some 0)
    (hn : (rollup_wanted flag (do_commit_stage env s).2).1 = true)
    (hr : (rollup_log env (rollup_wanted flag (do_commit_stage env s).2).2).1 = some e)
    (he : e ≠ 0) :
    do_commit env flag s =
      (some e, (rollup_log env (rollup_wanted flag (do_commit_stage env s).2).2).2) := by
  unfold do_commit
  simp only [h, hn, hr, ne_eq, he, not_true_eq_false, not_false_eq_true, ↓reduceIte]

theorem do_commit_of_rollup (env : Env) (flag : rollup_flags) (s : Sb)
    (h : (do_commit_stage env s).1 = some 0)
    (hn : (rollup_wanted flag (do_commit_stage env s).2).1 = true)
    (hr : (rollup_log env (rollup_wanted flag (do_commit_stage env s).2).2).1 = some 0) :
    do_commit env flag s =
      do_commit_tail env
        (log_delta env (rollup_log env (rollup_wanted flag (do_commit_stage env s).2).2).2) := by
  unfold do_commit
  simp only [h, hn, hr, ne_eq, not_true_eq_false, ↓reduceIte]

theorem stash_pair_log_block_value (a : Nat) (h : a < 2 ^ 48) :
    stash_pair (log_block_value a) = (a, 1) := by
  obtain ⟨h1, h2⟩ := defer_value_decode a 1 h (by norm_num)
  unfold stash_pair log_block_value
  rw [h1, h2]

/-- The three ways `load_sb` ends. -/
theorem load_sb_cases (env : Env) (s : Sb) :
    ((env.devio_read s).1 ≠ 0 ∧ load_sb env s = ((env.devio_read s).1, load_sb_read env s)) ∨
    ((env.devio_read s).1 = 0 ∧ (env.devio_read s).2.magic.take 16 ≠ env.TUX3_MAGIC.take 16 ∧
      load_sb env s = (-EINVAL, load_sb_read env s)) ∨
    ((env.devio_read s).1 = 0 ∧ (env.devio_read s).2.magic.take 16 = env.TUX3_MAGIC.take 16 ∧
      load_sb env s = (0, setup_sb env (env.devio_read s).2 (load_sb_read env s))) := by
  unfold load_sb load_sb_read
  by_cases h1 : (env.devio_read s).1 = 0
  · by_cases h2 : (env.devio_read s).2.magic.take 16 = env.TUX3_MAGIC.take 16
    · right; right
      refine ⟨h1, h2, ?_⟩
      simp only [h1, ne_eq, not_true_eq_false, ↓reduceIte, h2]
    · right; left
      refine ⟨h1, h2, ?_⟩
      simp only [h1, ne_eq, not_true_eq_false, ↓reduceIte, h2, not_false_eq_true]
  · left
    refine ⟨h1, ?_⟩
    simp only [ne_eq, h1, not_false_eq_true, ↓reduceIte]

theorem write_log_block_write_fail (env : Env) (index block : Nat) (s : Sb) (e : Int)
    (ha : env.balloc s = (0, block))
    (hm : (s.logmap index).magic = cpu_to_be 2 env.TUX3_MAGIC_LOG)
    (hw : env.blockio_write (log_block_chained index block s) index block = e) (he : e ≠ 0) :
    ∃ f, write_log_block env index s = (Exit.ret e, log_block_failed index block e f s) := by
  have hm1 : ((s.emit (Event.balloc 1 0 block)).logmap index).magic =
      cpu_to_be 2 env.TUX3_MAGIC_LOG := hm
  have hw1 : env.blockio_write (set_log_logchain index (s.emit (Event.balloc 1 0 block)))
      index block = e := hw
  unfold write_log_block balloc blockio_write
  simp only [ha, ne_eq, not_true_eq_false, ↓reduceIte, hm1, hw1, he, not_false_eq_true]
  exact ⟨_, rfl⟩

theorem write_log_loop_write_fail (env : Env) (a : Nat → Nat) (s : Sb) (i : Nat) (e : Int)
    (hi : i < s.lognext)
    (hall : ∀ j, j < i →
      env.balloc (log_state a s j) = (0, a j) ∧
      (s.logmap j).magic = cpu_to_be 2 env.TUX3_MAGIC_LOG ∧
      env.blockio_write (log_block_chained j (a j) (log_state a s j)) j (a j) = 0)
    (ha : env.balloc (log_state a s i) = (0, a i))
    (hm : (s.logmap i).magic = cpu_to_be 2 env.TUX3_MAGIC_LOG)
    (hf : env.blockio_write (log_block_chained i (a i) (log_state a s i)) i (a i) = e)
    (he : e ≠ 0) (fuel index : Nat) (h1 : index ≤ i) (h2 : i < index + fuel) :
    ∃ f, write_log_loop env fuel index (log_state a s index) =
      (Exit.ret e, log_block_failed i (a i) e f (log_state a s i)) := by
  induction fuel generalizing index with
  | zero => omega
  | succ fuel ih =>
    have hlt : index < s.lognext := by omega
    unfold write_log_loop
    simp only [log_state_lognext, hlt, ↓reduceIte]
    by_cases hidx : index = i
    · subst hidx
      obtain ⟨f, hb⟩ := write_log_block_write_fail env index (a index) (log_state a s index) e ha
        (by rw [log_state_magic]; exact hm) hf he
      exact ⟨f, by rw [hb]⟩
    · obtain ⟨h3, h4, h5⟩ := hall index (by omega)
      have hb := write_log_block_ok env index (a index) (log_state a s index) h3
        (by rw [log_state_magic]; exact h4) h5
      simp only [hb]
      exact ih (index + 1) (by omega) (by omega)

theorem log_block_failed_trace (index block : Nat) (e f : Int) (s : Sb) :
    (log_block_failed index block e f s).trace = s.trace ++
      [Event.balloc 1 0 block,
       Event.blockio_write index block { s.logmap index with logchain := s.super.logchain } e,
       Event.bfree block 1 f] := by
  simp [log_block_failed, log_block_chained, set_log_logchain, Sb.emit]

theorem log_block_failed_fields (index block : Nat) (e f : Int) (s : Sb) :
    (log_block_failed index block e f s).derollup = s.derollup ∧
    (log_block_failed index block e f s).super = s.super ∧
    (log_block_failed index block e f s).lognext = s.lognext := by
  refine ⟨?_, ?_, ?_⟩ <;> rfl

theorem log_finish_fields (s : Sb) :
    (log_finish s).derollup = s.derollup ∧ (log_finish s).super = s.super ∧
    (log_finish s).lognext = s.lognext ∧ (log_finish s).trace = s.trace ∧
    (log_finish s).logmap = s.logmap := by
  refine ⟨?_, ?_, ?_, ?_, ?_⟩ <;> rfl

theorem list_empty_iff_links (inode : Nat) (s : Sb) : list_empty inode s ↔ links inode s = 0 := by
  unfold list_empty links
  rw [Nat.add_eq_zero_iff, List.count_eq_zero, List.count_eq_zero]

theorem links_pos_iff (inode : Nat) (s : Sb) :
    0 < links inode s ↔ inode ∈ s.dirty_inodes ∨ inode ∈ s.sync_inodes_dirty_inodes := by
  unfold links
  rw [Nat.add_pos_iff_pos_or_pos, List.count_pos_iff, List.count_pos_iff]

theorem and_not_I_DIRTY (env : Env) (x : Nat) : (x &&& not_I_DIRTY env) &&& env.I_DIRTY = 0 := by
  apply Nat.eq_of_testBit_eq
  intro i
  have hlt : u32 env.I_DIRTY < 2 ^ 32 := Nat.mod_lt _ (by norm_num)
  have h1 : not_I_DIRTY env = 2 ^ 32 - (u32 env.I_DIRTY + 1) := by
    unfold not_I_DIRTY; omega
  rw [h1, Nat.testBit_and, Nat.testBit_and, Nat.testBit_two_pow_sub_succ hlt, u32,
    Nat.testBit_mod_two_pow, Nat.zero_testBit]
  cases x.testBit i <;> cases env.I_DIRTY.testBit i <;> cases decide (i < 32) <;> rfl

theorem or_flags_dirty (st flags d : Nat) (h0 : flags ≠ 0) (hsub : flags &&& d = flags) :
    (st ||| flags) &&& d ≠ 0 := by
  obtain ⟨i, hi⟩ := Nat.ne_zero_implies_bit_true h0
  have hd : d.testBit i = true := by
    have := congrArg (fun n => n.testBit i) hsub
    simp only [Nat.testBit_and, hi, Bool.true_and] at this
    exact this
  intro h
  have := congrArg (fun n => n.testBit i) h
  simp [hi, hd] at this

theorem or_of_and_eq (st flags : Nat) (h : st &&& flags = flags) : st ||| flags = st := by
  apply Nat.eq_of_testBit_eq
  intro i
  have := congrArg (fun n => n.testBit i) h
  simp only [Nat.testBit_and] at this
  rw [Nat.testBit_or]
  cases hs : st.testBit i <;> cases hf : flags.testBit i <;> simp_all

/-- The three ways `__mark_inode_dirty` ends: nothing to do, state updated and
inode linked at the tail of `sb->dirty_inodes`, state updated only. -/
theorem mark_inode_dirty_cases (inode flags : Nat) (s : Sb) :
    ((s.inodes inode).state &&& flags = flags ∧ __mark_inode_dirty inode flags s = s) ∨
    ((s.inodes inode).state &&& flags ≠ flags ∧ links inode s = 0 ∧
      __mark_inode_dirty inode flags s =
        { set_state inode ((s.inodes inode).state ||| flags) s with
          dirty_inodes := s.dirty_inodes ++ [inode] }) ∨
    ((s.inodes inode).state &&& flags ≠ flags ∧ 0 < links inode s ∧
      __mark_inode_dirty inode flags s = set_state inode ((s.inodes inode).state ||| flags) s) := by
  unfold __mark_inode_dirty
  by_cases h : (s.inodes inode).state &&& flags = flags
  · left
    exact ⟨h, by simp only [ne_eq, h, not_true_eq_false, ↓reduceIte]⟩
  · right
    have hl : list_empty inode (set_state inode ((s.inodes inode).state ||| flags) s) ↔
        links inode s = 0 := list_empty_iff_links inode s
    by_cases h0 : links inode s = 0
    · left
      refine ⟨h, h0, ?_⟩
      simp only [ne_eq, h, not_false_eq_true, ↓reduceIte, hl.mpr h0]
      rfl
    · right
      refine ⟨h, Nat.pos_of_ne_zero h0, ?_⟩
      simp only [ne_eq, h, not_false_eq_true, ↓reduceIte, hl, h0]

theorem set_state_inodes_self (inode v : Nat) (s : Sb) :
    (set_state inode v s).inodes inode = { s.inodes inode with state := v } := by
  simp [set_state]

theorem set_state_inodes_other (inode v : Nat) (s : Sb) (j : Nat) (h : j ≠ inode) :
    (set_state inode v s).inodes j = s.inodes j := by
  simp [set_state, Function.update_noteq h]

theorem links_append_self (inode : Nat) (s t : Sb)
    (hd : t.dirty_inodes = s.dirty_inodes ++ [inode])
    (hw : t.sync_inodes_dirty_inodes = s.sync_inodes_dirty_inodes) :
    links inode t = links inode s + 1 := by
  unfold links
  rw [hd, hw, List.count_append]
  simp
  omega

theorem links_append_other (inode j : Nat) (s t : Sb) (h : j ≠ inode)
    (hd : t.dirty_inodes = s.dirty_inodes ++ [inode])
    (hw : t.sync_inodes_dirty_inodes = s.sync_inodes_dirty_inodes) :
    links j t = links j s := by
  unfold links
  rw [hd, hw, List.count_append]
  simp [List.count_singleton, h.symm]

theorem links_eq_of_lists (j : Nat) (s t : Sb) (hd : t.dirty_inodes = s.dirty_inodes)
    (hw : t.sync_inodes_dirty_inodes = s.sync_inodes_dirty_inodes) : links j t = links j s := by
  unfold links
  rw [hd, hw]

theorem mark_inode_dirty_other (inode flags : Nat) (s : Sb) (j : Nat) (h : j ≠ inode) :
    (__mark_inode_dirty inode flags s).inodes j = s.inodes j ∧
    links j (__mark_inode_dirty inode flags s) = links j s := by
  rcases mark_inode_dirty_cases inode flags s with ⟨_, e⟩ | ⟨_, _, e⟩ | ⟨_, _, e⟩
  · rw [e]; exact ⟨rfl, rfl⟩
  · rw [e]
    exact ⟨set_state_inodes_other inode _ s j h, links_append_other inode j s _ h rfl rfl⟩
  · rw [e]
    exact ⟨set_state_inodes_other inode _ s j h, rfl⟩

theorem mark_inode_dirty_self (inode flags : Nat) (s : Sb) :
    (__mark_inode_dirty inode flags s).inodes inode =
      { s.inodes inode with state := (s.inodes inode).state ||| flags } := by
  rcases mark_inode_dirty_cases inode flags s with ⟨h, e⟩ | ⟨_, _, e⟩ | ⟨_, _, e⟩
  · rw [e, or_of_and_eq _ _ h]
  · rw [e]
    exact set_state_inodes_self inode _ s
  · rw [e]
    exact set_state_inodes_self inode _ s

theorem mark_inode_dirty_lists (inode flags : Nat) (s : Sb) :
    ((__mark_inode_dirty inode flags s).dirty_inodes = s.dirty_inodes ∨
      (links inode s = 0 ∧
        (__mark_inode_dirty inode flags s).dirty_inodes = s.dirty_inodes ++ [inode])) ∧
    (__mark_inode_dirty inode flags s).sync_inodes_dirty_inodes = s.sync_inodes_dirty_inodes := by
  rcases mark_inode_dirty_cases inode flags s with ⟨_, e⟩ | ⟨_, h0, e⟩ | ⟨_, _, e⟩
  · rw [e]; exact ⟨Or.inl rfl, rfl⟩
  · rw [e]; exact ⟨Or.inr ⟨h0, rfl⟩, rfl⟩
  · rw [e]; exact ⟨Or.inl rfl, rfl⟩

theorem mark_inode_dirty_linked (env : Env) (inode flags : Nat) (s : Sb) (h0 : flags ≠ 0)
    (hsub : flags &&& env.I_DIRTY = flags) (hinv : dirty_iff_linked env s) :
    0 < links inode (__mark_inode_dirty inode flags s) ∧
    (links inode s ≤ 1 → links inode (__mark_inode_dirty inode flags s) = 1) := by
  rcases mark_inode_dirty_cases inode flags s with ⟨h, e⟩ | ⟨_, hl, e⟩ | ⟨_, hl, e⟩
  · rw [e]
    have hd : is_dirty env inode s := by
      have := or_flags_dirty (s.inodes inode).state flags env.I_DIRTY h0 hsub
      rwa [or_of_and_eq _ _ h] at this
    have := (hinv inode).mpr hd
    exact ⟨this, fun h1 => by omega⟩
  · rw [e]
    have := links_append_self inode s
      { set_state inode ((s.inodes inode).state ||| flags) s with
        dirty_inodes := s.dirty_inodes ++ [inode] } rfl rfl
    rw [this, hl]
    exact ⟨Nat.one_pos, fun _ => rfl⟩
  · rw [e]
    have : links inode (set_state inode ((s.inodes inode).state ||| flags) s) = links inode s :=
      rfl
    rw [this]
    exact ⟨hl, fun h1 => by omega⟩

theorem mark_inode_dirty_inv (env : Env) (inode flags : Nat) (s : Sb)
    (hsub : flags &&& env.I_DIRTY = flags) (hinv : dirty_iff_linked env s) :
    dirty_iff_linked env (__mark_inode_dirty inode flags s) := by
  by_cases h0 : flags = 0
  · have : __mark_inode_dirty inode flags s = s := by
      rcases mark_inode_dirty_cases inode flags s with ⟨_, e⟩ | ⟨h, _, _⟩ | ⟨h, _, _⟩
      · exact e
      · exact absurd (by rw [h0]; exact Nat.and_zero _) h
      · exact absurd (by rw [h0]; exact Nat.and_zero _) h
    rw [this]
    exact hinv
  · intro j
    by_cases hj : j = inode
    · subst hj
      have h1 := (mark_inode_dirty_linked env j flags s h0 hsub hinv).1
      have h2 : is_dirty env j (__mark_inode_dirty j flags s) := by
        unfold is_dirty
        rw [mark_inode_dirty_self]
        exact or_flags_dirty _ flags env.I_DIRTY h0 hsub
      exact ⟨fun _ => h2, fun _ => h1⟩
    · obtain ⟨h1, h2⟩ := mark_inode_dirty_other inode flags s j hj
      unfold is_dirty
      rw [h2, h1]
      exact hinv j

theorem links_list_del_init_self (inode : Nat) (s : Sb) : links inode (list_del_init inode s) = 0 := by
  unfold links list_del_init
  simp [List.count_eq_zero]

theorem links_list_del_init_other (inode j : Nat) (s : Sb) (h : j ≠ inode) :
    links j (list_del_init inode s) = links j s := by
  unfold links list_del_init
  simp only
  rw [List.count_filter (by simpa using h), List.count_filter (by simpa using h)]

/-- Unlinking an inode and giving it a state without dirty bits keeps the
invariant. -/
theorem unlink_inv (env : Env) (inode v : Nat) (s : Sb) (hv : v &&& env.I_DIRTY = 0)
    (hinv : dirty_iff_linked env s) :
    dirty_iff_linked env (list_del_init inode (set_state inode v s)) := by
  intro j
  have hl : links j (list_del_init inode (set_state inode v s)) = links j (list_del_init inode s) :=
    rfl
  have hi : (list_del_init inode (set_state inode v s)).inodes = (set_state inode v s).inodes := rfl
  unfold is_dirty
  rw [hl, hi]
  by_cases hj : j = inode
  · subst hj
    rw [links_list_del_init_self, set_state_inodes_self]
    exact ⟨fun h => absurd h (Nat.lt_irrefl 0), fun h => absurd hv h⟩
  · rw [links_list_del_init_other inode j s hj, set_state_inodes_other inode v s j hj]
    exact hinv j

theorem flush_buffers_quiet (env : Env) (hq : flush_marks_nothing env) (inode : Nat) (s : Sb) :
    (flush_buffers env inode s).2 = s.emit (Event.flush_buffers inode (env.flush_buffers s inode).err) := by
  unfold flush_buffers
  simp only [(hq s inode).1]
  rfl

theorem write_inode_quiet (env : Env) (hq : flush_marks_nothing env) (inode : Nat) (s : Sb) :
    (write_inode env inode s).2 = s.emit (Event.write_inode inode (env.write_inode s inode).err) := by
  unfold write_inode
  simp only [(hq s inode).2]
  rfl

theorem sync_inode_inv (env : Env) (hq : flush_marks_nothing env) (inode : Nat) (s : Sb)
    (hinv : dirty_iff_linked env s) : dirty_iff_linked env (sync_inode env inode s).2 := by
  have h1 := unlink_inv env inode ((s.inodes inode).state &&& not_I_DIRTY env) s
    (and_not_I_DIRTY env _) hinv
  unfold sync_inode
  simp only
  split_ifs <;>
    first
    | exact h1
    | (rw [flush_buffers_quiet env hq]; exact h1)
    | (rw [write_inode_quiet env hq]; exact h1)
    | (rw [write_inode_quiet env hq, flush_buffers_quiet env hq]; exact h1)

theorem clear_inode_inv (env : Env) (inode : Nat) (s : Sb) (hinv : dirty_iff_linked env s) :
    dirty_iff_linked env (clear_inode inode s) :=
  unlink_inv env inode 0 s (Nat.zero_and _) hinv

theorem dirty_iff_linked_sb_attr_dirty : dirty_iff_linked env0 sb_attr_dirty := by
  intro j
  unfold links is_dirty
  by_cases h0 : j = 0
  · subst h0; decide
  · by_cases h1 : j = 1
    · subst h1; decide
    · by_cases h2 : j = 2
      · subst h2; decide
      · have hs : (sb_attr_dirty.inodes j).state = 0 := by
          simp [sb_attr_dirty, h0, h1, h2]
        have hc : List.count j sb_attr_dirty.dirty_inodes +
            List.count j sb_attr_dirty.sync_inodes_dirty_inodes = 0 := by
          simp [sb_attr_dirty, sb0, List.count_singleton, Ne.symm h2]
        rw [hs, hc]
        simp

theorem apply_dirtied_working (l : List (Nat × Nat)) (s : Sb) :
    (apply_dirtied l s).sync_inodes_dirty_inodes = s.sync_inodes_dirty_inodes := by
  induction l generalizing s with
  | nil => rfl
  | cons p l ih =>
    show (apply_dirtied l (__mark_inode_dirty p.1 p.2 s)).sync_inodes_dirty_inodes = _
    rw [ih, (mark_inode_dirty_lists p.1 p.2 s).2]

theorem mark_inode_dirty_inum (inode flags : Nat) (s : Sb) (b : Nat) :
    ((__mark_inode_dirty inode flags s).inodes b).inum = (s.inodes b).inum := by
  by_cases h : b = inode
  · subst h
    rw [mark_inode_dirty_self]
  · rw [(mark_inode_dirty_other inode flags s b h).1]

theorem and_or_self (x y : Nat) : x &&& (x ||| y) = x := by
  apply Nat.eq_of_testBit_eq
  intro i
  rw [Nat.testBit_and, Nat.testBit_or]
  cases x.testBit i <;> cases y.testBit i <;> rfl

theorem and_trans_of_sub (x y z : Nat) (h1 : x &&& y = x) (h2 : y &&& z = y) : x &&& z = x := by
  rw [← h1, Nat.and_assoc, h2]

theorem mark_inode_dirty_grows (inode flags : Nat) (s : Sb) (b : Nat) :
    (s.inodes b).state &&& ((__mark_inode_dirty inode flags s).inodes b).state =
      (s.inodes b).state := by
  by_cases h : b = inode
  · subst h
    rw [mark_inode_dirty_self]
    exact and_or_self _ _
  · rw [(mark_inode_dirty_other inode flags s b h).1]
    exact Nat.and_self _

theorem apply_dirtied_inum (l : List (Nat × Nat)) (s : Sb) (b : Nat) :
    ((apply_dirtied l s).inodes b).inum = (s.inodes b).inum := by
  induction l generalizing s with
  | nil => rfl
  | cons p l ih =>
    show ((apply_dirtied l (__mark_inode_dirty p.1 p.2 s)).inodes b).inum = _
    rw [ih, mark_inode_dirty_inum]

theorem apply_dirtied_grows (l : List (Nat × Nat)) (s : Sb) (b : Nat) :
    (s.inodes b).state &&& ((apply_dirtied l s).inodes b).state = (s.inodes b).state := by
  induction l generalizing s with
  | nil => exact Nat.and_self _
  | cons p l ih =>
    show (s.inodes b).state &&&
      ((apply_dirtied l (__mark_inode_dirty p.1 p.2 s)).inodes b).state = _
    exact and_trans_of_sub _ _ _ (mark_inode_dirty_grows p.1 p.2 s b) (ih _)

theorem apply_dirtied_unmarked (l : List (Nat × Nat)) (s : Sb) (b : Nat)
    (h : ∀ p ∈ l, p.1 ≠ b) : (apply_dirtied l s).inodes b = s.inodes b := by
  induction l generalizing s with
  | nil => rfl
  | cons p l ih =>
    show (apply_dirtied l (__mark_inode_dirty p.1 p.2 s)).inodes b = _
    rw [ih _ (fun q hq => h q (List.mem_cons_of_mem _ hq)),
      (mark_inode_dirty_other p.1 p.2 s b (Ne.symm (h p (List.mem_cons_self _ _)))).1]

theorem MarkStep.ms_refl (env : Env) (s : Sb) : MarkStep env s s :=
  ⟨rfl, fun _ => ⟨rfl, Nat.and_self _, fun _ => rfl⟩⟩

theorem MarkStep.ms_trans {env : Env} {s t u : Sb} (h1 : MarkStep env s t) (h2 : MarkStep env t u) :
    MarkStep env s u := by
  refine ⟨h2.1.trans h1.1, fun b => ?_⟩
  obtain ⟨a1, a2, a3⟩ := h1.2 b
  obtain ⟨b1, b2, b3⟩ := h2.2 b
  exact ⟨b1.trans a1, and_trans_of_sub _ _ _ a2 b2, fun hu => (b3 hu).trans (a3 hu)⟩

theorem MarkStep_emit (env : Env) (s : Sb) (e : Event) : MarkStep env s (s.emit e) :=
  MarkStep.ms_refl env s

theorem MarkStep_apply_dirtied (env : Env) (l : List (Nat × Nat)) (s : Sb)
    (h : ∀ b, unmarked env b → ∀ p ∈ l, p.1 ≠ b) : MarkStep env s (apply_dirtied l s) :=
  ⟨apply_dirtied_working l s, fun b => ⟨apply_dirtied_inum l s b, apply_dirtied_grows l s b,
    fun hu => apply_dirtied_unmarked l s b (h b hu)⟩⟩

theorem MarkStep_flush_buffers (env : Env) (inode : Nat) (s : Sb) :
    MarkStep env s (flush_buffers env inode s).2 :=
  (MarkStep_emit env s _).ms_trans
    (MarkStep_apply_dirtied env _ _ (fun _ hu => (hu s inode).1))

theorem MarkStep_write_inode (env : Env) (inode : Nat) (s : Sb) :
    MarkStep env s (write_inode env inode s).2 :=
  (MarkStep_emit env s _).ms_trans
    (MarkStep_apply_dirtied env _ _ (fun _ hu => (hu s inode).2))

/-- The state `sync_inode` flushes from: dirty bits cleared, inode unlinked. -/
theorem sync_inode_marks (env : Env) (inode : Nat) (s : Sb) :
    MarkStep env
      (list_del_init inode (set_state inode ((s.inodes inode).state &&& not_I_DIRTY env) s))
      (sync_inode env inode s).2 := by
  unfold sync_inode
  simp only
  split_ifs <;>
    first
    | exact MarkStep.ms_refl env _
    | exact MarkStep_flush_buffers env _ _
    | exact MarkStep_write_inode env _ _
    | exact (MarkStep_flush_buffers env _ _).ms_trans (MarkStep_write_inode env _ _)

/-- What `sync_inode` does to the working list and to the inodes. -/
theorem sync_inode_effect (env : Env) (inode : Nat) (s : Sb) :
    (sync_inode env inode s).2.sync_inodes_dirty_inodes =
      s.sync_inodes_dirty_inodes.filter (fun j => j ≠ inode) ∧
    ∀ b, ((sync_inode env inode s).2.inodes b).inum = (s.inodes b).inum ∧
      (b ≠ inode →
        (s.inodes b).state &&& ((sync_inode env inode s).2.inodes b).state = (s.inodes b).state ∧
        (unmarked env b → (sync_inode env inode s).2.inodes b = s.inodes b)) := by
  obtain ⟨h1, h2⟩ := sync_inode_marks env inode s
  refine ⟨h1, fun b => ?_⟩
  obtain ⟨a1, a2, a3⟩ := h2 b
  have hi : (list_del_init inode (set_state inode ((s.inodes inode).state &&& not_I_DIRTY env)
      s)).inodes = (set_state inode ((s.inodes inode).state &&& not_I_DIRTY env) s).inodes := rfl
  rw [hi] at a1 a2 a3
  refine ⟨?_, fun hb => ?_⟩
  · rw [a1]
    by_cases hb : b = inode
    · subst hb
      rw [set_state_inodes_self]
    · rw [set_state_inodes_other _ _ _ _ hb]
  · rw [set_state_inodes_other _ _ _ _ hb] at a2 a3
    exact ⟨a2, a3⟩

theorem sync_each_append (env : Env) (a b : List Nat) (s : Sb) :
    sync_each env (a ++ b) s = sync_each env b (sync_each env a s) := by
  induction a generalizing s with
  | nil => rfl
  | cons i a ih => exact ih _

theorem sync_each_ok_append (env : Env) (a b : List Nat) (s : Sb) :
    sync_each_ok env (a ++ b) s ↔ sync_each_ok env a s ∧ sync_each_ok env b (sync_each env a s) := by
  induction a generalizing s with
  | nil => exact ⟨fun h => ⟨trivial, h⟩, fun h => h.2⟩
  | cons i a ih =>
    show (_ ∧ sync_each_ok env (a ++ b) _) ↔ (_ ∧ sync_each_ok env a _) ∧ _
    rw [ih, and_assoc]
    rfl

theorem Wb_sync_each (env : Env) (l : List Nat) (s : Sb) : Wb s (sync_each env l s) := by
  induction l generalizing s with
  | nil => exact Wb.wb_refl s
  | cons i l ih => exact (Wb_sync_inode env i s).wb_trans (ih _)

theorem sync_each_working (env : Env) (l : List Nat) (s : Sb) :
    (sync_each env l s).sync_inodes_dirty_inodes =
      s.sync_inodes_dirty_inodes.filter (fun j => decide (j ∉ l)) := by
  induction l generalizing s with
  | nil => simp [sync_each]
  | cons i l ih =>
    show (sync_each env l (sync_inode env i s).2).sync_inodes_dirty_inodes = _
    rw [ih, (sync_inode_effect env i s).1, List.filter_filter]
    apply List.filter_congr
    intro j _
    by_cases h1 : j = i <;> by_cases h2 : j ∈ l <;> simp [h1, h2]

theorem sync_until_cons_ok (env : Env) (i : Nat) (l : List Nat) (s : Sb)
    (h : (sync_inode env i s).1 = 0) :
    sync_until env (i :: l) s = sync_until env l (sync_inode env i s).2 := by
  rw [sync_until]
  simp only [h, ne_eq, not_true_eq_false, ↓reduceIte]

theorem sync_until_cons_fail (env : Env) (i : Nat) (l : List Nat) (s : Sb)
    (h : (sync_inode env i s).1 ≠ 0) :
    sync_until env (i :: l) s = sync_inode env i s := by
  rw [sync_until]
  simp only [ne_eq, h, not_false_eq_true, ↓reduceIte]

theorem sync_until_ok (env : Env) (l : List Nat) (s : Sb) (h : sync_each_ok env l s) :
    sync_until env l s = (0, sync_each env l s) := by
  induction l generalizing s with
  | nil => rfl
  | cons i l ih =>
    obtain ⟨h1, h2⟩ := h
    unfold sync_until
    simp only [h1, ne_eq, not_true_eq_false, ↓reduceIte]
    exact ih _ h2

theorem sync_until_append (env : Env) (a b : List Nat) (s : Sb) :
    sync_until env (a ++ b) s =
      if (sync_until env a s).1 ≠ 0 then sync_until env a s
      else sync_until env b (sync_until env a s).2 := by
  induction a generalizing s with
  | nil => simp [sync_until]
  | cons i a ih =>
    show sync_until env (i :: (a ++ b)) s = _
    by_cases h : (sync_inode env i s).1 = 0
    · rw [sync_until_cons_ok env i _ s h, sync_until_cons_ok env i _ s h]
      exact ih _
    · rw [sync_until_cons_fail env i _ s h, sync_until_cons_fail env i _ s h]
      simp only [ne_eq, h, not_false_eq_true, ↓reduceIte]

theorem Wb_sync_until (env : Env) (l : List Nat) (s : Sb) : Wb s (sync_until env l s).2 := by
  induction l generalizing s with
  | nil => exact Wb.wb_refl s
  | cons i l ih =>
    unfold sync_until
    simp only
    split_ifs
    · exact Wb_sync_inode env i s
    · exact (Wb_sync_inode env i s).wb_trans (ih _)

theorem sync_until_inum (env : Env) (l : List Nat) (s : Sb) (b : Nat) :
    (((sync_until env l s).2).inodes b).inum = (s.inodes b).inum := by
  induction l generalizing s with
  | nil => rfl
  | cons i l ih =>
    unfold sync_until
    simp only
    split_ifs
    · exact ((sync_inode_effect env i s).2 b).1
    · rw [ih, ((sync_inode_effect env i s).2 b).1]

/-- The loop of `sync_inodes` is `sync_until` on the inodes it does not skip. -/
theorem sync_inodes_loop_eq (env : Env) (s0 : Sb) (l : List Nat) (s : Sb)
    (hin : ∀ b, (s.inodes b).inum = (s0.inodes b).inum) :
    sync_inodes_loop env l s = sync_until env (l.filter (fun i => !skipped env s0 i)) s := by
  induction l generalizing s with
  | nil => rfl
  | cons i l ih =>
    unfold sync_inodes_loop
    by_cases hsk : (s0.inodes i).inum = env.TUX_BITMAP_INO ∨ (s0.inodes i).inum = env.TUX_VOLMAP_INO
    · have h1 : skipped env s0 i = true := by simpa [skipped] using hsk
      rw [List.filter_cons_of_neg (by simp [h1])]
      simp only [hin i, hsk, ↓reduceIte]
      exact ih s hin
    · have h1 : skipped env s0 i = false := by simpa [skipped] using hsk
      rw [List.filter_cons_of_pos (by simp [h1])]
      simp only [hin i, hsk, ↓reduceIte]
      unfold sync_until
      simp only
      split_ifs
      · rfl
      · exact ih _ (fun b => (((sync_inode_effect env i s).2 b).1).trans (hin b))

theorem Wb_fields {s t : Sb} (h : Wb s t) : t.bitmap = s.bitmap ∧ t.volmap = s.volmap := by
  have h1 := congrArg Sb.bitmap h.1
  have h2 := congrArg Sb.volmap h.1
  exact ⟨h1, h2⟩

/-- The function `sync_inodes` is `sync_until` over `sync_order`, followed by
the splice on error or the final assertion. -/
theorem sync_inodes_eq (env : Env) (s : Sb) :
    sync_inodes env s =
      if (sync_until env (sync_order env s) (detach s)).1 ≠ 0 then
        sync_inodes_error (sync_until env (sync_order env s) (detach s)).1
          (sync_until env (sync_order env s) (detach s)).2
      else if (sync_until env (sync_order env s) (detach s)).2.sync_inodes_dirty_inodes = [] then
        (some 0, (sync_until env (sync_order env s) (detach s)).2)
      else (none, (sync_until env (sync_order env s) (detach s)).2) := by
  have hloop : sync_inodes_loop env s.dirty_inodes (detach s) =
      sync_until env (s.dirty_inodes.filter (fun i => !skipped env s i)) (detach s) :=
    sync_inodes_loop_eq env s s.dirty_inodes (detach s) (fun _ => rfl)
  have hwb := Wb_fields (Wb_sync_until env (s.dirty_inodes.filter (fun i => !skipped env s i))
    (detach s))
  have hb : (detach s).bitmap = s.bitmap := rfl
  have hv : (detach s).volmap = s.volmap := rfl
  rw [hb] at hwb
  rw [hv] at hwb
  unfold sync_inodes
  simp only
  rw [show ({ s with sync_inodes_dirty_inodes := s.dirty_inodes, dirty_inodes := [] } : Sb) =
    detach s from rfl, hloop, hwb.1]
  have hvb := (Wb_fields (Wb_sync_inode env s.bitmap
    (sync_until env (s.dirty_inodes.filter (fun i => !skipped env s i)) (detach s)).2)).2
  rw [hvb, hwb.2]
  unfold sync_order
  rw [sync_until_append]
  by_cases h1 : (sync_until env (s.dirty_inodes.filter (fun i => !skipped env s i)) (detach s)).1 = 0
  · simp only [h1, ne_eq, not_true_eq_false, ↓reduceIte]
    by_cases h2 : (sync_inode env s.bitmap
        (sync_until env (s.dirty_inodes.filter (fun i => !skipped env s i)) (detach s)).2).1 = 0
    · rw [sync_until_cons_ok env _ _ _ h2]
      by_cases h3 : (sync_inode env s.volmap (sync_inode env s.bitmap
          (sync_until env (s.dirty_inodes.filter (fun i => !skipped env s i)) (detach s)).2).2).1 = 0
      · rw [sync_until_cons_ok env _ _ _ h3]
        simp only [h2, h3, ne_eq, not_true_eq_false, ↓reduceIte, sync_until]
      · rw [sync_until_cons_fail env _ _ _ h3]
        simp only [h2, h3, ne_eq, not_true_eq_false, not_false_eq_true, ↓reduceIte]
    · rw [sync_until_cons_fail env _ _ _ h2]
      simp only [h2, ne_eq, not_false_eq_true, ↓reduceIte]
  · simp only [h1, ne_eq, not_false_eq_true, ↓reduceIte]

theorem sync_inode_ok_of_env (env : Env)
    (h : ∀ s i, (env.flush_buffers s i).err = 0 ∧ (env.write_inode s i).err = 0)
    (inode : Nat) (s : Sb) : (sync_inode env inode s).1 = 0 := by
  unfold sync_inode flush_buffers write_inode
  simp only [(h _ _).1, (h _ _).2]
  split_ifs <;> rfl

theorem sync_each_ok_of_env (env : Env)
    (h : ∀ s i, (env.flush_buffers s i).err = 0 ∧ (env.write_inode s i).err = 0)
    (l : List Nat) (s : Sb) : sync_each_ok env l s := by
  induction l generalizing s with
  | nil => trivial
  | cons i l ih => exact ⟨sync_inode_ok_of_env env h i s, ih _⟩

theorem Still.st_refl (s : Sb) : Still s s := ⟨rfl, Logs_of_trace_eq rfl⟩

theorem Still.st_trans {s t u : Sb} (h1 : Still s t) (h2 : Still t u) : Still s u :=
  ⟨h2.1.trans h1.1, by simpa using h1.2.lg_trans h2.2⟩

theorem Still_emit (s : Sb) (e : Event) (h : logged [e] = []) : Still s (s.emit e) :=
  ⟨rfl, Logs_emit s e h⟩

theorem Still_of_eq {s t : Sb} (hc : counters t = counters s) (ht : t.trace = s.trace) : Still s t :=
  ⟨hc, Logs_of_trace_eq ht⟩

theorem Frame.fr_refl (s : Sb) : Frame s s := ⟨Still.st_refl s, rfl, rfl⟩

theorem Frame.fr_trans {s t u : Sb} (h1 : Frame s t) (h2 : Frame t u) : Frame s u :=
  ⟨h1.1.st_trans h2.1, h2.2.1.trans h1.2.1, h2.2.2.trans h1.2.2⟩

theorem Frame_of_wb {s t : Sb} (h : Wb s t) : Frame s t := by
  have h1 := congrArg counters h.1
  have h2 := congrArg Sb.lognext h.1
  have h3 := congrArg Sb.super h.1
  have h4 : t.super = s.super := h3
  exact ⟨⟨h1, Logs_of_flush h.2⟩, h2, by rw [h4]⟩

theorem counters_log_append (env : Env) (e : LogEntry) (s : Sb) :
    counters (log_append env e s) = counters s := by
  unfold log_append log_next
  simp only
  split_ifs <;> rfl

theorem Logs_log_append (env : Env) (e : LogEntry) (s : Sb) : Logs [e] s (log_append env e s) :=
  Logs_of_relog (Relog_log_append env e s)

theorem Frame_bfree (env : Env) (block count : Nat) (s : Sb) : Frame s (bfree env block count s).2 :=
  ⟨Still_emit s _ rfl, rfl, rfl⟩

theorem Frame_balloc (env : Env) (s : Sb) : Frame s (balloc env s).2.2 :=
  ⟨Still_emit s _ rfl, rfl, rfl⟩

theorem Frame_blockio_write (env : Env) (index block : Nat) (s : Sb) :
    Frame s (blockio_write env index block s).2 :=
  ⟨Still_emit s _ rfl, rfl, rfl⟩

theorem Frame_set_log_logchain (index : Nat) (s : Sb) : Frame s (set_log_logchain index s) :=
  ⟨Still_of_eq rfl rfl, rfl, rfl⟩

theorem Frame_log_block_done (block : Nat) (s : Sb) :
    Frame s (set_super_logchain block (defer_bfree_derollup block 1 s)) :=
  ⟨Still_of_eq rfl rfl, rfl, rfl⟩

theorem Frame_write_log_block (env : Env) (index : Nat) (s : Sb) :
    Frame s (write_log_block env index s).2 := by
  have h1 := Frame_balloc env s
  have h123 := (h1.fr_trans (Frame_set_log_logchain index _)).fr_trans
    (Frame_blockio_write env index (balloc env s).2.1 _)
  unfold write_log_block
  simp only
  split_ifs
  · exact h1
  · exact h1
  · exact h123.fr_trans (Frame_bfree env _ _ _)
  · exact h123.fr_trans (Frame_log_block_done _ _)

theorem Frame_write_log_loop (env : Env) (fuel index : Nat) (s : Sb) :
    Frame s (write_log_loop env fuel index s).2 := by
  induction fuel generalizing index s with
  | zero => exact Frame.fr_refl s
  | succ fuel ih =>
    have hb := Frame_write_log_block env index s
    unfold write_log_loop
    split_ifs with hlt
    · cases hx : (write_log_block env index s).1 with
      | next =>
        simp only [hx]
        exact hb.fr_trans (ih (index + 1) (write_log_block env index s).2)
      | ret e => simp only [hx]; exact hb
      | abort => simp only [hx]; exact hb
    · exact Frame.fr_refl s

theorem Frame_stash_traverse (actor : Nat → Sb → Int × Sb)
    (ha : ∀ v s, Frame s (actor v s).2) (l : List Nat) (s : Sb) :
    Frame s (stash_traverse actor l s).2.2 := by
  induction l generalizing s with
  | nil => exact Frame.fr_refl s
  | cons v l ih =>
    unfold stash_traverse
    simp only
    split_ifs
    · exact ha v s
    · exact (ha v s).fr_trans (ih _)

theorem Frame_save_sb (env : Env) (s : Sb) : Frame s (save_sb env s).2 :=
  ⟨⟨rfl, ⟨[Event.devio_write (save_sb env s).2.super (save_sb env s).1], save_sb_trace env s, rfl⟩⟩,
    rfl, rfl⟩

theorem Frame_set_defree (l : List Nat) (s : Sb) : Frame s { s with defree := l } :=
  ⟨Still_of_eq rfl rfl, rfl, rfl⟩

theorem Frame_commit_delta (env : Env) (s : Sb) : Frame s (commit_delta env s).2 := by
  have h1 := Frame_save_sb env s
  unfold commit_delta unstash_defree
  simp only
  split_ifs
  · exact h1
  · exact (h1.fr_trans (Frame_stash_traverse _ (fun v u => Frame_bfree env _ _ u) _ _)).fr_trans
      (Frame_set_defree _ _)

theorem Frame_log_finish (s : Sb) : Frame s (log_finish s) := ⟨Still_of_eq rfl rfl, rfl, rfl⟩

theorem Still_set_logcount (s : Sb) (v : List Nat) :
    Still s { (log_finish_cycle s).2 with
      super := { (log_finish_cycle s).2.super with logcount := v } } :=
  Still_of_eq rfl rfl

theorem write_log_block_ret (env : Env) (index : Nat) (s : Sb) (e : Int)
    (h : (write_log_block env index s).1 = Exit.ret e) : e ≠ 0 := by
  unfold write_log_block at h
  simp only at h
  split_ifs at h with h1 h2 h3
  · exact fun h0 => h1 ((Exit.ret.inj h).trans h0)
  · exact fun h0 => h3 ((Exit.ret.inj h).trans h0)

theorem write_log_loop_ret (env : Env) (fuel index : Nat) (s : Sb) (e : Int)
    (h : (write_log_loop env fuel index s).1 = Exit.ret e) : e ≠ 0 := by
  induction fuel generalizing index s with
  | zero => exact Exit.noConfusion h
  | succ fuel ih =>
    unfold write_log_loop at h
    split_ifs at h with hlt
    · cases hx : (write_log_block env index s).1 with
      | next =>
        simp only [hx] at h
        exact ih _ _ h
      | ret e1 =>
        simp only [hx] at h
        exact (Exit.ret.inj h) ▸ write_log_block_ret env index s e1 hx
      | abort =>
        simp only [hx] at h
        exact Exit.noConfusion h

/-- What `write_log` does to the counters and to `logcount`: no counter
changes, no log record is emitted, and `logcount` grows by the number of
staged blocks when 0 is returned and is unchanged otherwise. -/
theorem write_log_frame (env : Env) (s : Sb) :
    Still s (write_log env s).2 ∧
    ((write_log env s).1 = some 0 →
      (write_log env s).2.super.logcount =
        cpu_to_be 4 (u32 (u32 (be_to_cpu s.super.logcount) + s.lognext))) ∧
    ((write_log env s).1 ≠ some 0 → (write_log env s).2.super.logcount = s.super.logcount) := by
  have hl := (Frame_log_finish s).fr_trans (Frame_write_log_loop env (log_finish s).lognext 0
    (log_finish s))
  unfold write_log
  simp only
  cases hx : (write_log_loop env (log_finish s).lognext 0 (log_finish s)).1 with
  | next =>
    simp only
    refine ⟨hl.1.st_trans (Still_set_logcount _ _), fun _ => ?_, fun h => absurd rfl h⟩
    show cpu_to_be 4 (u32 (u32 (be_to_cpu
      (write_log_loop env (log_finish s).lognext 0 (log_finish s)).2.super.logcount) +
      (write_log_loop env (log_finish s).lognext 0 (log_finish s)).2.lognext)) = _
    rw [hl.2.1, hl.2.2]
  | ret e =>
    simp only
    exact ⟨hl.1, fun h => absurd (Option.some.inj h) (write_log_loop_ret env _ _ _ e hx),
      fun _ => hl.2.2⟩
  | abort =>
    simp only
    exact ⟨hl.1, fun h => absurd h (by simp), fun _ => hl.2.2⟩

/-- The tail of `do_commit` keeps the counters and emits no log record;
`logcount` is unchanged or has grown by the number of staged log blocks. -/
theorem do_commit_tail_frame (env : Env) (s : Sb) :
    Still s (do_commit_tail env s).2 ∧
    ((do_commit_tail env s).2.super.logcount = s.super.logcount ∨
      (do_commit_tail env s).2.super.logcount =
        cpu_to_be 4 (u32 (u32 (be_to_cpu s.super.logcount) + s.lognext))) := by
  have h1 := Frame_of_wb (Wb_sync_inode env s.volmap s)
  have h1' : Frame s (write_leaves env s).2 := h1
  obtain ⟨w1, w2, w3⟩ := write_log_frame env (write_leaves env s).2
  rw [h1'.2.1, h1'.2.2] at w2
  rw [h1'.2.2] at w3
  have hc := Frame_commit_delta env (write_log env (write_leaves env s).2).2
  unfold do_commit_tail
  simp only
  cases hx : (write_log env (write_leaves env s).2).1 with
  | none =>
    simp only
    exact ⟨h1'.1.st_trans w1, Or.inl (w3 (by rw [hx]; simp))⟩
  | some e =>
    simp only
    refine ⟨(h1'.1.st_trans w1).st_trans hc.1, ?_⟩
    rw [hc.2.2]
    by_cases he : e = 0
    · exact Or.inr (w2 (by rw [hx, he]))
    · exact Or.inl (w3 (by rw [hx]; exact fun h => he (Option.some.inj h)))

theorem log_delta_lognext (env : Env) (s : Sb) (d : Nat) :
    (log_delta env { s with delta := d }).lognext = (log_delta env s).lognext := by
  unfold log_delta log_append log_next
  simp only
  split_ifs <;> rfl

/-- The head of `do_commit`: `delta` advances by one, the other counters are
kept, one `DELTA` record is logged, `logcount` is kept. -/
theorem do_commit_stage_frame (env : Env) (s : Sb) :
    counters (do_commit_stage env s).2 =
      (u32 (s.delta + 1), s.rollup, s.need_delta_crudehack, s.need_rollup_crudehack) ∧
    Logs [LogEntry.DELTA] s (do_commit_stage env s).2 ∧
    (do_commit_stage env s).2.lognext = (log_delta env s).lognext ∧
    (do_commit_stage env s).2.super.logcount = s.super.logcount := by
  have h0 : Logs [] s { s with delta := u32 (s.delta + 1) } := Logs_of_trace_eq rfl
  have h1 := Logs_log_append env LogEntry.DELTA { s with delta := u32 (s.delta + 1) }
  have c1 := counters_log_append env LogEntry.DELTA { s with delta := u32 (s.delta + 1) }
  have s1 := (Relog_log_append env LogEntry.DELTA { s with delta := u32 (s.delta + 1) }).2.2.2.1
  have h2 := Frame_of_wb (Wb_sync_inodes env
    (log_append env LogEntry.DELTA { s with delta := u32 (s.delta + 1) }))
  have h2' : Frame (log_append env LogEntry.DELTA { s with delta := u32 (s.delta + 1) })
    (do_commit_stage env s).2 := h2
  refine ⟨h2'.1.1.trans c1, ?_, ?_, ?_⟩
  · have := (h0.lg_trans h1).lg_trans h2'.1.2
    simpa using this
  · rw [h2'.2.1]
    exact log_delta_lognext env s _
  · rw [h2'.2.2, s1]

theorem rollup_wanted_frame (flag : rollup_flags) (s : Sb) :
    counters (rollup_wanted flag s).2 =
      (s.delta, s.rollup, s.need_delta_crudehack,
        if flag = rollup_flags.ALLOW_ROLLUP then u32 (s.need_rollup_crudehack + 1)
        else s.need_rollup_crudehack) ∧
    (rollup_wanted flag s).2.trace = s.trace ∧
    (rollup_wanted flag s).2.lognext = s.lognext ∧
    (rollup_wanted flag s).2.super = s.super ∧
    ((rollup_wanted flag s).1 = true ↔
      flag = rollup_flags.FORCE_ROLLUP ∨
        (flag = rollup_flags.ALLOW_ROLLUP ∧ (need_rollup s).1 = true)) := by
  unfold rollup_wanted
  cases flag <;> simp [need_rollup, counters]

theorem Logs_of_extends {P : Event → Prop} {s t : Sb} (h : Extends P s t) :
    ∃ evs, Logs evs s t := by
  obtain ⟨calls, ht, _⟩ := h
  exact ⟨logged calls, calls, ht, rfl⟩

theorem counters_stash_traverse (actor : Nat → Sb → Int × Sb)
    (ha : ∀ v s, counters (actor v s).2 = counters s) (l : List Nat) (s : Sb) :
    counters (stash_traverse actor l s).2.2 = counters s := by
  induction l generalizing s with
  | nil => rfl
  | cons v l ih =>
    unfold stash_traverse
    simp only
    split_ifs
    · exact ha v s
    · exact (ih _).trans (ha v s)

theorem counters_relog_as_bfree (env : Env) (v : Nat) (s : Sb) :
    counters (relog_as_bfree env v s).2 = counters s := by
  have h1 := counters_log_append env (LogEntry.BFREE_RELOG (v &&& mask48) (v >>> 48)) s
  unfold relog_as_bfree stash_value_defree log_bfree_relog
  simp only
  split_ifs
  · exact h1
  · exact h1

theorem counters_rollup_log_relog (env : Env) (s : Sb) :
    counters (rollup_log_relog env s) = counters s := by
  have h1 := counters_log_append env LogEntry.ROLLUP s
  have h2 := counters_log_append env (LogEntry.FREEBLOCKS (log_rollup env s).freeblocks)
    (log_rollup env s)
  have h3 := counters_stash_traverse (relog_frontend_defer_as_bfree env)
    (fun v u => counters_log_append env _ u)
    (log_freeblocks env (log_rollup env s).freeblocks (log_rollup env s)).defree
    (log_freeblocks env (log_rollup env s).freeblocks (log_rollup env s))
  have h4 := counters_stash_traverse (relog_as_bfree env) (counters_relog_as_bfree env)
    (stash_walk_defree (relog_frontend_defer_as_bfree env)
      (log_freeblocks env (log_rollup env s).freeblocks (log_rollup env s))).2.derollup
    (stash_walk_defree (relog_frontend_defer_as_bfree env)
      (log_freeblocks env (log_rollup env s).freeblocks (log_rollup env s))).2
  exact h4.trans (h3.trans (h2.trans h1))

theorem counters_flush_list_pinned (s : Sb) : counters (flush_list_pinned s) = counters s := rfl

theorem counters_rollup_log_begin (s : Sb) :
    counters (rollup_log_begin s) =
      (s.delta, u32 (s.rollup + 1), s.need_delta_crudehack, s.need_rollup_crudehack) := rfl

theorem counters_emit (s : Sb) (e : Event) : counters (s.emit e) = counters s := rfl

theorem counters_rollup_log_flush (env : Env) (s : Sb) :
    counters (rollup_log_flush env s) =
      (s.delta, u32 (s.rollup + 1), s.need_delta_crudehack, s.need_rollup_crudehack) := by
  have h1 := counters_rollup_log_relog env (rollup_log_begin s)
  have h2 := counters_flush_list_pinned (rollup_log_relog env (rollup_log_begin s))
  have h3 := (Frame_of_wb (Wb_sync_inode env
    (flush_list_pinned (rollup_log_relog env (rollup_log_begin s))).bitmap
    (flush_list_pinned (rollup_log_relog env (rollup_log_begin s))))).1.1
  exact h3.trans (h2.trans (h1.trans (counters_rollup_log_begin s)))

theorem Extends_of_trace_eq (P : Event → Prop) {s t : Sb} (h : t.trace = s.trace) :
    Extends P s t :=
  ⟨[], by simp [h], by simp⟩

theorem Extends_stash_traverse (P : Event → Prop) (actor : Nat → Sb → Int × Sb)
    (ha : ∀ v s, Extends P s (actor v s).2) (l : List Nat) (s : Sb) :
    Extends P s (stash_traverse actor l s).2.2 := by
  induction l generalizing s with
  | nil => exact Extends.ext_refl P s
  | cons v l ih =>
    unfold stash_traverse
    simp only
    split_ifs
    · exact ha v s
    · exact (ha v s).ext_trans (ih _)

theorem Extends_relog_frontend (env : Env) (v : Nat) (s : Sb) :
    Extends Event.is_relog s (relog_frontend_defer_as_bfree env v s).2 :=
  ⟨[Event.log (LogEntry.BFREE_RELOG (v &&& mask48) (v >>> 48))], log_append_trace env _ s,
    by simp [Event.is_relog]⟩

theorem Extends_relog_as_bfree (env : Env) (v : Nat) (s : Sb) :
    Extends Event.is_relog s (relog_as_bfree env v s).2 := by
  have h1 := Extends_relog_frontend env v s
  have h1' : Extends Event.is_relog s (log_bfree_relog env (v &&& mask48) (v >>> 48) s) := h1
  unfold relog_as_bfree stash_value_defree
  simp only
  split_ifs
  · exact h1'
  · exact h1'.ext_trans (Extends_of_trace_eq _ rfl)

theorem Logs_of_relog_calls {s t : Sb} (h : Extends Event.is_relog s t) :
    ∃ rest, Logs rest s t ∧ ∀ x ∈ rest, x.is_bfree_relog := by
  obtain ⟨calls, ht, hp⟩ := h
  refine ⟨logged calls, ⟨calls, ht, rfl⟩, ?_⟩
  clear ht
  induction calls with
  | nil => intro x hx; simp [logged] at hx
  | cons e l ih =>
    have he := hp e (List.mem_cons_self _ _)
    have hl := ih (fun e he => hp e (List.mem_cons_of_mem _ he))
    cases e with
    | log x =>
      cases x with
      | BFREE_RELOG b c =>
        intro y hy
        have : y = LogEntry.BFREE_RELOG b c ∨ y ∈ logged l := by
          simpa [logged] using hy
        rcases this with h | h
        · rw [h]; trivial
        · exact hl y h
      | _ => exact absurd he (by simp [Event.is_relog])
    | _ => exact absurd he (by simp [Event.is_relog])

theorem Logs_rollup_log_relog (env : Env) (s : Sb) :
    ∃ rest, Logs ([LogEntry.ROLLUP, LogEntry.FREEBLOCKS s.freeblocks] ++ rest) s
      (rollup_log_relog env s) ∧ ∀ x ∈ rest, x.is_bfree_relog := by
  have h1 := Logs_log_append env LogEntry.ROLLUP s
  have h2 := Logs_log_append env (LogEntry.FREEBLOCKS (log_rollup env s).freeblocks)
    (log_rollup env s)
  have hf : (log_rollup env s).freeblocks = s.freeblocks :=
    (Relog_log_append env LogEntry.ROLLUP s).2.2.2.2
  rw [hf] at h2
  have q3 : Extends Event.is_relog (log_freeblocks env s.freeblocks (log_rollup env s))
      (stash_walk_defree (relog_frontend_defer_as_bfree env)
        (log_freeblocks env s.freeblocks (log_rollup env s))).2 :=
    Extends_stash_traverse _ _ (Extends_relog_frontend env) _ _
  have q4 : Extends Event.is_relog
      (stash_walk_defree (relog_frontend_defer_as_bfree env)
        (log_freeblocks env s.freeblocks (log_rollup env s))).2
      (unstash_derollup (relog_as_bfree env)
        (stash_walk_defree (relog_frontend_defer_as_bfree env)
          (log_freeblocks env s.freeblocks (log_rollup env s))).2).2 :=
    (Extends_stash_traverse _ _ (Extends_relog_as_bfree env) _ _).ext_trans
      (Extends_of_trace_eq _ rfl)
  obtain ⟨rest, h34, hr⟩ := Logs_of_relog_calls (q3.ext_trans q4)
  refine ⟨rest, ?_, hr⟩
  have := (h1.lg_trans h2).lg_trans h34
  unfold rollup_log_relog
  simp only
  rw [hf]
  exact this

/-- What `rollup_log` does to the counters and the log: `sb->rollup` advances
by one, the other counters are kept, and the records logged are `ROLLUP`,
`FREEBLOCKS` and then `BFREE_RELOG` records only. -/
theorem rollup_log_frame (env : Env) (s : Sb) :
    counters (rollup_log env s).2 =
      (s.delta, u32 (s.rollup + 1), s.need_delta_crudehack, s.need_rollup_crudehack) ∧
    ∃ rest, Logs ([LogEntry.ROLLUP, LogEntry.FREEBLOCKS s.freeblocks] ++ rest) s
      (rollup_log env s).2 ∧ ∀ x ∈ rest, x.is_bfree_relog := by
  have hc := counters_rollup_log_flush env s
  obtain ⟨r1, hr, hrel⟩ := Logs_rollup_log_relog env (rollup_log_begin s)
  rw [rollup_log_begin_freeblocks] at hr
  have h0 : Logs [] s (rollup_log_begin s) := Logs_of_trace_eq (rollup_log_begin_trace s)
  have hp := Logs_flush_list_pinned (rollup_log_relog env (rollup_log_begin s))
  have hb := Logs_of_flush (Wb_sync_inode env
    (flush_list_pinned (rollup_log_relog env (rollup_log_begin s))).bitmap
    (flush_list_pinned (rollup_log_relog env (rollup_log_begin s)))).2
  have hflush : Logs ([LogEntry.ROLLUP, LogEntry.FREEBLOCKS s.freeblocks] ++ r1) s
      (rollup_log_flush env s) := by
    have := ((h0.lg_trans hr).lg_trans hp).lg_trans hb
    simpa using this
  have hd : counters (tux3_rollup_orphan_del env s.orphan_del (rollup_log_flush env s)).2.2 =
      counters (rollup_log_flush env s) ∧
      Logs [] (rollup_log_flush env s)
        (tux3_rollup_orphan_del env s.orphan_del (rollup_log_flush env s)).2.2 := by
    rw [orphan_del_state]
    exact ⟨counters_emit _ _, Logs_emit _ _ rfl⟩
  have ha : counters (tux3_rollup_orphan_add env s.orphan_add
      (tux3_rollup_orphan_del env s.orphan_del (rollup_log_flush env s)).2.2).2.2 =
      counters (tux3_rollup_orphan_del env s.orphan_del (rollup_log_flush env s)).2.2 ∧
      Logs [] (tux3_rollup_orphan_del env s.orphan_del (rollup_log_flush env s)).2.2
        (tux3_rollup_orphan_add env s.orphan_add
          (tux3_rollup_orphan_del env s.orphan_del (rollup_log_flush env s)).2.2).2.2 := by
    rw [orphan_add_state]
    exact ⟨counters_emit _ _, Logs_emit _ _ rfl⟩
  have l1 : Logs ([LogEntry.ROLLUP, LogEntry.FREEBLOCKS s.freeblocks] ++ r1) s
      (tux3_rollup_orphan_del env s.orphan_del (rollup_log_flush env s)).2.2 := by
    simpa using hflush.lg_trans hd.2
  have l2 : Logs ([LogEntry.ROLLUP, LogEntry.FREEBLOCKS s.freeblocks] ++ r1) s
      (tux3_rollup_orphan_add env s.orphan_add
        (tux3_rollup_orphan_del env s.orphan_del (rollup_log_flush env s)).2.2).2.2 := by
    simpa using l1.lg_trans ha.2
  unfold rollup_log
  simp only
  split_ifs
  · exact ⟨hd.1.trans hc, r1, l1, hrel⟩
  · exact ⟨ha.1.trans (hd.1.trans hc), r1, l2, hrel⟩
  · exact ⟨ha.1.trans (hd.1.trans hc), r1, l2, hrel⟩
  · exact ⟨ha.1.trans (hd.1.trans hc), r1, l2, hrel⟩

/-- The four ways `do_commit` runs: staging fails; no rollup; the rollup
fails; the rollup succeeds. -/
theorem do_commit_cases (env : Env) (flag : rollup_flags) (s : Sb) :
    ((do_commit_stage env s).1 ≠ some 0 ∧
      (do_commit env flag s).2 = (do_commit_stage env s).2) ∨
    ((do_commit_stage env s).1 = some 0 ∧
      (rollup_wanted flag (do_commit_stage env s).2).1 = false ∧
      do_commit env flag s =
        do_commit_tail env (rollup_wanted flag (do_commit_stage env s).2).2) ∨
    ((do_commit_stage env s).1 = some 0 ∧
      (rollup_wanted flag (do_commit_stage env s).2).1 = true ∧
      (rollup_log env (rollup_wanted flag (do_commit_stage env s).2).2).1 ≠ some 0 ∧
      (do_commit env flag s).2 =
        (rollup_log env (rollup_wanted flag (do_commit_stage env s).2).2).2) ∨
    ((do_commit_stage env s).1 = some 0 ∧
      (rollup_wanted flag (do_commit_stage env s).2).1 = true ∧
      (rollup_log env (rollup_wanted flag (do_commit_stage env s).2).2).1 = some 0 ∧
      do_commit env flag s =
        do_commit_tail env
          (log_delta env (rollup_log env (rollup_wanted flag (do_commit_stage env s).2).2).2)) := by
  cases hst : (do_commit_stage env s).1 with
  | none =>
    left
    rw [do_commit_of_stage_none env flag s hst]
    exact ⟨by simp, rfl⟩
  | some e =>
    by_cases he : e = 0
    · subst he
      right
      cases hn : (rollup_wanted flag (do_commit_stage env s).2).1 with
      | false =>
        left
        exact ⟨rfl, rfl, do_commit_of_no_rollup env flag s hst hn⟩
      | true =>
        right
        cases hr : (rollup_log env (rollup_wanted flag (do_commit_stage env s).2).2).1 with
        | none =>
          left
          rw [do_commit_of_rollup_none env flag s hst hn hr]
          exact ⟨rfl, rfl, by simp, rfl⟩
        | some e1 =>
          by_cases he1 : e1 = 0
          · subst he1
            right
            exact ⟨rfl, rfl, rfl, do_commit_of_rollup env flag s hst hn hr⟩
          · left
            rw [do_commit_of_rollup_error env flag s e1 hst hn hr he1]
            exact ⟨rfl, rfl, fun h => he1 (Option.some.inj h), rfl⟩
    · left
      rw [do_commit_of_stage_error env flag s e hst he]
      exact ⟨fun h => he (Option.some.inj h), rfl⟩

/-- What `do_commit` does to the counters: `delta` always advances by one, the
call counter of `need_delta` is untouched, `rollup` advances exactly when the
rollup runs, and the call counter of `need_rollup` exactly when staging
succeeded under `ALLOW_ROLLUP`. -/
theorem do_commit_counters (env : Env) (flag : rollup_flags) (s : Sb) :
    counters (do_commit env flag s).2 =
      (u32 (s.delta + 1),
        if (do_commit_stage env s).1 = some 0 ∧ runs_rollup env flag s = true
          then u32 (s.rollup + 1) else s.rollup,
        s.need_delta_crudehack,
        if (do_commit_stage env s).1 = some 0 ∧ flag = rollup_flags.ALLOW_ROLLUP
          then u32 (s.need_rollup_crudehack + 1) else s.need_rollup_crudehack) := by
  obtain ⟨c1, -, -, -⟩ := do_commit_stage_frame env s
  obtain ⟨c2, -, -, -, -⟩ := rollup_wanted_frame flag (do_commit_stage env s).2
  have d1 : (do_commit_stage env s).2.delta = u32 (s.delta + 1) := congrArg (fun c => c.1) c1
  have d2 : (do_commit_stage env s).2.rollup = s.rollup := congrArg (fun c => c.2.1) c1
  have d3 : (do_commit_stage env s).2.need_delta_crudehack = s.need_delta_crudehack :=
    congrArg (fun c => c.2.2.1) c1
  have d4 : (do_commit_stage env s).2.need_rollup_crudehack = s.need_rollup_crudehack :=
    congrArg (fun c => c.2.2.2) c1
  rw [d1, d2, d3, d4] at c2
  have hrun : runs_rollup env flag s = (rollup_wanted flag (do_commit_stage env s).2).1 := rfl
  rcases do_commit_cases env flag s with ⟨h1, h2⟩ | ⟨h1, h2, h3⟩ | ⟨h1, h2, _, h4⟩ | ⟨h1, h2, _, h4⟩
  · rw [h2, c1]
    simp only [h1, false_and, ↓reduceIte]
  · rw [h3, (do_commit_tail_frame env _).1.1, c2, hrun, h2]
    simp only [h1, true_and, Bool.false_eq_true, and_false, ↓reduceIte]
  · obtain ⟨r1, -⟩ := rollup_log_frame env (rollup_wanted flag (do_commit_stage env s).2).2
    have e1 := congrArg (fun c => c.1) c2
    have e3 := congrArg (fun c => c.2.2.1) c2
    have e4 := congrArg (fun c => c.2.2.2) c2
    have e2 := congrArg (fun c => c.2.1) c2
    simp only [counters] at e1 e2 e3 e4
    rw [h4, r1, e1, e2, e3, e4, hrun, h2]
    simp only [h1, true_and, and_self, ↓reduceIte]
  · obtain ⟨r1, -⟩ := rollup_log_frame env (rollup_wanted flag (do_commit_stage env s).2).2
    have e1 := congrArg (fun c => c.1) c2
    have e3 := congrArg (fun c => c.2.2.1) c2
    have e4 := congrArg (fun c => c.2.2.2) c2
    have e2 := congrArg (fun c => c.2.1) c2
    simp only [counters] at e1 e2 e3 e4
    rw [h4, (do_commit_tail_frame env _).1.1, log_delta, counters_log_append, r1, e1, e2, e3, e4,
      hrun, h2]
    simp only [h1, true_and, and_self, ↓reduceIte]

theorem need_delta_spec (s : Sb) :
    ((need_delta s).1 = true ↔ u32 (s.need_delta_crudehack + 1) % 10 = 0) ∧
    (need_delta s).2.need_delta_crudehack = u32 (s.need_delta_crudehack + 1) ∧
    (need_delta s).2.delta = s.delta ∧ (need_delta s).2.trace = s.trace := by
  refine ⟨?_, rfl, rfl, rfl⟩
  simp [need_delta]

theorem change_end_idle (env : Env) (s : Sb) (h : (need_delta s).1 = false) :
    change_end env s = (some 0, (need_delta s).2) := by
  unfold change_end
  simp only [h, ↓reduceIte]

theorem change_end_commit (env : Env) (s : Sb) (h : (need_delta s).1 = true) :
    change_end env s = do_commit env rollup_flags.ALLOW_ROLLUP (need_delta s).2 := by
  unfold change_end
  simp only [h, Bool.true_eq_false, ↓reduceIte]

theorem change_end_counter (env : Env) (s : Sb) :
    (change_end env s).2.need_delta_crudehack = u32 (s.need_delta_crudehack + 1) := by
  cases h : (need_delta s).1 with
  | false => rw [change_end_idle env s h]; rfl
  | true =>
    rw [change_end_commit env s h]
    have := congrArg (fun c => c.2.2.1)
      (do_commit_counters env rollup_flags.ALLOW_ROLLUP (need_delta s).2)
    exact this

theorem change_ends_counter (env : Env) (s : Sb) (h0 : s.need_delta_crudehack = 0) (n : Nat) :
    (change_ends env n s).need_delta_crudehack = u32 n := by
  induction n with
  | zero => rw [change_ends, h0]; rfl
  | succ n ih =>
    rw [change_ends, change_end_counter, ih]
    unfold u32
    exact Nat.mod_add_mod n (2 ^ 32) 1 ▸ rfl

theorem u32_succ_ne (d : Nat) : u32 (d + 1) ≠ d := by
  unfold u32
  intro h
  have h1 : d < 2 ^ 32 := h ▸ Nat.mod_lt _ (by norm_num)
  by_cases h2 : d + 1 < 2 ^ 32
  · rw [Nat.mod_eq_of_lt h2] at h
    omega
  · have h3 : d + 1 = 2 ^ 32 := by omega
    rw [h3, Nat.mod_self] at h
    omega

theorem change_end_fires (env : Env) (s : Sb) (h : u32 (s.need_delta_crudehack + 1) % 10 = 0) :
    change_end env s = do_commit env rollup_flags.ALLOW_ROLLUP (need_delta s).2 ∧
    (change_end env s).2.delta = u32 (s.delta + 1) ∧ (change_end env s).2.delta ≠ s.delta := by
  have hf := (need_delta_spec s).1.mpr h
  have hd : (do_commit env rollup_flags.ALLOW_ROLLUP (need_delta s).2).2.delta = u32 (s.delta + 1) :=
    congrArg (fun c => c.1) (do_commit_counters env rollup_flags.ALLOW_ROLLUP (need_delta s).2)
  rw [change_end_commit env s hf]
  exact ⟨rfl, hd, fun h1 => u32_succ_ne _ (hd.symm.trans h1)⟩

theorem change_end_skips (env : Env) (s : Sb) (h : u32 (s.need_delta_crudehack + 1) % 10 ≠ 0) :
    change_end env s = (some 0, (need_delta s).2) ∧
    (change_end env s).2.delta = s.delta ∧ (change_end env s).2.trace = s.trace := by
  have hf : (need_delta s).1 = false := by
    cases hx : (need_delta s).1 with
    | false => rfl
    | true => exact absurd ((need_delta_spec s).1.mp hx) h
  rw [change_end_idle env s hf]
  exact ⟨rfl, rfl, rfl⟩

theorem u32_u32_succ (n : Nat) : u32 (u32 n + 1) = (n + 1) % 2 ^ 32 := by
  unfold u32
  exact Nat.mod_add_mod n (2 ^ 32) 1

theorem do_commit_stage_freeblocks (env : Env) (s : Sb) :
    (do_commit_stage env s).2.freeblocks = s.freeblocks := by
  have h1 := (Relog_log_append env LogEntry.DELTA { s with delta := u32 (s.delta + 1) }).2.2.2.2
  have h2 := congrArg Sb.freeblocks (Wb_sync_inodes env
    (log_append env LogEntry.DELTA { s with delta := u32 (s.delta + 1) })).1
  have h2' : (do_commit_stage env s).2.freeblocks =
    (log_append env LogEntry.DELTA { s with delta := u32 (s.delta + 1) }).freeblocks := h2
  rw [h2', h1]

theorem rollup_wanted_freeblocks (flag : rollup_flags) (s : Sb) :
    (rollup_wanted flag s).2.freeblocks = s.freeblocks := by
  unfold rollup_wanted
  cases flag <;> rfl

theorem need_rollup_spec (s : Sb) :
    (need_rollup s).1 = true ↔ u32 (s.need_rollup_crudehack + 1) % 3 = 0 := by
  simp [need_rollup]

/-- The log records of a `do_commit` whose staging succeeded. -/
theorem do_commit_logged (env : Env) (flag : rollup_flags) (s : Sb)
    (hst : (do_commit_stage env s).1 = some 0) :
    (runs_rollup env flag s = false →
      logged (calls_since s (do_commit env flag s).2) = [LogEntry.DELTA] ∧
      ((do_commit env flag s).2.super.logcount = s.super.logcount ∨
        (do_commit env flag s).2.super.logcount =
          cpu_to_be 4 (u32 (u32 (be_to_cpu s.super.logcount) + (log_delta env s).lognext)))) ∧
    (runs_rollup env flag s = true →
      ∃ rest, (∀ x ∈ rest, x.is_bfree_relog) ∧
        logged (calls_since s (do_commit env flag s).2) =
          [LogEntry.DELTA, LogEntry.ROLLUP, LogEntry.FREEBLOCKS s.freeblocks] ++ rest ++
            (if (rollup_log env (rollup_wanted flag (do_commit_stage env s).2).2).1 = some 0
              then [LogEntry.DELTA] else [])) := by
  obtain ⟨-, l1, n1, s1⟩ := do_commit_stage_frame env s
  obtain ⟨-, t2, n2, s2, -⟩ := rollup_wanted_frame flag (do_commit_stage env s).2
  have l2 : Logs [] (do_commit_stage env s).2 (rollup_wanted flag (do_commit_stage env s).2).2 :=
    Logs_of_trace_eq t2
  have l12 : Logs [LogEntry.DELTA] s (rollup_wanted flag (do_commit_stage env s).2).2 := by
    simpa using l1.lg_trans l2
  have hrun : runs_rollup env flag s = (rollup_wanted flag (do_commit_stage env s).2).1 := rfl
  obtain ⟨-, rest, l3, hrel⟩ := rollup_log_frame env (rollup_wanted flag (do_commit_stage env s).2).2
  rw [rollup_wanted_freeblocks, do_commit_stage_freeblocks] at l3
  rcases do_commit_cases env flag s with ⟨h1, _⟩ | ⟨_, h2, h3⟩ | ⟨_, h2, h3, h4⟩ | ⟨_, h2, h3, h4⟩
  · exact absurd hst h1
  · obtain ⟨⟨-, l4⟩, hc⟩ := do_commit_tail_frame env (rollup_wanted flag (do_commit_stage env s).2).2
    rw [n2, n1, s2, s1] at hc
    refine ⟨fun _ => ?_, fun h => ?_⟩
    · rw [h3]
      exact ⟨Logs_calls_since (by simpa using l12.lg_trans l4), hc⟩
    · rw [hrun, h2] at h
      exact absurd h (by simp)
  · refine ⟨fun h => ?_, fun _ => ⟨rest, hrel, ?_⟩⟩
    · rw [hrun, h2] at h
      exact absurd h (by simp)
    · rw [h4, if_neg h3, List.append_nil]
      exact Logs_calls_since (by simpa using l12.lg_trans l3)
  · refine ⟨fun h => ?_, fun _ => ⟨rest, hrel, ?_⟩⟩
    · rw [hrun, h2] at h
      exact absurd h (by simp)
    · have l5 := Logs_log_append env LogEntry.DELTA
        (rollup_log env (rollup_wanted flag (do_commit_stage env s).2).2).2
      obtain ⟨⟨-, l6⟩, -⟩ := do_commit_tail_frame env (log_delta env
        (rollup_log env (rollup_wanted flag (do_commit_stage env s).2).2).2)
      rw [h4, if_pos h3]
      exact Logs_calls_since (by simpa using ((l12.lg_trans l3).lg_trans l5).lg_trans l6)

theorem do_commit_need_rollup_counter (env : Env) (flag : rollup_flags) (s : Sb) :
    (do_commit env flag s).2.need_rollup_crudehack =
      if (do_commit_stage env s).1 = some 0 ∧ flag = rollup_flags.ALLOW_ROLLUP
        then u32 (s.need_rollup_crudehack + 1) else s.need_rollup_crudehack :=
  congrArg (fun c => c.2.2.2) (do_commit_counters env flag s)

/-- Over a sequence of commits the call counter of `need_rollup` advances by
the number of its calls, modulo `2 ^ 32`. -/
theorem do_commits_need_rollup_counter (env : Env) (fs : List rollup_flags) (s : Sb)
    (hlt : s.need_rollup_crudehack < 2 ^ 32) :
    (do_commits env fs s).need_rollup_crudehack =
      u32 (s.need_rollup_crudehack + need_rollup_calls env fs s) := by
  induction fs generalizing s with
  | nil =>
    show s.need_rollup_crudehack = u32 (s.need_rollup_crudehack + 0)
    rw [Nat.add_zero]
    exact (Nat.mod_eq_of_lt hlt).symm
  | cons f fs ih =>
    have hc := do_commit_need_rollup_counter env f s
    show (do_commits env fs (do_commit env f s).2).need_rollup_crudehack =
      u32 (s.need_rollup_crudehack +
        ((if (do_commit_stage env s).1 = some 0 ∧ f = rollup_flags.ALLOW_ROLLUP then 1 else 0) +
          need_rollup_calls env fs (do_commit env f s).2))
    by_cases hcond : (do_commit_stage env s).1 = some 0 ∧ f = rollup_flags.ALLOW_ROLLUP
    · rw [if_pos hcond] at hc
      rw [if_pos hcond, ih _ (by rw [hc]; exact Nat.mod_lt _ (by norm_num)), hc]
      unfold u32
      rw [Nat.mod_add_mod, Nat.add_assoc]
    · rw [if_neg hcond] at hc
      rw [if_neg hcond, ih _ (by rw [hc]; exact hlt), hc, Nat.zero_add]

theorem need_rollups_counter (s : Sb) (h0 : s.need_rollup_crudehack = 0) (n : Nat) :
    (need_rollups n s).need_rollup_crudehack = u32 n := by
  induction n with
  | zero => rw [need_rollups, h0]; rfl
  | succ n ih =>
    show u32 ((need_rollups n s).need_rollup_crudehack + 1) = u32 (n + 1)
    rw [ih]
    exact u32_u32_succ n

/-! ## Properties of the commit engine -/

/-- C1, failing input: on the volume `sb0` with a device whose superblock write
fails, staging succeeds, no rollup runs, `commit_delta` returns `-EIO`, and
`do_commit` returns 0. -/
theorem do_commit_drops_commit_delta_error :
    (do_commit_stage env_super_fail sb0).1 = some 0 ∧
    (commit_delta env_super_fail
      (write_log env_super_fail
        (write_leaves env_super_fail (do_commit_stage env_super_fail sb0).2).2).2).1 = -5 ∧
    (do_commit env_super_fail rollup_flags.NO_ROLLUP sb0).1 = some 0 := by
  decide

/-- C2, failing input: the volume-map flush of `write_leaves` fails with `-EIO`,
yet `do_commit` returns 0, issues one superblock write, moves
`sb.super.logchain` and `sb.super.logcount` and drains `defree` through
`bfree`. -/
theorem do_commit_commits_after_leaves_error :
    (do_commit_stage env_leaves_fail sb_volmap_dirty).1 = some 0 ∧
    (write_leaves env_leaves_fail (do_commit_stage env_leaves_fail sb_volmap_dirty).2).1 = -5 ∧
    (do_commit env_leaves_fail rollup_flags.NO_ROLLUP sb_volmap_dirty).1 = some 0 ∧
    (super_writes (calls_since sb_volmap_dirty
      (do_commit env_leaves_fail rollup_flags.NO_ROLLUP sb_volmap_dirty).2)).length = 1 ∧
    sb_volmap_dirty.super.logchain = cpu_to_be 8 0 ∧
    (do_commit env_leaves_fail rollup_flags.NO_ROLLUP sb_volmap_dirty).2.super.logchain
      = cpu_to_be 8 103 ∧
    sb_volmap_dirty.super.logcount = cpu_to_be 4 0 ∧
    (do_commit env_leaves_fail rollup_flags.NO_ROLLUP sb_volmap_dirty).2.super.logcount
      = cpu_to_be 4 1 ∧
    sb_volmap_dirty.defree = [defer_value 7 2] ∧
    (do_commit env_leaves_fail rollup_flags.NO_ROLLUP sb_volmap_dirty).2.defree = [] ∧
    freed (calls_since sb_volmap_dirty
      (do_commit env_leaves_fail rollup_flags.NO_ROLLUP sb_volmap_dirty).2) = [(7, 2)] := by
  decide

/-- C3: if `stage_delta` returns an error `e`, or the rollup test fires and
`rollup_log` returns an error `e`, then `do_commit` returns `e`; `sb.delta` has
advanced by exactly one (modulo `2 ^ 32`); the state returned is the one the
failed step left (that of `stage_delta`, or that of `rollup_log` when staging
succeeded), so `write_leaves`, `write_log` and `commit_delta` did not run; and
none of the calls made allocates, writes or frees a block or writes the
superblock. -/
theorem do_commit_early_error (env : Env) (rollup_flag : rollup_flags) (s : Sb) (e : Int)
    (he : e ≠ 0)
    (h : (do_commit_stage env s).1 = some e ∨
      ((do_commit_stage env s).1 = some 0 ∧
        (rollup_wanted rollup_flag (do_commit_stage env s).2).1 = true ∧
        (rollup_log env (rollup_wanted rollup_flag (do_commit_stage env s).2).2).1 = some e)) :
    (do_commit env rollup_flag s).1 = some e ∧
    (do_commit env rollup_flag s).2.delta = (s.delta + 1) % 2 ^ 32 ∧
    ((do_commit_stage env s).1 = some e →
      (do_commit env rollup_flag s).2 = (do_commit_stage env s).2) ∧
    ((do_commit_stage env s).1 = some 0 →
      (do_commit env rollup_flag s).2 =
        (rollup_log env (rollup_wanted rollup_flag (do_commit_stage env s).2).2).2) ∧
    (do_commit env rollup_flag s).2.trace =
      s.trace ++ calls_since s (do_commit env rollup_flag s).2 ∧
    ∀ ev ∈ calls_since s (do_commit env rollup_flag s).2, ev.is_commit_io = false := by
  have hst := Quiet_do_commit_stage env s
  rcases h with h | ⟨h1, h2, h3⟩
  · rw [do_commit_of_stage_error env rollup_flag s e h he]
    refine ⟨rfl, hst.1, fun _ => rfl, fun h0 => ?_, calls_since_of_extends hst.2⟩
    rw [h] at h0
    exact absurd (Option.some.inj h0) he
  · have hq := (Quiet_rollup_wanted rollup_flag (do_commit_stage env s).2).q_trans
      (Quiet_rollup_log env (rollup_wanted rollup_flag (do_commit_stage env s).2).2)
    rw [do_commit_of_rollup_error env rollup_flag s e h1 h2 h3 he]
    refine ⟨rfl, hq.1.trans hst.1, fun h0 => ?_, fun _ => rfl,
      calls_since_of_extends (hst.2.ext_trans hq.2)⟩
    rw [h1] at h0
    exact absurd (Option.some.inj h0).symm he

/-- Witness for `do_commit_early_error`: a failing data flush in `stage_delta`
and a failing orphan deletion in a forced rollup. -/
theorem do_commit_early_error_witness :
    (do_commit env_flush_fail rollup_flags.NO_ROLLUP sb_dirty_inode).1 = some (-5) ∧
    (do_commit env_orphan_fail rollup_flags.FORCE_ROLLUP sb0).1 = some (-5) :=
  ⟨(do_commit_early_error env_flush_fail rollup_flags.NO_ROLLUP sb_dirty_inode (-5) (by decide)
      (Or.inl (by decide))).1,
   (do_commit_early_error env_orphan_fail rollup_flags.FORCE_ROLLUP sb0 (-5) (by decide)
      (Or.inr ⟨by decide, by decide, by decide⟩)).1⟩

/-- C4, failing input: the allocation of the only staged log block fails, so
`write_log` returns `-ENOSPC` with no log block written and the block still
staged, yet `do_commit` goes on to issue the superblock write and returns 0. -/
theorem do_commit_writes_super_without_log :
    (do_commit_stage env_no_block sb0).1 = some 0 ∧
    (write_log env_no_block
      (write_leaves env_no_block (do_commit_stage env_no_block sb0).2).2).1 = some (-28) ∧
    written (calls_since sb0 (do_commit env_no_block rollup_flags.NO_ROLLUP sb0).2) = [] ∧
    (do_commit env_no_block rollup_flags.NO_ROLLUP sb0).2.lognext = 1 ∧
    (super_writes (calls_since sb0
      (do_commit env_no_block rollup_flags.NO_ROLLUP sb0).2)).length = 1 ∧
    (do_commit env_no_block rollup_flags.NO_ROLLUP sb0).1 = some 0 := by
  decide

/-- C5: `commit_delta` applies the deferred frees iff the superblock write
succeeded.  If `save_sb` fails, `commit_delta` returns its error, calls `bfree`
not at all and leaves `defree` as it was.  If `save_sb` succeeds and every
`bfree` succeeds, `commit_delta` returns 0, its calls are the superblock write
followed by exactly one `bfree (v mod 2^48, v div 2^48)` for each value `v`
stashed in `defree`, in order, and `defree` is empty afterwards. -/
theorem commit_delta_frees_after_save (env : Env) (s : Sb) :
    ((save_sb env s).1 ≠ 0 →
      (commit_delta env s).1 = (save_sb env s).1 ∧
      freed (calls_since s (commit_delta env s).2) = [] ∧
      (commit_delta env s).2.defree = s.defree) ∧
    ((save_sb env s).1 = 0 →
      (∀ k, k < s.defree.length →
        env.bfree ((save_sb env s).2.emits (bfree_calls (s.defree.take k)))
          (s.defree.getD k 0 % 2 ^ 48) (s.defree.getD k 0 / 2 ^ 48) = 0) →
      (commit_delta env s).1 = 0 ∧
      calls_since s (commit_delta env s).2 =
        Event.devio_write (save_sb env s).2.super 0 :: bfree_calls s.defree ∧
      freed (calls_since s (commit_delta env s).2) =
        s.defree.map (fun v => (v % 2 ^ 48, v / 2 ^ 48)) ∧
      (commit_delta env s).2.defree = []) := by
  constructor
  · intro h
    have hc : commit_delta env s = save_sb env s := by
      unfold commit_delta
      simp only [h, ne_eq, not_false_eq_true, ↓reduceIte]
    rw [hc, calls_since_append s _ _ (save_sb_trace env s)]
    exact ⟨rfl, rfl, rfl⟩
  · intro h hall
    have ht := stash_traverse_bfree env s.defree (save_sb env s).2 hall
    have hc : commit_delta env s =
        (0, { (save_sb env s).2.emits (bfree_calls s.defree) with defree := [] }) := by
      unfold commit_delta unstash_defree
      simp only [h, ne_eq, not_true_eq_false, ↓reduceIte, save_sb_defree, ht]
    have hcalls : calls_since s (commit_delta env s).2 =
        Event.devio_write (save_sb env s).2.super 0 :: bfree_calls s.defree := by
      apply calls_since_append
      rw [hc]
      simp only [Sb.emits, save_sb_trace, h, List.append_assoc, List.singleton_append]
    refine ⟨by rw [hc], hcalls, ?_, by rw [hc]⟩
    rw [hcalls]
    simpa [freed] using freed_bfree_calls s.defree

/-- Witness for `commit_delta_frees_after_save`: with one deferred free stashed,
a failing superblock write leaves it stashed and frees nothing; a successful
write is followed by `bfree (7, 2)`. -/
theorem commit_delta_frees_after_save_witness :
    (commit_delta env_super_fail sb_volmap_dirty).2.defree = [defer_value 7 2] ∧
    freed (calls_since sb_volmap_dirty (commit_delta env0 sb_volmap_dirty).2) = [(7, 2)] :=
  ⟨((commit_delta_frees_after_save env_super_fail sb_volmap_dirty).1 (by decide)).2.2,
   ((commit_delta_frees_after_save env0 sb_volmap_dirty).2 (by decide) (by decide)).2.2.1⟩

/-- C7: when the allocations and writes for all `n = lognext` staged blocks
succeed with addresses `a 0`, ..., `a (n - 1)` (and the staged blocks carry the
log magic), `write_log` returns 0; its calls are one `balloc` and one `blockio`
write per staged block in index order, block `i` is written at `a i` with its
`logchain` field equal to the encoding of `a (i - 1)` (the previous
`sb.super.logchain` for `i = 0`); afterwards `sb.super.logchain` encodes
`a (n - 1)` (it is unchanged when `n = 0`), `derollup` has gained the packed
pairs `(a i, 1)` in order (a packed pair decodes to `(a i, 1)` for a 48-bit
address), `logcount` has grown by `n` modulo `2 ^ 32`, and `lognext` is
cleared. -/
theorem write_log_success (env : Env) (s : Sb) (a : Nat → Nat)
    (hall : ∀ i, i < s.lognext →
      env.balloc (log_state a (log_finish s) i) = (0, a i) ∧
      (s.logmap i).magic = cpu_to_be 2 env.TUX3_MAGIC_LOG ∧
      env.blockio_write (log_block_chained i (a i) (log_state a (log_finish s) i)) i (a i) = 0) :
    (write_log env s).1 = some 0 ∧
    calls_since s (write_log env s).2 = log_calls a s s.lognext ∧
    log_writes (calls_since s (write_log env s).2) =
      (List.range s.lognext).map
        (fun i => (i, a i, { s.logmap i with logchain := log_chain a s i })) ∧
    (write_log env s).2.super.logchain = log_chain a s s.lognext ∧
    (write_log env s).2.derollup =
      s.derollup ++ (List.range s.lognext).map (fun i => defer_value (a i) 1) ∧
    (∀ i, a i < 2 ^ 48 → stash_pair (defer_value (a i) 1) = (a i, 1)) ∧
    be_to_cpu (write_log env s).2.super.logcount =
      (be_to_cpu s.super.logcount + s.lognext) % 2 ^ 32 ∧
    (write_log env s).2.lognext = 0 := by
  have hloop := write_log_loop_ok env a (log_finish s) hall s.lognext 0 (by simp [log_finish])
  have hw := write_log_of_loop_next env s _ hloop
  have hcalls : calls_since s (write_log env s).2 = log_calls a s s.lognext := by
    apply calls_since_append
    rw [hw, ← log_calls_log_finish]
    exact log_state_trace a (log_finish s) s.lognext
  refine ⟨by rw [hw], hcalls, ?_, ?_, ?_, fun i hi => stash_pair_log_block_value (a i) hi, ?_,
    by rw [hw]; rfl⟩
  · rw [hcalls]; exact log_writes_log_calls a s s.lognext
  · rw [hw, ← log_chain_log_finish]; exact log_state_super_logchain a (log_finish s) s.lognext
  · rw [hw]; exact log_state_derollup a (log_finish s) s.lognext
  · rw [hw]
    simp only [be_to_cpu_cpu_to_be, log_state_super_logcount, log_state_lognext, u32]
    show _ = (be_to_cpu s.super.logcount + s.lognext) % 2 ^ 32
    have : (256 : Nat) ^ 4 = 2 ^ 32 := by norm_num
    rw [this]
    simp [log_finish]

/-- Witness for `write_log_success`: two staged blocks, written at the addresses
100 and 102. -/
theorem write_log_success_witness :
    (write_log env0 sb_two_staged).1 = some 0 ∧
    (write_log env0 sb_two_staged).2.super.logchain = cpu_to_be 8 102 :=
  have h := write_log_success env0 sb_two_staged (fun i => 100 + 2 * i) (by decide)
  ⟨h.1, h.2.2.2.1⟩

/-- C8, counterexample: with two staged blocks and an allocator that has one
free block, the allocation for staged block 1 fails and `write_log` returns
that error, but staged block 0 of this delta has already been written at
address 100. -/
theorem write_log_alloc_failure_after_write : 1 < sb_two_staged.lognext ∧
    env_one_block.balloc (log_state (fun _ => 100) (log_finish sb_two_staged) 1) = (-28, 0) ∧
    (write_log env_one_block sb_two_staged).1 = some (-28) ∧
    written (calls_since sb_two_staged (write_log env_one_block sb_two_staged).2) = [100] := by
  decide

/-- C8, amended: if the allocations and writes for the staged blocks below `i`
succeed and the allocation for staged block `i < lognext` fails, `write_log`
returns that error and `lognext` is unchanged; its calls are those for the
blocks below `i` followed by the failed `balloc`, so exactly the staged blocks
below `i` have been written (none when `i = 0`). -/
theorem write_log_alloc_failure (env : Env) (s : Sb) (a : Nat → Nat) (i : Nat) (e : Int) (b : Nat)
    (hi : i < s.lognext)
    (hall : ∀ j, j < i →
      env.balloc (log_state a (log_finish s) j) = (0, a j) ∧
      (s.logmap j).magic = cpu_to_be 2 env.TUX3_MAGIC_LOG ∧
      env.blockio_write (log_block_chained j (a j) (log_state a (log_finish s) j)) j (a j) = 0)
    (hf : env.balloc (log_state a (log_finish s) i) = (e, b)) (he : e ≠ 0) :
    (write_log env s).1 = some e ∧
    (write_log env s).2.lognext = s.lognext ∧
    calls_since s (write_log env s).2 = log_calls a s i ++ [Event.balloc 1 e b] ∧
    log_writes (calls_since s (write_log env s).2) =
      (List.range i).map (fun j => (j, a j, { s.logmap j with logchain := log_chain a s j })) := by
  have hloop := write_log_loop_alloc_fail env a (log_finish s) i e b hi hall hf he s.lognext 0
    (Nat.zero_le i) (by simpa using hi)
  have hw := write_log_of_loop_ret env s _ e hloop
  have hcalls : calls_since s (write_log env s).2 = log_calls a s i ++ [Event.balloc 1 e b] := by
    apply calls_since_append
    rw [hw, ← log_calls_log_finish]
    show (log_state a (log_finish s) i).trace ++ [Event.balloc 1 e b] = _
    rw [log_state_trace, List.append_assoc]
    rfl
  refine ⟨by rw [hw], ?_, hcalls, ?_⟩
  · rw [hw]
    exact log_state_lognext a (log_finish s) i
  · rw [hcalls]
    simp only [log_writes, List.filterMap_append]
    rw [show List.filterMap _ (log_calls a s i) = log_writes (log_calls a s i) from rfl,
      log_writes_log_calls]
    simp

/-- Witness for `write_log_alloc_failure`: the one-block allocator and two
staged blocks. -/
theorem write_log_alloc_failure_witness :
    (write_log env_one_block sb_two_staged).1 = some (-28) ∧
    (write_log env_one_block sb_two_staged).2.lognext = 2 :=
  have h := write_log_alloc_failure env_one_block sb_two_staged (fun _ => 100) 1 (-28) 0
    (by decide) (by decide) (by decide) (by decide)
  ⟨h.1, h.2.1⟩

/-- C9: for an in-memory superblock whose `sb.super` holds `TUX3_MAGIC`, whose
fields fit their on-disk widths and whose two b-tree roots survive packing,
`save_sb` followed by a `load_sb` that reads back the record just written
returns 0 and leaves `blockbits`, `volblocks`, `freeblocks`, `nextalloc`,
`atomdictsize`, `atomgen`, `freeatom`, the inode-table root and the
orphan-table root at their values before `save_sb`, with `logchain` and
`logcount` of `sb.super` unchanged.  The result of `save_sb` itself is not
needed: what counts is that the read delivers the record written. -/
theorem save_load_roundtrip (env : Env) (s : Sb)
    (hmagic : s.super.magic.take 16 = env.TUX3_MAGIC.take 16)
    (hblockbits : s.blockbits < 2 ^ 16) (hvolblocks : s.volblocks < 2 ^ 64)
    (hfreeblocks : s.freeblocks < 2 ^ 64) (hnextalloc : s.nextalloc < 2 ^ 64)
    (hatomdictsize : s.atomdictsize < 2 ^ 64) (hatomgen : s.atomgen < 2 ^ 32)
    (hfreeatom : s.freeatom < 2 ^ 32)
    (hiroot : env.pack_root s.itable.root < 2 ^ 64 ∧
      env.unpack_root (env.pack_root s.itable.root) = s.itable.root)
    (horoot : env.pack_root s.otable.root < 2 ^ 64 ∧
      env.unpack_root (env.pack_root s.otable.root) = s.otable.root)
    (hread : env.devio_read (save_sb env s).2 = (0, (save_sb env s).2.super)) :
    (load_sb env (save_sb env s).2).1 = 0 ∧
    (load_sb env (save_sb env s).2).2.blockbits = s.blockbits ∧
    (load_sb env (save_sb env s).2).2.volblocks = s.volblocks ∧
    (load_sb env (save_sb env s).2).2.freeblocks = s.freeblocks ∧
    (load_sb env (save_sb env s).2).2.nextalloc = s.nextalloc ∧
    (load_sb env (save_sb env s).2).2.atomdictsize = s.atomdictsize ∧
    (load_sb env (save_sb env s).2).2.atomgen = s.atomgen ∧
    (load_sb env (save_sb env s).2).2.freeatom = s.freeatom ∧
    (load_sb env (save_sb env s).2).2.itable.root = s.itable.root ∧
    (load_sb env (save_sb env s).2).2.otable.root = s.otable.root ∧
    (load_sb env (save_sb env s).2).2.super.logchain = s.super.logchain ∧
    (load_sb env (save_sb env s).2).2.super.logcount = s.super.logcount := by
  have hl := load_sb_ok env (save_sb env s).2 (save_sb env s).2.super hread hmagic
  obtain ⟨f1, f2, f3, f4, f5, f6, f7, f8, f9, f10⟩ := setup_sb_fields env (save_sb env s).2.super
    { (save_sb env s).2.emit (Event.devio_read (save_sb env s).2.super 0) with
      super := (save_sb env s).2.super }
  rw [hl]
  refine ⟨rfl, ?_, ?_, ?_, ?_, ?_, ?_, ?_, ?_, ?_, ?_, ?_⟩
  · rw [f1, save_sb_super]; exact be_roundtrip 2 _ (by norm_num; exact hblockbits)
  · rw [f2, save_sb_super]; exact be_roundtrip 8 _ (by norm_num; exact hvolblocks)
  · rw [f3, save_sb_super]; exact be_roundtrip 8 _ (by norm_num; exact hfreeblocks)
  · rw [f4, save_sb_super]; exact be_roundtrip 8 _ (by norm_num; exact hnextalloc)
  · rw [f5, save_sb_super]; exact be_roundtrip 8 _ (by norm_num; exact hatomdictsize)
  · rw [f6, save_sb_super]; exact be_roundtrip 4 _ (by norm_num; exact hatomgen)
  · rw [f7, save_sb_super]; exact be_roundtrip 4 _ (by norm_num; exact hfreeatom)
  · rw [f8, save_sb_super]
    show env.unpack_root (be_to_cpu (cpu_to_be 8 (env.pack_root s.itable.root))) = _
    rw [be_roundtrip 8 _ (by norm_num; exact hiroot.1), hiroot.2]
  · rw [f9]
    show env.unpack_root (be_to_cpu (cpu_to_be 8 (env.pack_root s.otable.root))) = _
    rw [be_roundtrip 8 _ (by norm_num; exact horoot.1), horoot.2]
  · rw [f10]; rfl
  · rw [f10]; rfl

/-- Witness for `save_load_roundtrip`: the volume `sb0` on a device that reads
back what was written. -/
theorem save_load_roundtrip_witness :
    (load_sb env0 (save_sb env0 sb0).2).1 = 0 ∧
    (load_sb env0 (save_sb env0 sb0).2).2.itable.root = sb0.itable.root :=
  have h := save_load_roundtrip env0 sb0 (by decide) (by decide) (by decide) (by decide)
    (by decide) (by decide) (by decide) (by decide) (by decide) (by decide) (by decide)
  ⟨h.1, h.2.2.2.2.2.2.2.2.1⟩

/-- C10: when `stash_value` never fails, `rollup_log` (whatever it returns)
sets `sb.super.logcount` to 0 and emits, in this order, a `ROLLUP` record, a
`FREEBLOCKS` record carrying `sb.freeblocks`, one
`BFREE_RELOG (v mod 2^48, v div 2^48)` for each value `v` of `defree`, and one
for each value `v` of `derollup`, and no other log record; afterwards
`derollup` is empty and `defree` holds its old values followed by those of
`derollup`. -/
theorem rollup_log_relogs (env : Env) (s : Sb) (hstash : ∀ t v, env.stash_value t v = 0) :
    (rollup_log env s).2.super.logcount = cpu_to_be 4 0 ∧
    logged (calls_since s (rollup_log env s).2) =
      [LogEntry.ROLLUP, LogEntry.FREEBLOCKS s.freeblocks] ++
        s.defree.map (fun v => LogEntry.BFREE_RELOG (v % 2 ^ 48) (v / 2 ^ 48)) ++
        s.derollup.map (fun v => LogEntry.BFREE_RELOG (v % 2 ^ 48) (v / 2 ^ 48)) ∧
    (rollup_log env s).2.derollup = [] ∧
    (rollup_log env s).2.defree = s.defree ++ s.derollup := by
  obtain ⟨h1, h2, h3, h4⟩ := Rolled_rollup_log env hstash s
  exact ⟨by rw [h1], Logs_calls_since h2, h3, h4⟩

/-- Witness for `rollup_log_relogs`: one value in each stash. -/
theorem rollup_log_relogs_witness :
    (rollup_log env0 { sb0 with defree := [defer_value 7 2], derollup := [defer_value 9 1] }).2.defree
      = [defer_value 7 2, defer_value 9 1] :=
  (rollup_log_relogs env0 { sb0 with defree := [defer_value 7 2], derollup := [defer_value 9 1] }
    (fun _ _ => rfl)).2.2.2

/-- C14: `load_sb` returns 0 exactly when the device read succeeds and the 16
magic bytes read equal `TUX3_MAGIC`; on a read error it returns that error, on
a magic mismatch `-EINVAL`; whenever it fails the state is the entry state
with the read recorded and `sb->super` overwritten by what the device
delivered, `setup_sb` has not run, and `blockbits`, `volblocks`, `freeblocks`,
`nextalloc`, `atomdictsize`, `atomgen`, `freeatom` and both b-tree roots are
unchanged. -/
theorem load_sb_result (env : Env) (s : Sb) :
    ((load_sb env s).1 = 0 ↔
      (env.devio_read s).1 = 0 ∧
        (env.devio_read s).2.magic.take 16 = env.TUX3_MAGIC.take 16) ∧
    ((env.devio_read s).1 ≠ 0 → (load_sb env s).1 = (env.devio_read s).1) ∧
    ((env.devio_read s).1 = 0 →
      (env.devio_read s).2.magic.take 16 ≠ env.TUX3_MAGIC.take 16 →
      (load_sb env s).1 = -EINVAL) ∧
    ((load_sb env s).1 ≠ 0 →
      (load_sb env s).2 = load_sb_read env s ∧
      decoded_fields (load_sb env s).2 = decoded_fields s) := by
  have hE : (-EINVAL : Int) ≠ 0 := by decide
  rcases load_sb_cases env s with ⟨h1, h⟩ | ⟨h1, h2, h⟩ | ⟨h1, h2, h⟩
  · rw [h]
    exact ⟨⟨fun h0 => absurd h0 h1, fun h0 => absurd h0.1 h1⟩, fun _ => rfl,
      fun h0 => absurd h0 h1, fun _ => ⟨rfl, rfl⟩⟩
  · rw [h]
    exact ⟨⟨fun h0 => absurd h0 hE, fun h0 => absurd h0.2 h2⟩, fun h0 => absurd h1 h0,
      fun _ _ => rfl, fun _ => ⟨rfl, rfl⟩⟩
  · rw [h]
    exact ⟨⟨fun _ => ⟨h1, h2⟩, fun _ => rfl⟩, fun h0 => absurd h1 h0,
      fun _ h0 => absurd h2 h0, fun h0 => absurd rfl h0⟩

/-- Witness for `load_sb_result`: a failing read, a foreign magic, and a good
read on the volume `sb0`. -/
theorem load_sb_result_witness :
    (load_sb env_read_fail sb0).1 = -5 ∧ (load_sb env_bad_magic sb0).1 = -22 ∧
    decoded_fields (load_sb env_bad_magic sb0).2 = decoded_fields sb0 ∧
    (load_sb env0 sb0).1 = 0 :=
  ⟨(load_sb_result env_read_fail sb0).2.1 (by decide),
   (load_sb_result env_bad_magic sb0).2.2.1 (by decide) (by decide),
   ((load_sb_result env_bad_magic sb0).2.2.2 (by decide)).2,
   (load_sb_result env0 sb0).1.2 (by decide)⟩

/-- C20: `setup_sb` called on `sb0` with the record `super_other`, whose roots
differ from those in `sb0.super`.  The inode-table root is decoded from the
record passed in (block 9), but the orphan-table root is decoded from
`sb0.super.oroot` (block 6) and not from the record's `oroot` (block 7). -/
theorem setup_sb_oroot_from_sb_super :
    (setup_sb env0 super_other sb0).itable.root = env0.unpack_root (be_to_cpu super_other.iroot) ∧
    (setup_sb env0 super_other sb0).itable.root = { block := 9, depth := 0 } ∧
    (setup_sb env0 super_other sb0).otable.root = env0.unpack_root (be_to_cpu sb0.super.oroot) ∧
    (setup_sb env0 super_other sb0).otable.root = { block := 6, depth := 0 } ∧
    env0.unpack_root (be_to_cpu super_other.oroot) = { block := 7, depth := 0 } ∧
    (setup_sb env0 super_other sb0).otable.root ≠
      env0.unpack_root (be_to_cpu super_other.oroot) := by
  decide

/-- C15: if the allocations and writes for the staged blocks below `i` succeed,
the allocation for staged block `i < lognext` succeeds with address `a i` and
its `blockio` write fails with `e`, then `write_log` returns `e`; its last
three calls are that `balloc`, the failed write and `bfree(a i, 1)`;
`derollup` has gained only the pairs of the blocks below `i`, so block `a i`
was not stashed; `sb.super.logchain` is what the blocks below `i` left (the
address of block `i - 1`, the old head for `i = 0`); `sb.super.logcount` and
`lognext` are unchanged. -/
theorem write_log_write_failure (env : Env) (s : Sb) (a : Nat → Nat) (i : Nat) (e : Int)
    (hi : i < s.lognext)
    (hall : ∀ j, j < i →
      env.balloc (log_state a (log_finish s) j) = (0, a j) ∧
      (s.logmap j).magic = cpu_to_be 2 env.TUX3_MAGIC_LOG ∧
      env.blockio_write (log_block_chained j (a j) (log_state a (log_finish s) j)) j (a j) = 0)
    (ha : env.balloc (log_state a (log_finish s) i) = (0, a i))
    (hm : (s.logmap i).magic = cpu_to_be 2 env.TUX3_MAGIC_LOG)
    (hf : env.blockio_write (log_block_chained i (a i) (log_state a (log_finish s) i)) i (a i) = e)
    (he : e ≠ 0) :
    (write_log env s).1 = some e ∧
    (∃ f, calls_since s (write_log env s).2 = log_calls a s i ++
      [Event.balloc 1 0 (a i),
       Event.blockio_write i (a i) { s.logmap i with logchain := log_chain a s i } e,
       Event.bfree (a i) 1 f]) ∧
    (write_log env s).2.derollup =
      s.derollup ++ (List.range i).map (fun j => defer_value (a j) 1) ∧
    (write_log env s).2.super.logchain = log_chain a s i ∧
    (write_log env s).2.super.logcount = s.super.logcount ∧
    (write_log env s).2.lognext = s.lognext := by
  obtain ⟨f, hloop⟩ := write_log_loop_write_fail env a (log_finish s) i e hi hall ha hm hf he
    s.lognext 0 (Nat.zero_le i) (by simpa using hi)
  have hw := write_log_of_loop_ret env s _ e hloop
  obtain ⟨hd, hs, hn⟩ := log_block_failed_fields i (a i) e f (log_state a (log_finish s) i)
  obtain ⟨fd, fs, fn, ft, fm⟩ := log_finish_fields s
  refine ⟨by rw [hw], ⟨f, ?_⟩, ?_, ?_, ?_, ?_⟩
  · apply calls_since_append
    rw [hw, log_block_failed_trace, log_state_trace, log_state_logmap_ge _ _ _ _ (Nat.le_refl i),
      log_state_super_logchain, log_calls_log_finish, log_chain_log_finish, List.append_assoc,
      ft, fm]
  · rw [hw, hd, log_state_derollup, fd]
  · rw [hw, hs, log_state_super_logchain, log_chain_log_finish]
  · rw [hw, hs, log_state_super_logcount, fs]
  · rw [hw, hn, log_state_lognext, fn]

/-- Witness for `write_log_write_failure`: two staged blocks, the write of the
second one fails; block 100 is written and stashed, block 102 is freed. -/
theorem write_log_write_failure_witness :
    (write_log env_write_fail_second sb_two_staged).1 = some (-5) ∧
    (write_log env_write_fail_second sb_two_staged).2.derollup = [defer_value 100 1] ∧
    (write_log env_write_fail_second sb_two_staged).2.super.logchain = cpu_to_be 8 100 :=
  have h := write_log_write_failure env_write_fail_second sb_two_staged (fun i => 100 + 2 * i) 1
    (-5) (by decide) (by decide) (by decide) (by decide) (by decide) (by decide)
  ⟨h.1, h.2.2.1, h.2.2.2.1⟩

/-- C11, counterexample: a commit on `sb_stashed` that allows the rollup, which
is due, and whose orphan deletion fails.  Staging succeeds and flushes no inode, `rollup_log` fails and
`do_commit` returns its error, but the entry of `derollup` has been moved into
`defree`. -/
theorem do_commit_rollup_failure_moves_derollup :
    (do_commit_stage env_orphan_fail sb_stashed).1 = some 0 ∧
    (do_commit env_orphan_fail rollup_flags.ALLOW_ROLLUP sb_stashed).1 = some (-5) ∧
    (calls_since sb_stashed
      (do_commit env_orphan_fail rollup_flags.ALLOW_ROLLUP sb_stashed).2).filter Event.is_flush
        = [] ∧
    sb_stashed.defree = [defer_value 7 2] ∧ sb_stashed.derollup = [defer_value 50 1] ∧
    (do_commit env_orphan_fail rollup_flags.ALLOW_ROLLUP sb_stashed).2.defree =
      [defer_value 7 2, defer_value 50 1] ∧
    (do_commit env_orphan_fail rollup_flags.ALLOW_ROLLUP sb_stashed).2.derollup = [] := by
  decide

/-- C11, amended: when `do_commit` fails in `stage_delta`, `defree` and
`derollup` hold exactly the entries they held on entry.  When it fails in
`rollup_log` (staging returned 0, the rollup test fired, an orphan update
failed) and `stash_value` does not fail, no entry is dropped or duplicated but
`derollup` has been moved into `defree`: `defree` holds its old entries
followed by the old entries of `derollup`, and `derollup` is empty.  Flush
callbacks cannot push onto a stash here. -/
theorem do_commit_failure_stashes (env : Env) (rollup_flag : rollup_flags) (s : Sb) (e : Int)
    (he : e ≠ 0)
    (h : (do_commit_stage env s).1 = some e ∨
      ((do_commit_stage env s).1 = some 0 ∧
        (rollup_wanted rollup_flag (do_commit_stage env s).2).1 = true ∧
        (rollup_log env (rollup_wanted rollup_flag (do_commit_stage env s).2).2).1 = some e)) :
    (do_commit env rollup_flag s).1 = some e ∧
    ((do_commit_stage env s).1 = some e →
      (do_commit env rollup_flag s).2.defree = s.defree ∧
      (do_commit env rollup_flag s).2.derollup = s.derollup) ∧
    ((do_commit_stage env s).1 = some 0 → (∀ t v, env.stash_value t v = 0) →
      (do_commit env rollup_flag s).2.defree = s.defree ++ s.derollup ∧
      (do_commit env rollup_flag s).2.derollup = []) := by
  have h1 := StashStep_do_commit_stage env s
  rcases h with h | ⟨hs, hn, hr⟩
  · rw [do_commit_of_stage_error env rollup_flag s e h he]
    refine ⟨rfl, fun _ => ⟨h1.1, h1.2.1⟩, fun h0 => ?_⟩
    rw [h] at h0
    exact absurd (Option.some.inj h0) he
  · rw [do_commit_of_rollup_error env rollup_flag s e hs hn hr he]
    refine ⟨rfl, fun h0 => ?_, fun _ hstash => ?_⟩
    · rw [hs] at h0
      exact absurd (Option.some.inj h0).symm he
    · have h2 := rollup_wanted_state rollup_flag (do_commit_stage env s).2
      have h3 := StashStep_rollup_log env hstash (rollup_wanted rollup_flag (do_commit_stage env s).2).2
      rw [h2.1, h2.2, h1.1, h1.2.1] at h3
      exact ⟨h3.1, h3.2.1⟩

/-- Witness for `do_commit_failure_stashes`: a failing data flush in
`stage_delta`, and a failing orphan deletion in the rollup that is due on
`sb_stashed`. -/
theorem do_commit_failure_stashes_witness :
    (do_commit env_flush_fail rollup_flags.NO_ROLLUP sb_dirty_inode).2.derollup = [] ∧
    (do_commit env_orphan_fail rollup_flags.ALLOW_ROLLUP sb_stashed).2.defree =
      sb_stashed.defree ++ sb_stashed.derollup :=
  ⟨((do_commit_failure_stashes env_flush_fail rollup_flags.NO_ROLLUP sb_dirty_inode (-5)
      (by decide) (Or.inl (by decide))).2.1 (by decide)).2,
   ((do_commit_failure_stashes env_orphan_fail rollup_flags.ALLOW_ROLLUP sb_stashed (-5)
      (by decide) (Or.inr ⟨by decide, by decide, by decide⟩)).2.2 (by decide)
      (fun _ _ => rfl)).1⟩

/-- C19, failing input: inode 2 is on the dirty list with its pages dirty and
its data flush fails.  `sync_inodes` returns the error; the only call made is
the failed `flush_buffers`, yet inode 2 is no longer on `dirty_inodes` and its
dirty bits are cleared. -/
theorem sync_inodes_loses_dirty_state :
    sb_dirty_inode.dirty_inodes = [2] ∧
    (sb_dirty_inode.inodes 2).state = env_flush_fail.I_DIRTY_PAGES ∧
    (sync_inodes env_flush_fail sb_dirty_inode).1 = some (-5) ∧
    calls_since sb_dirty_inode (sync_inodes env_flush_fail sb_dirty_inode).2 =
      [Event.flush_buffers 2 (-5)] ∧
    (sync_inodes env_flush_fail sb_dirty_inode).2.dirty_inodes = [] ∧
    ((sync_inodes env_flush_fail sb_dirty_inode).2.inodes 2).state = 0 := by
  decide

/-- C16: the predicate "an inode is linked on a dirty list iff one of its dirty
bits is set" is preserved, for every inode, by `__mark_inode_dirty` with any
non-empty subset of the dirty bits as flags, by `mark_inode_dirty`, by
`clear_inode`, and by `sync_inode` when the flush callbacks touch no list.
`__mark_inode_dirty` sets the state to the old state OR `flags`, leaves the
inode linked (exactly once when it was linked at most once before, as a list
node is), changes no other inode or its links, and changes the lists at most
by adding the inode at the tail of `sb->dirty_inodes`. -/
theorem dirty_iff_linked_preserved (env : Env) (s : Sb) (hinv : dirty_iff_linked env s) :
    (∀ inode flags, flags ≠ 0 → flags &&& env.I_DIRTY = flags →
      dirty_iff_linked env (__mark_inode_dirty inode flags s) ∧
      (__mark_inode_dirty inode flags s).inodes inode =
        { s.inodes inode with state := (s.inodes inode).state ||| flags } ∧
      0 < links inode (__mark_inode_dirty inode flags s) ∧
      (links inode s ≤ 1 → links inode (__mark_inode_dirty inode flags s) = 1) ∧
      (∀ j, j ≠ inode →
        (__mark_inode_dirty inode flags s).inodes j = s.inodes j ∧
        links j (__mark_inode_dirty inode flags s) = links j s) ∧
      ((__mark_inode_dirty inode flags s).dirty_inodes = s.dirty_inodes ∨
        (links inode s = 0 ∧
          (__mark_inode_dirty inode flags s).dirty_inodes = s.dirty_inodes ++ [inode])) ∧
      (__mark_inode_dirty inode flags s).sync_inodes_dirty_inodes = s.sync_inodes_dirty_inodes) ∧
    (∀ inode, dirty_iff_linked env (mark_inode_dirty env inode s)) ∧
    (∀ inode, dirty_iff_linked env (clear_inode inode s)) ∧
    (flush_marks_nothing env → ∀ inode, dirty_iff_linked env (sync_inode env inode s).2) := by
  refine ⟨fun inode flags h0 hsub => ?_, fun inode => ?_, fun inode => clear_inode_inv env inode s hinv,
    fun hq inode => sync_inode_inv env hq inode s hinv⟩
  · obtain ⟨l1, l2⟩ := mark_inode_dirty_linked env inode flags s h0 hsub hinv
    exact ⟨mark_inode_dirty_inv env inode flags s hsub hinv, mark_inode_dirty_self inode flags s,
      l1, l2, fun j hj => mark_inode_dirty_other inode flags s j hj,
      (mark_inode_dirty_lists inode flags s).1, (mark_inode_dirty_lists inode flags s).2⟩
  · exact mark_inode_dirty_inv env inode env.I_DIRTY s (Nat.and_self _) hinv

/-- Witness for `dirty_iff_linked_preserved`: on `sb_attr_dirty`, marking the
pages of inode 3 dirty links it once, marking inode 2 (already linked) leaves
the list alone, and syncing inode 2 keeps the predicate. -/
theorem dirty_iff_linked_preserved_witness :
    links 3 (__mark_inode_dirty 3 4 sb_attr_dirty) = 1 ∧
    ((__mark_inode_dirty 2 4 sb_attr_dirty).inodes 2).state = 5 ∧
    dirty_iff_linked env0 (sync_inode env0 2 sb_attr_dirty).2 :=
  have h := dirty_iff_linked_preserved env0 sb_attr_dirty dirty_iff_linked_sb_attr_dirty
  ⟨(h.1 3 4 (by decide) (by decide)).2.2.2.1 (by decide),
   congrArg Inode.state (h.1 2 4 (by decide) (by decide)).2.1,
   h.2.2.2 (fun _ _ => ⟨rfl, rfl⟩) 2⟩

/-- C13: when every `sync_inode` along the flush order succeeds (the inodes of
the dirty list that are not skipped, in list order, then the bitmap inode,
then the volume-map inode), `sync_inodes` does exactly these `sync_inode`
calls in this order and nothing else, and never returns an error; when
`sb->bitmap` and `sb->volmap` are the only inodes of the list carrying the two
skipped inode numbers, the final assertion holds: it returns 0 with the
working list empty. -/
theorem sync_inodes_success (env : Env) (s : Sb)
    (hok : sync_each_ok env (sync_order env s) (detach s)) :
    (sync_inodes env s).2 = sync_each env (sync_order env s) (detach s) ∧
    ((sync_inodes env s).1 = some 0 ∨ (sync_inodes env s).1 = none) ∧
    ((∀ i ∈ s.dirty_inodes, skipped env s i = true → i = s.bitmap ∨ i = s.volmap) →
      (sync_inodes env s).1 = some 0 ∧ (sync_inodes env s).2.sync_inodes_dirty_inodes = []) := by
  have hu := sync_until_ok env (sync_order env s) (detach s) hok
  have hs := sync_inodes_eq env s
  rw [hu] at hs
  simp only [ne_eq, not_true_eq_false, ↓reduceIte] at hs
  have hw : (∀ i ∈ s.dirty_inodes, skipped env s i = true → i = s.bitmap ∨ i = s.volmap) →
      (sync_each env (sync_order env s) (detach s)).sync_inodes_dirty_inodes = [] := by
    intro hsp
    rw [sync_each_working]
    apply List.filter_eq_nil_iff.mpr
    intro i hi
    have hi' : i ∈ s.dirty_inodes := hi
    simp only [decide_not, Bool.not_eq_true', decide_eq_false_iff_not, not_not]
    unfold sync_order
    by_cases hsk : skipped env s i = true
    · rcases hsp i hi' hsk with h | h <;> simp [h]
    · simp [hi', hsk]
  by_cases hnil : (sync_each env (sync_order env s) (detach s)).sync_inodes_dirty_inodes = []
  · rw [if_pos hnil] at hs
    rw [hs]
    exact ⟨rfl, Or.inl rfl, fun _ => ⟨rfl, hnil⟩⟩
  · rw [if_neg hnil] at hs
    rw [hs]
    exact ⟨rfl, Or.inr rfl, fun hsp => absurd (hw hsp) hnil⟩

/-- Witness for `sync_inodes_success`: with flushes that all succeed, the
dirty list `[0, 2, 3, 4]` of `sb_four_dirty` is flushed in the order
2, 3, 4, bitmap, volume map. -/
theorem sync_inodes_success_witness :
    sync_order env0 sb_four_dirty = [2, 3, 4, 0, 1] ∧
    (sync_inodes env0 sb_four_dirty).1 = some 0 ∧
    calls_since sb_four_dirty (sync_inodes env0 sb_four_dirty).2 =
      [Event.flush_buffers 2 0, Event.flush_buffers 3 0, Event.flush_buffers 4 0,
       Event.write_inode 0 0] :=
  have h := sync_inodes_success env0 sb_four_dirty
    (sync_each_ok_of_env env0 (fun _ _ => ⟨rfl, rfl⟩) _ _)
  ⟨by decide, (h.2.2 (by decide)).1, by decide⟩

/-- C18, counterexample: the call counter of `need_delta` is zero at program
start; after `2 ^ 32 - 1` calls of `change_end` it is `2 ^ 32 - 1`, so call
number `2 ^ 32` wraps it to 0 and runs `do_commit`, which advances `delta`,
although `2 ^ 32` is not a multiple of 10. -/
theorem change_end_commits_at_wrap :
    ¬ (10 ∣ 2 ^ 32) ∧
    (change_ends env0 (2 ^ 32 - 1) sb0).need_delta_crudehack = 2 ^ 32 - 1 ∧
    change_end env0 (change_ends env0 (2 ^ 32 - 1) sb0) =
      do_commit env0 rollup_flags.ALLOW_ROLLUP
        (need_delta (change_ends env0 (2 ^ 32 - 1) sb0)).2 ∧
    (change_end env0 (change_ends env0 (2 ^ 32 - 1) sb0)).2.delta ≠
      (change_ends env0 (2 ^ 32 - 1) sb0).delta := by
  have hc := change_ends_counter env0 sb0 rfl (2 ^ 32 - 1)
  have hu : u32 (2 ^ 32 - 1) = 2 ^ 32 - 1 := by decide
  rw [hu] at hc
  have hf := change_end_fires env0 (change_ends env0 (2 ^ 32 - 1) sb0) (by rw [hc]; decide)
  exact ⟨by decide, hc, hf.1, hf.2.2⟩

/-- C18, amended: in single-threaded use, starting with the call counter of
`need_delta` at zero, call number `n + 1` of `change_end` runs
`do_commit(sb, ALLOW_ROLLUP)` exactly once if `(n + 1) mod 2 ^ 32` is a
multiple of 10 and not at all otherwise; below `2 ^ 32` calls that is: if
`n + 1` is a multiple of 10.  When it commits, its result and state are those
of `do_commit` run after the counter was bumped, and `sb.delta` has advanced
by exactly one (modulo `2 ^ 32`); otherwise it returns 0, makes no call, and
`sb.delta` is unchanged. -/
theorem change_end_nth (env : Env) (s : Sb) (h0 : s.need_delta_crudehack = 0) (n : Nat) :
    ((n + 1) % 2 ^ 32 % 10 = 0 →
      change_end env (change_ends env n s) =
        do_commit env rollup_flags.ALLOW_ROLLUP (need_delta (change_ends env n s)).2 ∧
      (change_end env (change_ends env n s)).2.delta = u32 ((change_ends env n s).delta + 1)) ∧
    ((n + 1) % 2 ^ 32 % 10 ≠ 0 →
      change_end env (change_ends env n s) = (some 0, (need_delta (change_ends env n s)).2) ∧
      (change_end env (change_ends env n s)).2.delta = (change_ends env n s).delta ∧
      (change_end env (change_ends env n s)).2.trace = (change_ends env n s).trace) ∧
    (n + 1 < 2 ^ 32 → ((n + 1) % 2 ^ 32 % 10 = 0 ↔ 10 ∣ n + 1)) := by
  have hc := change_ends_counter env s h0 n
  have hu := u32_u32_succ n
  refine ⟨fun h => ?_, fun h => ?_, fun h => ?_⟩
  · have hf := change_end_fires env (change_ends env n s) (by rw [hc, hu]; exact h)
    exact ⟨hf.1, hf.2.1⟩
  · exact change_end_skips env (change_ends env n s) (by rw [hc, hu]; exact h)
  · rw [Nat.mod_eq_of_lt h]
    exact (Nat.dvd_iff_mod_eq_zero ..).symm

/-- Witness for `change_end_nth`: on the idle volume, call 10 commits and
advances `delta` to 1, call 1 does nothing. -/
theorem change_end_nth_witness :
    (change_end env0 (change_ends env0 9 sb0)).2.delta = 1 ∧
    change_end env0 (change_ends env0 0 sb0) = (some 0, (need_delta sb0).2) :=
  ⟨((change_end_nth env0 sb0 rfl 9).1 (by decide)).2.trans (by decide),
   ((change_end_nth env0 sb0 rfl 0).2.1 (by decide)).1⟩

/-- C17, counterexample.  First: after two commits with `NO_ROLLUP` on the
idle volume the third delta commit, with `ALLOW_ROLLUP`, stages successfully,
but `need_rollup` is called for the first time and does not fire: no rollup
runs.  Second: on `sb_stashed`, where the rollup is due, the orphan deletion
fails; the rollup has run and `sb.rollup` has advanced, but no second `DELTA`
record was appended.  Third: after `2 ^ 32 - 1` calls of `need_rollup` its
counter is `2 ^ 32 - 1`, so call number `2 ^ 32` wraps it to 0 and fires,
although `2 ^ 32` is not a multiple of 3. -/
theorem do_commit_third_commit_no_rollup :
    ((do_commits env0 [rollup_flags.NO_ROLLUP, rollup_flags.NO_ROLLUP] sb0).delta = 2 ∧
      (do_commit_stage env0
        (do_commits env0 [rollup_flags.NO_ROLLUP, rollup_flags.NO_ROLLUP] sb0)).1 = some 0 ∧
      runs_rollup env0 rollup_flags.ALLOW_ROLLUP
        (do_commits env0 [rollup_flags.NO_ROLLUP, rollup_flags.NO_ROLLUP] sb0) = false ∧
      (do_commit env0 rollup_flags.ALLOW_ROLLUP
        (do_commits env0 [rollup_flags.NO_ROLLUP, rollup_flags.NO_ROLLUP] sb0)).2.delta = 3 ∧
      (do_commit env0 rollup_flags.ALLOW_ROLLUP
        (do_commits env0 [rollup_flags.NO_ROLLUP, rollup_flags.NO_ROLLUP] sb0)).2.rollup = 0) ∧
    ((do_commit_stage env_orphan_fail sb_stashed).1 = some 0 ∧
      runs_rollup env_orphan_fail rollup_flags.ALLOW_ROLLUP sb_stashed = true ∧
      (do_commit env_orphan_fail rollup_flags.ALLOW_ROLLUP sb_stashed).2.rollup = 1 ∧
      logged (calls_since sb_stashed
        (do_commit env_orphan_fail rollup_flags.ALLOW_ROLLUP sb_stashed).2) =
        [LogEntry.DELTA, LogEntry.ROLLUP, LogEntry.FREEBLOCKS 768,
          LogEntry.BFREE_RELOG 7 2, LogEntry.BFREE_RELOG 50 1]) ∧
    (¬ (3 ∣ 2 ^ 32) ∧
      (need_rollups (2 ^ 32 - 1) sb0).need_rollup_crudehack = 2 ^ 32 - 1 ∧
      (need_rollup (need_rollups (2 ^ 32 - 1) sb0)).1 = true) := by
  have hc := need_rollups_counter sb0 rfl (2 ^ 32 - 1)
  have hu : u32 (2 ^ 32 - 1) = 2 ^ 32 - 1 := by decide
  rw [hu] at hc
  refine ⟨by decide, by decide, by decide, hc, ?_⟩
  rw [need_rollup_spec, hc]
  decide

/-- C17, amended: for every state and flag, a `do_commit` whose staging
succeeds runs the rollup iff the flag is `FORCE_ROLLUP`, or the flag is
`ALLOW_ROLLUP` and `need_rollup` fires.  `need_rollup` is called only in such
a commit under `ALLOW_ROLLUP`; it bumps its 32-bit call counter and fires when
the new value is a multiple of 3.  Counting its calls over any sequence of
commits that starts with the counter at zero, call number `k` fires iff
`k mod 2 ^ 32` is a multiple of 3; below `2 ^ 32` calls that is: iff `k` is a
multiple of 3, every 3rd call and not every 3rd delta commit.  When the rollup
runs, `sb.rollup` advances by one (modulo `2 ^ 32`) and the log records of the
commit are `DELTA`, `ROLLUP`, `FREEBLOCKS`, some `BFREE_RELOG` records, and a
second `DELTA` exactly when `rollup_log` returns 0.  When no rollup runs, in
particular with `NO_ROLLUP`, `sb.rollup` is unchanged, the only log record is
one `DELTA`, and `logcount` is not reset: it is unchanged or has grown by the
number of staged log blocks.  When staging fails neither `sb.rollup` nor the
call counter changes. -/
theorem do_commit_rollup_policy (env : Env) (rollup_flag : rollup_flags) (s : Sb) :
    ((do_commit_stage env s).1 = some 0 →
      (runs_rollup env rollup_flag s = true ↔
        rollup_flag = rollup_flags.FORCE_ROLLUP ∨
          (rollup_flag = rollup_flags.ALLOW_ROLLUP ∧
            (need_rollup (do_commit_stage env s).2).1 = true)) ∧
      ((need_rollup (do_commit_stage env s).2).1 = true ↔
        u32 (s.need_rollup_crudehack + 1) % 3 = 0) ∧
      (do_commit env rollup_flag s).2.need_rollup_crudehack =
        (if rollup_flag = rollup_flags.ALLOW_ROLLUP then u32 (s.need_rollup_crudehack + 1)
          else s.need_rollup_crudehack) ∧
      (runs_rollup env rollup_flag s = true →
        (do_commit env rollup_flag s).2.rollup = u32 (s.rollup + 1) ∧
        ∃ rest, (∀ x ∈ rest, x.is_bfree_relog) ∧
          logged (calls_since s (do_commit env rollup_flag s).2) =
            [LogEntry.DELTA, LogEntry.ROLLUP, LogEntry.FREEBLOCKS s.freeblocks] ++ rest ++
              (if (rollup_log env (rollup_wanted rollup_flag (do_commit_stage env s).2).2).1 =
                  some 0 then [LogEntry.DELTA] else [])) ∧
      (runs_rollup env rollup_flag s = false →
        (do_commit env rollup_flag s).2.rollup = s.rollup ∧
        logged (calls_since s (do_commit env rollup_flag s).2) = [LogEntry.DELTA] ∧
        ((do_commit env rollup_flag s).2.super.logcount = s.super.logcount ∨
          (do_commit env rollup_flag s).2.super.logcount =
            cpu_to_be 4 (u32 (u32 (be_to_cpu s.super.logcount) + (log_delta env s).lognext)))) ∧
      (rollup_flag = rollup_flags.NO_ROLLUP → runs_rollup env rollup_flag s = false) ∧
      (∀ s0 fs, s0.need_rollup_crudehack = 0 → do_commits env fs s0 = s →
        ((need_rollup (do_commit_stage env s).2).1 = true ↔
          (need_rollup_calls env fs s0 + 1) % 2 ^ 32 % 3 = 0) ∧
        (need_rollup_calls env fs s0 + 1 < 2 ^ 32 →
          ((need_rollup (do_commit_stage env s).2).1 = true ↔
            3 ∣ need_rollup_calls env fs s0 + 1)))) ∧
    ((do_commit_stage env s).1 ≠ some 0 →
      (do_commit env rollup_flag s).2.rollup = s.rollup ∧
      (do_commit env rollup_flag s).2.need_rollup_crudehack = s.need_rollup_crudehack) := by
  have hc := do_commit_counters env rollup_flag s
  have hr : (do_commit env rollup_flag s).2.rollup = _ := congrArg (fun c => c.2.1) hc
  have hn : (do_commit env rollup_flag s).2.need_rollup_crudehack = _ :=
    congrArg (fun c => c.2.2.2) hc
  simp only at hr hn
  have hw := (rollup_wanted_frame rollup_flag (do_commit_stage env s).2).2.2.2.2
  have hrun : runs_rollup env rollup_flag s =
    (rollup_wanted rollup_flag (do_commit_stage env s).2).1 := rfl
  have hnr : (do_commit_stage env s).2.need_rollup_crudehack = s.need_rollup_crudehack :=
    congrArg (fun c => c.2.2.2) (do_commit_stage_frame env s).1
  refine ⟨fun hst => ?_, fun hst => ?_⟩
  · obtain ⟨g1, g2⟩ := do_commit_logged env rollup_flag s hst
    refine ⟨by rw [hrun]; exact hw, by rw [need_rollup_spec, hnr], ?_, fun h => ?_, fun h => ?_,
      fun h => ?_, fun s0 fs h0 hs => ?_⟩
    · rw [hn]
      simp only [hst, true_and]
    · refine ⟨?_, g2 h⟩
      rw [hr]
      simp only [hst, h, and_self, ↓reduceIte]
    · refine ⟨?_, g1 h⟩
      rw [hr]
      simp only [hst, h, Bool.false_eq_true, and_false, ↓reduceIte]
    · cases hx : runs_rollup env rollup_flag s with
      | false => rfl
      | true =>
        rw [hrun] at hx
        rcases hw.mp hx with h1 | ⟨h1, _⟩ <;> rw [h] at h1 <;> exact rollup_flags.noConfusion h1
    · have hk := do_commits_need_rollup_counter env fs s0 (by rw [h0]; norm_num)
      rw [hs, h0, Nat.zero_add] at hk
      have hfire : (need_rollup (do_commit_stage env s).2).1 = true ↔
          (need_rollup_calls env fs s0 + 1) % 2 ^ 32 % 3 = 0 := by
        rw [need_rollup_spec, hnr, hk, u32_u32_succ]
      refine ⟨hfire, fun hlt => ?_⟩
      rw [hfire, Nat.mod_eq_of_lt hlt]
      exact (Nat.dvd_iff_mod_eq_zero ..).symm
  · rw [hr, hn]
    simp only [hst, false_and, ↓reduceIte, and_self]

/-- Witness for `do_commit_rollup_policy`: on the idle volume, after two
commits with `ALLOW_ROLLUP` the third one makes call number 3 of
`need_rollup`, which fires, and advances `sb.rollup` to 1; a commit with
`NO_ROLLUP` leaves it at 0. -/
theorem do_commit_rollup_policy_witness :
    (do_commit env0 rollup_flags.ALLOW_ROLLUP
      (do_commits env0 [rollup_flags.ALLOW_ROLLUP, rollup_flags.ALLOW_ROLLUP] sb0)).2.rollup = 1 ∧
    (do_commit env0 rollup_flags.NO_ROLLUP sb0).2.rollup = 0 :=
  have h1 := (do_commit_rollup_policy env0 rollup_flags.ALLOW_ROLLUP
    (do_commits env0 [rollup_flags.ALLOW_ROLLUP, rollup_flags.ALLOW_ROLLUP] sb0)).1 (by decide)
  have h2 := (do_commit_rollup_policy env0 rollup_flags.NO_ROLLUP sb0).1 (by decide)
  have hfire := (h1.2.2.2.2.2.2 sb0 [rollup_flags.ALLOW_ROLLUP, rollup_flags.ALLOW_ROLLUP] rfl
    rfl).1.mpr (by decide)
  ⟨(h1.2.2.2.1 (h1.1.mpr (Or.inr ⟨rfl, hfire⟩))).1.trans (by decide),
   (h2.2.2.2.2.1 (h2.2.2.2.2.2.1 rfl)).1⟩

end Tux3
